import Mathlib

/-!
# MavToPass v2.59.6: sensor scheduler, S.Port framing and prep_number

A shallow embedding of the FrSky S.Port part of `main.cpp`
(`SPort_Init`, `SPort_Inject_Packet`, `PushToEmptyRow`, `SPort_SendByte`,
`CheckByteStuffAndSend`, `SPort_SendCrc`, `SPort_SendDataFrame`, `prep_number`)
followed by theorems about it.

Conventions
* unsigned machine integers are `Nat`, reduced `% 2^w` where the C code can wrap;
  `int16_t` values are `Int`, narrowed with `toInt16`;
* the globals touched by the embedded functions are the fields of `State`;
* `millis()` is an argument (`sb_now` / `now`) of the function that reads it;
* `sb_rows` is declared outside the available sources: it is the length of the
  table `State.sb`;
* the two byte views `(uint8_t*)&Id` and `(uint8_t*)&value` are little-endian, as on
  the supported targets (ESP32, ESP8266, Teensy 3.x).
-/

namespace MavToPass

/-! ## Data model -/

/-- Translator role `set.trmode`. -/
inductive TrMode where
  | ground
  | air
  | relay
deriving DecidableEq, Repr

/-- One row of the sensor table `sb[]` (type `sb_t`; the declaration is outside the
available sources, the fields are those the code reads and writes). -/
structure sb_t where
  id : Nat
  subid : Nat
  millis : Nat
  payload : Nat
  inuse : Bool
deriving DecidableEq, Repr, Inhabited

/-- The globals used by the S.Port functions. -/
structure State where
  sb : List sb_t
  crc : Nat
  out : List Nat
  fr_payload : Nat
  mavGood : Bool
  trmode : TrMode
  sb_unsent : Nat
  sens_buf_full_count : Nat
deriving DecidableEq, Repr

/-- Narrowing conversion to `int16_t` (two's complement wrap). -/
def toInt16 (x : Int) : Int := (x + 32768) % 65536 - 32768

/-! ## Outbound framing -/

/-- `frSerialSafeWrite`: one byte goes out on the S.Port serial line. -/
def frSerialSafeWrite (b : Nat) (s : State) : State :=
  { s with out := s.out ++ [b] }

/-- `CheckByteStuffAndSend`. -/
def CheckByteStuffAndSend (byte : Nat) (s : State) : State :=
  if byte = 0x7E then
    frSerialSafeWrite 0x5E (frSerialSafeWrite 0x7D s)
  else if byte = 0x7D then
    frSerialSafeWrite 0x5D (frSerialSafeWrite 0x7D s)
  else
    frSerialSafeWrite byte s

/-- The checksum update of `SPort_SendByte`:
`crc += byte; crc += crc >> 8; crc &= 0x00ff; crc += crc >> 8; crc &= 0x00ff;`
(`crc` is a `short`; it holds values up to 0x1FF + 1 here, so it never overflows). -/
def crcUpdate (crc byte : Nat) : Nat :=
  let c1 := crc + byte
  let c2 := c1 + (c1 >>> 8)
  let c3 := c2 &&& 0x00ff
  let c4 := c3 + (c3 >>> 8)
  c4 &&& 0x00ff

/-- `SPort_SendByte` (with `inhibit_SPort` not defined). -/
def SPort_SendByte (byte : Nat) (addCrc : Bool) (s : State) : State :=
  if !addCrc then
    frSerialSafeWrite byte s
  else
    let s1 := CheckByteStuffAndSend byte s
    { s1 with crc := crcUpdate s1.crc byte }

/-- `SPort_SendCrc`: `byte = 0xFF - crc` narrowed to `uint8_t`. -/
def SPort_SendCrc (s : State) : State :=
  let byte := (0xFF + 256 - s.crc % 256) % 256
  let s1 := CheckByteStuffAndSend byte s
  { s1 with crc := 0 }

/-- `SPort_SendDataFrame(Instance, Id, value)`. -/
def SPort_SendDataFrame (Instance Id value : Nat) (s : State) : State :=
  let Id := Id % 65536
  let value := value % 4294967296
  let s0 :=
    if s.trmode = TrMode.ground then
      SPort_SendByte (Instance % 256) false (SPort_SendByte 0x7E false s)
    else s
  let s1 := SPort_SendByte 0x10 true s0
  let s2 := SPort_SendByte (Id % 256) true s1
  let s3 := SPort_SendByte (Id / 256 % 256) true s2
  let s4 := SPort_SendByte (value % 256) true s3
  let s5 := SPort_SendByte (value / 256 % 256) true s4
  let s6 := SPort_SendByte (value / 65536 % 256) true s5
  let s7 := SPort_SendByte (value / 16777216 % 256) true s6
  SPort_SendCrc s7

/-! ## Sensor table -/

/-- `SPort_Init`, the table part: every row gets `id = subid = millis = 0` and
`inuse = false`. -/
def SPort_Init (s : State) : State :=
  { s with sb := s.sb.map (fun r => { r with id := 0, subid := 0, millis := 0, inuse := false }) }

/-- The free-row scan of `PushToEmptyRow`: `while (sb[j].inuse) j++`. The loop has no
bound check; running off the end of the table is an out-of-bounds read, modelled as
`none`. -/
def findFreeRow : List sb_t → Nat → Option Nat
  | [], _ => none
  | r :: rs, j => if r.inuse then findFreeRow rs (j + 1) else some j

/-- `PushToEmptyRow(pter)` called when `millis()` returns `now`. -/
def PushToEmptyRow (now : Nat) (pter : sb_t) (s : State) : Option State :=
  match findFreeRow s.sb 0 with
  | none => none
  | some j =>
    if j + 1 ≥ s.sb.length then
      some { s with sens_buf_full_count := s.sens_buf_full_count + 1 }
    else
      some { s with
        sb_unsent := s.sb_unsent + 1
        sb := s.sb.set j { pter with millis := now, inuse := true } }

/-- The local variables of the scan loop of `SPort_Inject_Packet`. -/
structure Scan where
  sb_max_tier1 : Int
  sb_max_tier2 : Int
  ptr_tier1 : Nat
  ptr_tier2 : Nat
  sb_unsent : Nat
deriving DecidableEq, Repr

/-- `sb_age = (sb_now - sb[i].millis)`: an unsigned 32-bit difference narrowed to
`int16_t`. -/
def sb_age (sb_now : Nat) (r : sb_t) : Int :=
  toInt16 ((((sb_now : Int) - (r.millis : Int)) % 4294967296))

/-- `sb_subid_age = sb_age - sb[i].subid`, again an `int16_t`. -/
def sb_subid_age (sb_now : Nat) (r : sb_t) : Int :=
  toInt16 (sb_age sb_now r - (r.subid : Int))

/-- One pass of the body of `while (i < sb_rows)` for row `i`. -/
def scanStep (sb_now : Nat) (acc : Scan) (i : Nat) (r : sb_t) : Scan :=
  if r.inuse then
    let acc1 := { acc with sb_unsent := acc.sb_unsent + 1 }
    if r.id = 0x5000 then
      if sb_subid_age sb_now r ≥ acc1.sb_max_tier2 then
        { acc1 with sb_max_tier2 := sb_subid_age sb_now r, ptr_tier2 := i }
      else acc1
    else
      if sb_subid_age sb_now r ≥ acc1.sb_max_tier1 then
        { acc1 with sb_max_tier1 := sb_subid_age sb_now r, ptr_tier1 := i }
      else acc1
  else acc

/-- The scan loop over the rows from index `i` on. -/
def scanLoop (sb_now : Nat) : List sb_t → Nat → Scan → Scan
  | [], _, acc => acc
  | r :: rs, i, acc => scanLoop sb_now rs (i + 1) (scanStep sb_now acc i r)

/-- The locals at loop entry. -/
def scanInit : Scan :=
  { sb_max_tier1 := 0, sb_max_tier2 := 0, ptr_tier1 := 0, ptr_tier2 := 0, sb_unsent := 0 }

/-- The tier choice after the loop: the pair `(ptr, sb_max)`. -/
def choosePtr (sc : Scan) : Nat × Int :=
  if sc.sb_max_tier1 = 0 then
    if sc.sb_max_tier2 > 0 then (sc.ptr_tier2, sc.sb_max_tier2) else (0, 0)
  else (sc.ptr_tier1, sc.sb_max_tier1)

/-- The row `SPort_Inject_Packet` sends at time `sb_now`, if any: `ptr` when
`sb_max > 0`. -/
def popPtr (sb_now : Nat) (sb : List sb_t) : Option Nat :=
  let c := choosePtr (scanLoop sb_now sb 0 scanInit)
  if c.2 > 0 then some c.1 else none

/-- `SPort_Inject_Packet` called when `millis()` returns `sb_now`. -/
def SPort_Inject_Packet (sb_now : Nat) (s : State) : State :=
  let s0 := { s with fr_payload := 0 }
  if !s0.mavGood then s0
  else
    let sc := scanLoop sb_now s0.sb 0 scanInit
    let s1 := { s0 with sb_unsent := sc.sb_unsent }
    match popPtr sb_now s1.sb with
    | none => s1
    | some ptr =>
      let row := s1.sb.getD ptr default
      let s2 :=
        if row.id = 0xF101 then
          if s1.trmode ≠ TrMode.relay then
            SPort_SendByte 0x1B false (SPort_SendByte 0x7E false s1)
          else s1
        else s1
      let s3 := SPort_SendDataFrame 0x1B row.id row.payload s2
      { s3 with sb := s3.sb.set ptr { row with payload := 0, inuse := false } }

/-! ## prep_number -/

/-- Number of significant bits of `p`, for `p < 2 ^ fuel`. -/
def bitLength : Nat → Nat → Nat
  | 0, _ => 0
  | fuel + 1, p => if p = 0 then 0 else bitLength fuel (p / 2) + 1

/-- IEEE-754 binary32 rounding (24-bit significand, round to nearest, ties to even)
of the integer `p < 2^64`, normal range. Rounding `p * 2^(-e)` gives the same
significand, so it also rounds a value given as a numerator over a power of two. -/
def f32round (p : Nat) : Nat :=
  let len := bitLength 64 p
  if len ≤ 24 then p
  else
    let sh := len - 24
    let q := p / 2 ^ sh
    let r := p % 2 ^ sh
    let half := 2 ^ (sh - 1)
    let q1 := if r > half ∨ (r = half ∧ q % 2 = 1) then q + 1 else q
    q1 * 2 ^ sh

/-- `roundf(abs_number * c)` for the binary32 constant `c = M * 2^(-E)` with
`M < 2^24`: the `uint32_t` is converted to `float`, the product is rounded to `float`,
and `roundf` rounds half away from zero. -/
def roundf_mul (abs_number M E : Nat) : Nat :=
  let a := f32round abs_number
  let x := f32round (a * M)
  (2 * x + 2 ^ E) / 2 ^ (E + 1)

/-- `roundf(abs_number * 0.1f)`; `0.1f` is `0x3DCCCCCD = 13421773 * 2^(-27)`. -/
def roundf_tenth (abs_number : Nat) : Nat := roundf_mul abs_number 13421773 27

/-- `roundf(abs_number * 0.01f)`; `0.01f` is `0x3C23D70A = 10737418 * 2^(-30)`. -/
def roundf_hundredth (abs_number : Nat) : Nat := roundf_mul abs_number 10737418 30

/-- `roundf(abs_number * 0.001f)`; `0.001f` is `0x3A83126F = 8589935 * 2^(-33)`. -/
def roundf_thousandth (abs_number : Nat) : Nat := roundf_mul abs_number 8589935 33

/-- `prep_number(number, digits, power)` for an `int32_t` number; the result is a
`uint16_t`. `abs(number)` stored in the `uint32_t abs_number` is the magnitude (2^31 for
the most negative number). -/
def prep_number (number : Int) (digits power : Nat) : Nat :=
  let abs_number := number.natAbs % 4294967296
  if digits = 1 ∧ power = 1 then
    let res :=
      if abs_number < 10 then (abs_number <<< 1) % 65536
      else if abs_number < 150 then (((roundf_tenth abs_number % 256) <<< 1) ||| 0x1) % 65536
      else 0x1F
    if number < 0 then res ||| (0x1 <<< 5) else res
  else if digits = 2 ∧ power = 1 then
    let res :=
      if abs_number < 100 then (abs_number <<< 1) % 65536
      else if abs_number < 1270 then (((roundf_tenth abs_number % 256) <<< 1) ||| 0x1) % 65536
      else 0xFF
    if number < 0 then res ||| (0x1 <<< 8) else res
  else if digits = 2 ∧ power = 2 then
    let res :=
      if abs_number < 100 then (abs_number <<< 2) % 65536
      else if abs_number < 1000 then (((roundf_tenth abs_number % 256) <<< 2) ||| 0x1) % 65536
      else if abs_number < 10000 then
        (((roundf_hundredth abs_number % 256) <<< 2) ||| 0x2) % 65536
      else if abs_number < 127000 then
        (((roundf_thousandth abs_number % 256) <<< 2) ||| 0x3) % 65536
      else 0x1FF
    if number < 0 then res ||| (0x1 <<< 9) else res
  else if digits = 3 ∧ power = 1 then
    let res :=
      if abs_number < 1000 then (abs_number <<< 1) % 65536
      else if abs_number < 10240 then
        (((roundf_tenth abs_number % 65536) <<< 1) ||| 0x1) % 65536
      else 0x7FF
    if number < 0 then res ||| (0x1 <<< 11) else res
  else if digits = 3 ∧ power = 2 then
    let res :=
      if abs_number < 1000 then (abs_number <<< 2) % 65536
      else if abs_number < 10000 then
        (((roundf_tenth abs_number % 65536) <<< 2) ||| 0x1) % 65536
      else if abs_number < 100000 then
        (((roundf_hundredth abs_number % 65536) <<< 2) ||| 0x2) % 65536
      else if abs_number < 1024000 then
        (((roundf_thousandth abs_number % 65536) <<< 2) ||| 0x3) % 65536
      else 0xFFF
    if number < 0 then res ||| (0x1 <<< 12) else res
  else 0

/-! ## Reference definitions used to state the properties

These follow the wording of the specification; each is compared with the embedded code
in the theorems below. -/

/-- Specification side: the escape `0x7E -> 0x7D,0x5E`, `0x7D -> 0x7D,0x5D`. -/
def spec_stuff (b : Nat) : List Nat :=
  if b = 0x7E then [0x7D, 0x5E] else if b = 0x7D then [0x7D, 0x5D] else [b]

/-- Specification side: de-stuffing, `0x7D` followed by `x` decodes to `x XOR 0x20`, any
other byte decodes to itself. -/
def spec_destuff : List Nat → List Nat
  | [] => []
  | [b] => [b]
  | b :: x :: rest =>
    if b = 0x7D then (x ^^^ 0x20) :: spec_destuff rest else b :: spec_destuff (x :: rest)

/-- Specification side: the same de-stuffing, accepting complete escapes only: a 0x7D with
no byte behind it does not decode. -/
def spec_destuff_strict : List Nat → Option (List Nat)
  | [] => some []
  | [b] => if b = 0x7D then none else some [b]
  | b :: x :: rest =>
    if b = 0x7D then (spec_destuff_strict rest).map (fun r => (x ^^^ 0x20) :: r)
    else (spec_destuff_strict (x :: rest)).map (fun r => b :: r)

/-- Specification side: the seven unescaped bytes of a data frame, the data-framing
byte, the id and the payload in little-endian order. -/
def spec_frameData (Id value : Nat) : List Nat :=
  [0x10, Id % 256, Id / 256 % 256,
   value % 256, value / 256 % 256, value / 65536 % 256, value / 16777216 % 256]

/-- Specification side: the running checksum of a byte sequence, from the start value
`c`, with the update of `SPort_SendByte`. -/
def spec_checksum (c : Nat) (bs : List Nat) : Nat := bs.foldl crcUpdate c

/-- Specification side: the stuffed frame after the start marker and instance byte, for
a checksum that starts at `c`. -/
def spec_frameBody (c Id value : Nat) : List Nat :=
  (spec_frameData Id value).flatMap spec_stuff ++
    spec_stuff (0xFF - spec_checksum c (spec_frameData Id value))

/-- Specification side: the bytes of one frame; the start marker and instance byte are
present in ground mode only. -/
def spec_frame (mode : TrMode) (Instance c Id value : Nat) : List Nat :=
  (if mode = TrMode.ground then [0x7E, Instance] else []) ++ spec_frameBody c Id value

/-- Specification side: `age = now - enqueue_time - sub_id`, over the integers. -/
def spec_age (now : Nat) (r : sb_t) : Int := (now : Int) - (r.millis : Int) - (r.subid : Int)

/-- The row was enqueued at or before `now` and less than 32768 ms ago, so that neither
`sb_age` nor `sb_subid_age` loses anything in its 16 bits. -/
def ageFits (now : Nat) (r : sb_t) : Prop :=
  r.millis ≤ now ∧ now < r.millis + 32768 ∧ r.subid ≤ 32768 ∧ now < 4294967296

instance (now : Nat) (r : sb_t) : Decidable (ageFits now r) := by
  unfold ageFits; exact inferInstance

/-- The bytes `SPort_Inject_Packet` puts in front of the frame of row `r`: the start
marker and instance byte for an RSSI row (id 0xF101) outside relay mode. -/
def rssiMarker (mode : TrMode) (r : sb_t) : List Nat :=
  if r.id = 0xF101 ∧ mode ≠ TrMode.relay then [0x7E, 0x1B] else []

/-- Row `r` at index `p` is the one `SPort_Inject_Packet` transmits at `now`: its frame
goes out, row `p` is freed and no other row changes. -/
def transmits (now : Nat) (s : State) (p : Nat) (r : sb_t) : Prop :=
  s.sb[p]? = some r ∧
  (SPort_Inject_Packet now s).sb = s.sb.set p { r with payload := 0, inuse := false } ∧
  (SPort_Inject_Packet now s).out =
    s.out ++ rssiMarker s.trmode r ++ spec_frame s.trmode 0x1B s.crc r.id r.payload

/-- The row as `PushToEmptyRow` stores it when called at time `t`. -/
def stored (p : Nat × sb_t) : sb_t := { p.2 with millis := p.1, inuse := true }

/-- A sequence of pushes `(time, record)` with no pop in between. -/
def pushAll : List (Nat × sb_t) → State → Option State
  | [], s => some s
  | p :: rest, s => (PushToEmptyRow p.1 p.2 s).bind (pushAll rest)

/-- The record a pop at time `t` transmits, if any. -/
def popped (t : Nat) (s : State) : Option sb_t :=
  if s.mavGood then (popPtr t s.sb).map (fun p => s.sb.getD p default) else none

/-- Successive pops at the given times: the records transmitted, in order. -/
def popTrace : List Nat → State → List (Option sb_t)
  | [], _ => []
  | t :: ts, s => popped t s :: popTrace ts (SPort_Inject_Packet t s)

/-- The state reached after successive pops at the given times. -/
def popAll : List Nat → State → State
  | [], s => s
  | t :: ts, s => popAll ts (SPort_Inject_Packet t s)

/-- Record `a` leaves the table no later than record `b`: status text (0x5000) never
goes before another id, and within a tier the greater `age - sub_id` goes first. -/
def leavesBefore (a b : sb_t) : Prop :=
  (a.id = 0x5000 → b.id = 0x5000) ∧
  ((a.id = 0x5000 ↔ b.id = 0x5000) → ∀ t : Nat, spec_age t b ≤ spec_age t a)

/-- Specification side: decoding of a `prep_number` field, a mantissa of `mantBits` bits
above an exponent selector of `expBits` bits, as mantissa x 10^exponent. -/
def spec_decode (mantBits expBits res : Nat) : Nat :=
  ((res >>> expBits) % 2 ^ mantBits) * 10 ^ (res % 2 ^ expBits)

/-! ## The field layout of prep_number -/

/-- Specification side: the decoded value of the field `res` differs from `a` by at
most one unit of the last encoded digit, `10 ^ exponent`. -/
def withinOneUnit (mantBits expBits res a : Nat) : Prop :=
  spec_decode mantBits expBits res ≤ a + 10 ^ (res % 2 ^ expBits) ∧
  a ≤ spec_decode mantBits expBits res + 10 ^ (res % 2 ^ expBits)

/-- The field `prep_number` builds from a mantissa `m`, an exponent selector `e` and the
sign: `res = (m << expBits) | e`, then `res |= 1 << (mantBits + expBits)` when
negative. -/
def packField (mantBits expBits m e : Nat) (neg : Bool) : Nat :=
  let res := ((m <<< expBits) ||| e) % 65536
  if neg then res ||| (0x1 <<< (mantBits + expBits)) else res

/-- The mantissa `prep_number` encodes for the magnitude `a` in class (digits, power). -/
def prepMantissa (digits power a : Nat) : Nat :=
  if digits = 1 ∧ power = 1 then
    if a < 10 then a else if a < 150 then roundf_tenth a % 256 else 15
  else if digits = 2 ∧ power = 1 then
    if a < 100 then a else if a < 1270 then roundf_tenth a % 256 else 127
  else if digits = 2 ∧ power = 2 then
    if a < 100 then a else if a < 1000 then roundf_tenth a % 256
    else if a < 10000 then roundf_hundredth a % 256
    else if a < 127000 then roundf_thousandth a % 256 else 127
  else if digits = 3 ∧ power = 1 then
    if a < 1000 then a else if a < 10240 then roundf_tenth a % 65536 else 1023
  else
    if a < 1000 then a else if a < 10000 then roundf_tenth a % 65536
    else if a < 100000 then roundf_hundredth a % 65536
    else if a < 1024000 then roundf_thousandth a % 65536 else 1023

/-- The exponent selector `prep_number` encodes for the magnitude `a`. -/
def prepExponent (digits power a : Nat) : Nat :=
  if power = 1 then
    if a < 10 ^ digits then 0 else 1
  else
    if a < 10 ^ digits then 0 else if a < 10 ^ (digits + 1) then 1
    else if a < 10 ^ (digits + 2) then 2 else 3

/-! ## Example states -/

/-- A connected start-up state (checksum 0, nothing written yet) with the given table. -/
def blankState (rows : List sb_t) (mode : TrMode) : State :=
  { sb := rows, crc := 0, out := [], fr_payload := 0, mavGood := true, trmode := mode,
    sb_unsent := 0, sens_buf_full_count := 0 }

/-- An in-use row. -/
def row (id subid millis payload : Nat) : sb_t :=
  { id := id, subid := subid, millis := millis, payload := payload, inuse := true }

/-- A free row as `SPort_Init` leaves it. -/
def freeRow : sb_t := { id := 0, subid := 0, millis := 0, payload := 0, inuse := false }

/-! ## Bit packing -/

/-- `createMask(lo, hi)`: `r |= 1 << i` for `i = lo .. hi`, the result a `uint32_t`. A
shift by 32 or more, which has no defined value, contributes nothing here. -/
def createMask (lo hi : Nat) : Nat :=
  (List.range' lo (hi + 1 - lo)).foldl (fun r i => r ||| ((1 <<< i) % 4294967296)) 0

/-- `bit32Pack(dword, displ, lth)`: `fr_payload |= (dword << displ) & createMask(displ,
displ + lth - 1)`. `displ` and `lth` are `uint8_t`, and so is the second argument of
`createMask` (`displ + lth - 1` reduced modulo 256). -/
def bit32Pack (dword displ lth : Nat) (s : State) : State :=
  let displ := displ % 256
  let lth := lth % 256
  let dw_and_mask :=
    (((dword % 4294967296) <<< displ) % 4294967296) &&&
      createMask displ ((displ + lth + 255) % 256)
  { s with fr_payload := s.fr_payload ||| dw_and_mask }

/-- `bit32Unpack(dword, displ, lth)`: `(dword & createMask(displ, displ + lth - 1)) >>
displ`. -/
def bit32Unpack (dword displ lth : Nat) : Nat :=
  let displ := displ % 256
  let lth := lth % 256
  ((dword % 4294967296) &&& createMask displ ((displ + lth + 255) % 256)) >>> displ

/-- `bit32Extract(dword, displ, lth)`, the same body as `bit32Unpack`. -/
def bit32Extract (dword displ lth : Nat) : Nat :=
  let displ := displ % 256
  let lth := lth % 256
  ((dword % 4294967296) &&& createMask displ ((displ + lth + 255) % 256)) >>> displ

/-- `Abs(num)` for an `int32_t`: `(num ^ 0xffffffff) + 1` in unsigned 32-bit arithmetic
when `num < 0`, else `num`. -/
def Abs (num : Int) : Nat :=
  if num < 0 then ((((num % 4294967296).toNat) ^^^ 0xffffffff) + 1) % 4294967296
  else (num % 4294967296).toNat

/-! ## Telemetry state -/

/-- `Loc2D`: a position. Each of the four `float`s is kept as the integer that stands for
it; `MarkHome` only copies them. -/
structure Loc2D where
  lat : Int
  lon : Int
  alt : Int
  hdg : Int
deriving DecidableEq, Repr

/-- The globals read and written by the MAVLink decoder, the connection check of the main
loop and the packers modelled below; `sp` holds the globals of the S.Port side (sensor
table, `fr_payload`, `mavGood`). Characters are kept as their codes 0..255. -/
structure Tele where
  sp : State
  sr : sb_t
  hb_count : Nat
  hb_millis : Nat
  homGood : Bool
  hom : Loc2D
  cur : Loc2D
  ap_type_tmp : Nat
  ap_type : Nat
  ap_autopilot : Nat
  ap_base_mode : Nat
  ap_custom_mode : Nat
  ap_system_status : Nat
  ap_mavlink_version : Nat
  px4_main_mode : Nat
  px4_sub_mode : Nat
  px4_flight_stack : Bool
  ap26_temp : Nat
  fr_bat_fs : Nat
  fr_ekf_fs : Nat
  fr_simple : Nat
  fr_armed : Nat
  fr_land_complete : Nat
  fr_flight_mode : Nat
  fr_imu_temp : Nat
  ap_severity : Nat
  ap_text : List Nat
  len : Nat
  ap_txtlth : Nat
  ap_simple : Bool
  fr_severity : Nat
  fr_txtlth : Nat
  fr_text : List Nat
  fr_chunk_idx : Nat
  fr_chunk_num : Nat
  fr_chunk : List Nat
  ap_fixtype : Nat
  ap_lat24 : Int
  ap_lon24 : Int
  ap_lat33 : Int
  ap_lon33 : Int
  fr_gps_status : Nat
  fr_lat : Nat
  fr_lon : Nat
  ms2bits : Nat
deriving DecidableEq, Repr

/-! ## Position packers -/

/-- `PackLat800(id)`, with `millis()` returning `now` inside `PushToEmptyRow`. -/
def PackLat800 (now : Nat) (id : Nat) (t : Tele) : Option Tele :=
  let t := { t with fr_gps_status := if t.ap_fixtype < 3 then t.ap_fixtype else 3 }
  if t.fr_gps_status < 3 then some t
  else
    let t :=
      if t.px4_flight_stack then
        { t with
          fr_lat := Abs t.ap_lat24 / 100 * 6 % 4294967296
          ms2bits := if t.ap_lat24 < 0 then 1 else 0 }
      else
        { t with
          fr_lat := Abs t.ap_lat33 / 100 * 6 % 4294967296
          ms2bits := if t.ap_lat33 < 0 then 1 else 0 }
    let t := { t with sp := { t.sp with fr_payload := 0 } }
    let t := { t with sp := bit32Pack t.fr_lat 0 30 t.sp }
    let t := { t with sp := bit32Pack t.ms2bits 30 2 t.sp }
    let t := { t with sr := { t.sr with id := id, subid := 0, payload := t.sp.fr_payload } }
    (PushToEmptyRow now t.sr t.sp).map (fun sp => { t with sp := sp })

/-- `PackLon800(id)`, with `millis()` returning `now` inside `PushToEmptyRow`. -/
def PackLon800 (now : Nat) (id : Nat) (t : Tele) : Option Tele :=
  let t := { t with fr_gps_status := if t.ap_fixtype < 3 then t.ap_fixtype else 3 }
  if t.fr_gps_status < 3 then some t
  else
    let t :=
      if t.px4_flight_stack then
        { t with
          fr_lon := Abs t.ap_lon24 / 100 * 6 % 4294967296
          ms2bits := if t.ap_lon24 < 0 then 3 else 2 }
      else
        { t with
          fr_lon := Abs t.ap_lon33 / 100 * 6 % 4294967296
          ms2bits := if t.ap_lon33 < 0 then 3 else 2 }
    let t := { t with sp := { t.sp with fr_payload := 0 } }
    let t := { t with sp := bit32Pack t.fr_lon 0 30 t.sp }
    let t := { t with sp := bit32Pack t.ms2bits 30 2 t.sp }
    let t := { t with sr := { t.sr with id := id, subid := 1, payload := t.sp.fr_payload } }
    (PushToEmptyRow now t.sr t.sp).map (fun sp => { t with sp := sp })

/-! ## Status text -/

/-- The length scan of `PackMultipleTextChunks_5000`: `for (i = 0; i < 50; i++) if
(ap_text[i] == 0) { len = i; break; }`, started at `i` with `n` passes left; the result is
the value of `len` afterwards. -/
def textLen (ap_text : List Nat) (len : Nat) : Nat → Nat → Nat
  | 0, _ => len
  | n + 1, i => if ap_text.getD i 0 = 0 then i else textLen ap_text len n (i + 1)

/-- The C string held in a character array: the characters before the first null. -/
def cstring (a : List Nat) : List Nat := a.takeWhile (fun c => c != 0)

/-- The while loop of `PackMultipleTextChunks_5000`, `while (fr_chunk_idx <= fr_txtlth)`,
run for at most `fuel` passes (`none` when they do not suffice, or when `PushToEmptyRow`
runs off the table); `k` counts the calls of `millis()` so far and `clock k` is what the
next call returns. Each character is passed to `bit32Pack` as its code; the bits above
the low seven are masked off there. -/
def textChunkLoop (clock : Nat → Nat) (id : Nat) : Nat → Nat → Tele → Option Tele
  | 0, _, t => if t.fr_chunk_idx ≤ t.fr_txtlth then none else some t
  | fuel + 1, k, t =>
    if t.fr_chunk_idx ≤ t.fr_txtlth then
      let t := { t with fr_chunk_num := t.fr_chunk_idx / 4 + 1 }
      let t := { t with
        fr_chunk := [t.fr_text.getD t.fr_chunk_idx 0, t.fr_text.getD (t.fr_chunk_idx + 1) 0,
          t.fr_text.getD (t.fr_chunk_idx + 2) 0, t.fr_text.getD (t.fr_chunk_idx + 3) 0] }
      let t := { t with sp := { t.sp with fr_payload := 0 } }
      let t := { t with sp := bit32Pack (t.fr_chunk.getD 0 0) 24 7 t.sp }
      let t := { t with sp := bit32Pack (t.fr_chunk.getD 1 0) 16 7 t.sp }
      let t := { t with sp := bit32Pack (t.fr_chunk.getD 2 0) 8 7 t.sp }
      let t := { t with sp := bit32Pack (t.fr_chunk.getD 3 0) 0 7 t.sp }
      let t :=
        if t.fr_chunk_idx + 4 > t.fr_txtlth then
          let t := { t with sp := bit32Pack (t.fr_severity &&& 0x1) 7 1 t.sp }
          let t := { t with sp := bit32Pack ((t.fr_severity &&& 0x2) >>> 1) 15 1 t.sp }
          let t := { t with sp := bit32Pack ((t.fr_severity &&& 0x4) >>> 2) 23 1 t.sp }
          { t with sp := bit32Pack 0 31 1 t.sp }
        else t
      let t := { t with
        sr := { t.sr with id := id, subid := t.fr_chunk_num, payload := t.sp.fr_payload } }
      match PushToEmptyRow (clock k) t.sr t.sp with
      | none => none
      | some sp =>
        textChunkLoop clock id fuel (k + 1)
          { t with sp := sp, fr_chunk_idx := t.fr_chunk_idx + 4 }
    else some t

/-- `PackMultipleTextChunks_5000(id)` with `Send_status_Text_3_Times` not defined.
`ap_text` is a `char[60]`; `clock k` is what the k-th call of `millis()` returns. The loop
makes at most `fr_txtlth / 4 + 1` passes. -/
def PackMultipleTextChunks_5000 (clock : Nat → Nat) (id : Nat) (t : Tele) : Option Tele :=
  let t := { t with len := textLen t.ap_text t.len 50 0 }
  let t := { t with
    ap_text := (((t.ap_text.set (t.len + 1) 0).set (t.len + 2) 0).set (t.len + 3) 0).set
      (t.len + 4) 0 }
  let t := { t with ap_txtlth := t.len }
  let t :=
    if cstring t.ap_text = [83, 73, 77, 80, 76, 69, 32, 109, 111, 100, 101, 32, 111, 110] then
      { t with ap_simple := true }
    else if cstring t.ap_text =
        [83, 73, 77, 80, 76, 69, 32, 109, 111, 100, 101, 32, 111, 102, 102] then
      { t with ap_simple := false }
    else t
  let t := { t with fr_severity := t.ap_severity }
  let t := { t with fr_txtlth := t.ap_txtlth }
  let t := { t with
    fr_text := t.ap_text.take (t.fr_txtlth + 4) ++ t.fr_text.drop (t.fr_txtlth + 4) }
  let t := { t with fr_simple := if t.ap_simple then 1 else 0 }
  let t := { t with fr_chunk_idx := 0 }
  (textChunkLoop clock id (t.fr_txtlth + 1) 0 t).map (fun t => { t with fr_chunk_idx := 0 })

/-! ## Heartbeat, connection state and the MAVLink decoder -/

/-- `PX4FlightModeNum(main, sub)`. -/
def PX4FlightModeNum (main sub : Nat) : Nat :=
  if main = 1 then 0
  else if main = 2 then 1
  else if main = 3 then 2
  else if main = 4 then
    if sub = 1 then 12
    else if sub = 2 then 13
    else if sub = 3 then 14
    else if sub = 4 then 15
    else if sub = 5 then 16
    else if sub = 6 then 17
    else if sub = 7 then 18
    else if sub = 8 then 19
    else if sub = 9 then 20
    else 31
  else if main = 5 then 3
  else if main = 6 then 4
  else if main = 7 then 5
  else if main = 8 then 6
  else if main = 9 then 7
  else 11

/-- `Pack_AP_status_5001(id)`, with `millis()` returning `now` inside `PushToEmptyRow`.
Only the low bits of each field reach the payload, so the fields are kept unreduced. -/
def Pack_AP_status_5001 (now : Nat) (id : Nat) (t : Tele) : Option Tele :=
  if t.ap_type = 6 then some t
  else
    let t := { t with sp := { t.sp with fr_payload := 0 } }
    let t := { t with fr_simple := 0 }
    let t := { t with fr_armed := t.ap_base_mode >>> 7 }
    let t := { t with fr_land_complete := t.fr_armed }
    let t := { t with
      fr_flight_mode :=
        if t.px4_flight_stack then PX4FlightModeNum t.px4_main_mode t.px4_sub_mode
        else t.ap_custom_mode + 1 }
    let t := { t with fr_imu_temp := t.ap26_temp }
    let t := { t with sp := bit32Pack t.fr_flight_mode 0 5 t.sp }
    let t := { t with sp := bit32Pack t.fr_simple 5 2 t.sp }
    let t := { t with sp := bit32Pack t.fr_land_complete 7 1 t.sp }
    let t := { t with sp := bit32Pack t.fr_armed 8 1 t.sp }
    let t := { t with sp := bit32Pack t.fr_bat_fs 9 1 t.sp }
    let t := { t with sp := bit32Pack t.fr_ekf_fs 10 2 t.sp }
    let t := { t with sp := bit32Pack (if t.px4_flight_stack then 1 else 0) 12 1 t.sp }
    let t := { t with sp := bit32Pack t.fr_imu_temp 26 6 t.sp }
    let t := { t with sr := { t.sr with id := id, subid := 0, payload := t.sp.fr_payload } }
    (PushToEmptyRow now t.sr t.sp).map (fun sp => { t with sp := sp })

/-- `MarkHome()`. -/
def MarkHome (t : Tele) : Tele :=
  { t with
    homGood := true
    hom := { t.hom with lat := t.cur.lat, lon := t.cur.lon, alt := t.cur.alt, hdg := t.cur.hdg } }

/-- A received MAVLink message, by the cases of the `switch` in `DecodeOneMavFrame`: the
fields of a HEARTBEAT (#0) and of a STATUSTEXT (#253), or any other message id. -/
inductive MavMsg where
  | heartbeat (type autopilot base_mode custom_mode system_status mavlink_version : Nat)
  | statustext (severity : Nat) (text : List Nat)
  | other (msgid : Nat)
deriving DecidableEq, Repr

/-- The statement `if ((ap_base_mode >> 7) && (!homGood)) MarkHome();` of the HEARTBEAT
case. -/
def markHomeWhenArmed (t : Tele) : Tele :=
  if t.ap_base_mode >>> 7 ≠ 0 ∧ t.homGood = false then MarkHome t else t

/-- The statements `hb_count++; if (!mavGood) { if (hb_count >= 3) mavGood = true; }` of
the HEARTBEAT case. -/
def countHeartbeat (t : Tele) : Tele :=
  let t := { t with hb_count := t.hb_count + 1 }
  if t.sp.mavGood = false then
    if t.hb_count ≥ 3 then { t with sp := { t.sp with mavGood := true } } else t
  else t

/-- `DecodeOneMavFrame()` on the received message `msg`; `clock k` is what the k-th call
of `millis()` returns. `PackSensorTable(0x5001, 0)` and `PackSensorTable(0x5000, 0)`
dispatch to `Pack_AP_status_5001(0x5001)` and `PackMultipleTextChunks_5000(0x5000)`.
`mavlink_msg_statustext_get_text` copies the 50 characters of the message into
`ap_text[0..49]` and returns 50. Every case other than HEARTBEAT and STATUSTEXT, the
default case included, starts with `if (!mavGood) break;` (GLOBAL_POSITION_INT with a
fix test in the same condition), is a bare `break;`, or is compiled empty and falls
through to such a case; what a case does after its guard is the parameter `rest`. -/
def DecodeOneMavFrame (rest : Nat → Tele → Option Tele) (clock : Nat → Nat) (msg : MavMsg)
    (t : Tele) : Option Tele :=
  match msg with
  | .heartbeat type autopilot base_mode custom_mode system_status mavlink_version =>
    let t := { t with ap_type_tmp := type }
    if t.ap_type_tmp = 5 ∨ t.ap_type_tmp = 6 ∨ t.ap_type_tmp = 27 then some t
    else
      let t := { t with ap_type := t.ap_type_tmp }
      let t := { t with ap_autopilot := autopilot }
      let t := { t with ap_base_mode := base_mode }
      let t := { t with ap_custom_mode := custom_mode }
      let t := { t with px4_main_mode := bit32Extract t.ap_custom_mode 16 8 }
      let t := { t with px4_sub_mode := bit32Extract t.ap_custom_mode 24 8 }
      let t := { t with px4_flight_stack := decide (t.ap_autopilot = 12) }
      let t := { t with ap_system_status := system_status }
      let t := { t with ap_mavlink_version := mavlink_version }
      let t := { t with hb_millis := clock 0 }
      let t := markHomeWhenArmed t
      let t := countHeartbeat t
      Pack_AP_status_5001 (clock 1) 0x5001 t
  | .statustext severity text =>
    let t := { t with ap_severity := severity }
    let t := { t with
      ap_text := (text ++ List.replicate 50 0).take 50 ++ t.ap_text.drop 50
      len := 50 }
    PackMultipleTextChunks_5000 clock 0x5000 t
  | .other msgid => if t.sp.mavGood = false then some t else rest msgid t

/-- The `Check FC Mavlink Timeout` statement of the main loop, `millis()` returning
`now`: `if (mavGood && (millis() - hb_millis) > 6000) { mavGood = false; hb_count = 0; }`,
the difference taken in unsigned 32-bit arithmetic. -/
def mavTimeoutCheck (now : Nat) (t : Tele) : Tele :=
  if t.sp.mavGood = true ∧
      (now % 4294967296 + 4294967296 - t.hb_millis % 4294967296) % 4294967296 > 6000 then
    { t with sp := { t.sp with mavGood := false }, hb_count := 0 }
  else t

/-! ## Servo and RC channels -/

/-- Narrowing conversion to `int8_t` (two's complement wrap). -/
def toInt8 (x : Int) : Int := (x + 128) % 256 - 128

/-- IEEE-754 binary64 rounding (53-bit significand, round to nearest, ties to even) of the
integer `p < 2^128`, normal range; as for `f32round`, it also rounds a value given as a
numerator over a power of two. -/
def f64round (p : Nat) : Nat :=
  let len := bitLength 128 p
  if len ≤ 53 then p
  else
    let sh := len - 53
    let q := p / 2 ^ sh
    let r := p % 2 ^ sh
    let half := 2 ^ (sh - 1)
    let q1 := if r > half ∨ (r = half ∧ q % 2 = 1) then q + 1 else q
    q1 * 2 ^ sh

/-- `round(d * 0.126)` for an `int` `d`: the `double` constant `0.126` is
`0x3FC020C49BA5E354 = 4539628424389460 * 2^(-55)`, `d` converts exactly, the product is
rounded to `double`, and `round` rounds half away from zero. -/
def round_mul_0126 (d : Int) : Int :=
  let x := f64round (d.natAbs * 4539628424389460)
  let r : Nat := (2 * x + 2 ^ 55) / 2 ^ 56
  if d < 0 then -(r : Int) else (r : Int)

/-- `PWM_To_63(PWM)` for a `uint16_t` argument: the rounded product is stored in the
`int8_t myint` (keeping its low 8 bits) before the two clamps are applied. -/
def PWM_To_63 (PWM : Nat) : Int :=
  let myint := toInt8 (round_mul_0126 (((PWM % 65536 : Nat) : Int) - 1500))
  let myint := if myint < -63 then -63 else myint
  let myint := if myint > 63 then 63 else myint
  myint

/-! ## Reference definitions for the telemetry side -/

/-- Specification side: the payload of the chunk that starts at character `idx` of a
text of length `L` with severity `s`:
`(c0 & 0x7F) << 24 | (c1 & 0x7F) << 16 | (c2 & 0x7F) << 8 | (c3 & 0x7F)`, and in the last
chunk (`idx + 4 > L`) bit 0, 1 and 2 of the severity at positions 7, 15 and 23. -/
def spec_chunk (chars : List Nat) (L s idx : Nat) : Nat :=
  let base := ((chars.getD idx 0 &&& 0x7F) <<< 24) |||
    ((chars.getD (idx + 1) 0 &&& 0x7F) <<< 16) |||
    ((chars.getD (idx + 2) 0 &&& 0x7F) <<< 8) ||| (chars.getD (idx + 3) 0 &&& 0x7F)
  if idx + 4 > L then
    base ||| ((s % 2) <<< 7) ||| ((s / 2 % 2) <<< 15) ||| ((s / 4 % 2) <<< 23)
  else base

/-- The record of the chunk that starts at character `idx`: `sr` with the id, the chunk
number as sub-id and the chunk payload. -/
def chunkRecord (sr : sb_t) (id : Nat) (chars : List Nat) (L s idx : Nat) : sb_t :=
  { sr with id := id, subid := idx / 4 + 1, payload := spec_chunk chars L s idx }

/-- The `n` chunk records from character `idx` on, the first pushed at `clock k`. -/
def chunkRecords (clock : Nat → Nat) (sr : sb_t) (id : Nat) (chars : List Nat) (L s : Nat) :
    Nat → Nat → Nat → List (Nat × sb_t)
  | 0, _, _ => []
  | n + 1, k, idx =>
    (clock k, chunkRecord sr id chars L s idx) ::
      chunkRecords clock sr id chars L s n (k + 1) (idx + 4)

/-- The state after one pass of the loop whose push left the S.Port globals as `sp`. -/
def afterChunk (id : Nat) (t : Tele) (sp : State) : Tele :=
  { t with
    fr_chunk_num := t.fr_chunk_idx / 4 + 1
    fr_chunk := [t.fr_text.getD t.fr_chunk_idx 0, t.fr_text.getD (t.fr_chunk_idx + 1) 0,
      t.fr_text.getD (t.fr_chunk_idx + 2) 0, t.fr_text.getD (t.fr_chunk_idx + 3) 0]
    sr := chunkRecord t.sr id t.fr_text t.fr_txtlth t.fr_severity t.fr_chunk_idx
    sp := { sp with
      fr_payload := spec_chunk t.fr_text t.fr_txtlth t.fr_severity t.fr_chunk_idx }
    fr_chunk_idx := t.fr_chunk_idx + 4 }

/-- The state in which `PackMultipleTextChunks_5000` enters its loop: the statements of
that function up to `fr_chunk_idx = 0`, repeated here to name the state. -/
def textLoopEntry (t : Tele) : Tele :=
  let t := { t with len := textLen t.ap_text t.len 50 0 }
  let t := { t with
    ap_text := (((t.ap_text.set (t.len + 1) 0).set (t.len + 2) 0).set (t.len + 3) 0).set
      (t.len + 4) 0 }
  let t := { t with ap_txtlth := t.len }
  let t :=
    if cstring t.ap_text = [83, 73, 77, 80, 76, 69, 32, 109, 111, 100, 101, 32, 111, 110] then
      { t with ap_simple := true }
    else if cstring t.ap_text =
        [83, 73, 77, 80, 76, 69, 32, 109, 111, 100, 101, 32, 111, 102, 102] then
      { t with ap_simple := false }
    else t
  let t := { t with fr_severity := t.ap_severity }
  let t := { t with fr_txtlth := t.ap_txtlth }
  let t := { t with
    fr_text := t.ap_text.take (t.fr_txtlth + 4) ++ t.fr_text.drop (t.fr_txtlth + 4) }
  let t := { t with fr_simple := if t.ap_simple then 1 else 0 }
  { t with fr_chunk_idx := 0 }

/-- The last row of the sensor table is free. -/
def lastRowFree (sb : List sb_t) : Prop := ∃ pre f, sb = pre ++ [f] ∧ f.inuse = false

/-- What the link sees, one after the other: a received frame handed to
`DecodeOneMavFrame` (with the clock of that call), or the connection check of a main-loop
pass at time `now`. -/
inductive LinkEvent where
  | frame (clock : Nat → Nat) (msg : MavMsg)
  | loopPass (now : Nat)

/-- The events in order, from state `t`. -/
def runLink (rest : Nat → Tele → Option Tele) : List LinkEvent → Tele → Option Tele
  | [], t => some t
  | LinkEvent.frame clock msg :: es, t =>
    (DecodeOneMavFrame rest clock msg t).bind (runLink rest es)
  | LinkEvent.loopPass now :: es, t => runLink rest es (mavTimeoutCheck now t)

/-- A craft type other than antenna tracker (5), ground station (6) and ADS-B (27). -/
def isVehicle (type : Nat) : Prop := type ≠ 5 ∧ type ≠ 6 ∧ type ≠ 27

instance (type : Nat) : Decidable (isVehicle type) := by
  unfold isVehicle; exact inferInstance

/-- Number of heartbeats from a vehicle among the events. -/
def vehicleHeartbeats : List LinkEvent → Nat
  | [] => 0
  | LinkEvent.frame _ (MavMsg.heartbeat type _ _ _ _ _) :: es =>
    (if isVehicle type then 1 else 0) + vehicleHeartbeats es
  | _ :: es => vehicleHeartbeats es

/-- Specification side: `round((p - 1500) x 0.126)` in exact arithmetic, half away from
zero, clamped to -63 .. 63. -/
def spec_PWM_To_63 (p : Nat) : Int :=
  let d : Int := (p : Int) - 1500
  let r : Nat := (252 * d.natAbs + 1000) / 2000
  let v : Int := if d < 0 then -(r : Int) else (r : Int)
  if v < -63 then -63 else if v > 63 then 63 else v

/-! ## Example telemetry states -/

/-- The telemetry state after start-up with the given sensor table: not connected, no
heartbeat counted, everything else zero; `ap_text` and `fr_text` are 60 null characters. -/
def blankTele (rows : List sb_t) : Tele where
  sp := { blankState rows TrMode.ground with mavGood := false }
  sr := freeRow
  hb_count := 0
  hb_millis := 0
  homGood := false
  hom := { lat := 0, lon := 0, alt := 0, hdg := 0 }
  cur := { lat := 0, lon := 0, alt := 0, hdg := 0 }
  ap_type_tmp := 0
  ap_type := 0
  ap_autopilot := 0
  ap_base_mode := 0
  ap_custom_mode := 0
  ap_system_status := 0
  ap_mavlink_version := 0
  px4_main_mode := 0
  px4_sub_mode := 0
  px4_flight_stack := false
  ap26_temp := 0
  fr_bat_fs := 0
  fr_ekf_fs := 0
  fr_simple := 0
  fr_armed := 0
  fr_land_complete := 0
  fr_flight_mode := 0
  fr_imu_temp := 0
  ap_severity := 0
  ap_text := List.replicate 60 0
  len := 0
  ap_txtlth := 0
  ap_simple := false
  fr_severity := 0
  fr_txtlth := 0
  fr_text := List.replicate 60 0
  fr_chunk_idx := 0
  fr_chunk_num := 0
  fr_chunk := [0, 0, 0, 0]
  ap_fixtype := 0
  ap_lat24 := 0
  ap_lon24 := 0
  ap_lat33 := 0
  ap_lon33 := 0
  fr_gps_status := 0
  fr_lat := 0
  fr_lon := 0
  ms2bits := 0

/-- The state used in the status-text examples: the start-up state with the text and the
severity in `ap_text` and `ap_severity`. -/
def textTele (rows : List sb_t) (text : List Nat) (severity : Nat) : Tele :=
  { blankTele rows with
    ap_text := text ++ List.replicate (60 - text.length) 0
    ap_severity := severity }

/-- The telemetry state after start-up but with the link up: `mavGood` set, three
heartbeats counted, the last one at `hb_millis`. -/
def connectedTele (rows : List sb_t) (hb_millis : Nat) : Tele :=
  { blankTele rows with
    sp := blankState rows TrMode.ground
    hb_count := 3
    hb_millis := hb_millis }

/-- The start-up state with a GPS fix type and a position (degrees x 1e7) from
GLOBAL_POSITION_INT. -/
def positionTele (rows : List sb_t) (fixtype : Nat) (lat lon : Int) : Tele :=
  { blankTele rows with
    ap_fixtype := fixtype
    ap_lat33 := lat
    ap_lon33 := lon }

/-! ## RSSI sources -/

/-- The globals of the three RSSI cases of `DecodeOneMavFrame`. -/
structure RssiVars where
  rssi35 : Bool
  rssi65 : Bool
  rssi109 : Bool
  rssiGood : Bool
  ap_rssi35 : Nat
  ap_rssi65 : Nat
  ap_rssi109 : Nat
  ap_rssi : Nat
  ap_remrssi : Nat
  ap_txbuf : Nat
  ap_noise : Nat
  ap_remnoise : Nat
  ap_rxerrors : Nat
  ap_fixed : Nat
  ap_chcnt : Nat
  ap_chan_raw : List Nat
deriving DecidableEq, Repr

/-- A message that carries an RSSI: RC_CHANNELS_RAW (#35), RC_CHANNELS (#65) with its
channel count and 18 channels, RADIO_STATUS (#109). -/
inductive RssiMsg where
  | rc_channels_raw (rssi : Nat)
  | rc_channels (chancount : Nat) (chan_raw : List Nat) (rssi : Nat)
  | radio_status (rssi remrssi txbuf noise remnoise rxerrors fixed : Nat)
deriving DecidableEq, Repr

/-- The cases RC_CHANNELS_RAW, RC_CHANNELS and RADIO_STATUS of `DecodeOneMavFrame` (QLRS
not defined), with `mavGood` as found by their guard. `scale x` is what
`ap_rssi = x / 2.54` stores (`x` itself when `Rssi_In_Percent` is defined). -/
def DecodeOneMavFrame_rssi (scale : Nat → Nat) (mavGood : Bool) (msg : RssiMsg)
    (v : RssiVars) : RssiVars :=
  match msg with
  | .rc_channels_raw rssi =>
    if !mavGood then v
    else
      let v := { v with ap_rssi35 := rssi }
      let v := { v with rssi35 := true }
      if !v.rssi65 ∧ !v.rssi109 then
        let v := { v with rssiGood := true }
        { v with ap_rssi := scale v.ap_rssi35 }
      else v
  | .rc_channels chancount chan_raw rssi =>
    if !mavGood then v
    else
      let v := { v with ap_chcnt := chancount }
      let v := { v with ap_chan_raw := chan_raw }
      let v := { v with ap_rssi65 := rssi }
      let v := { v with rssi65 := true }
      if !v.rssi109 then
        let v := { v with rssiGood := true }
        { v with ap_rssi := scale v.ap_rssi65 }
      else v
  | .radio_status rssi remrssi txbuf noise remnoise rxerrors fixed =>
    if !mavGood then v
    else
      let v := { v with ap_rssi109 := rssi }
      let v := { v with ap_remrssi := remrssi }
      let v := { v with ap_txbuf := txbuf }
      let v := { v with ap_noise := noise }
      let v := { v with ap_remnoise := remnoise }
      let v := { v with ap_rxerrors := rxerrors }
      let v := { v with ap_fixed := fixed }
      let v := { v with rssi109 := true }
      let v := { v with rssiGood := true }
      let v := { v with ap_rssi := v.ap_rssi109 }
      { v with ap_rssi := scale v.ap_rssi }

/-! ## The poll-driven role -/

/-- The globals of `SPort_Interleave_Packet`: the S.Port globals, the bytes waiting in
`frSerial`, the time of the last poll seen and the S.Port status. -/
structure PollVars where
  sp : State
  rx : List Nat
  sp_read_millis : Nat
  spGood : Bool
  spPrev : Bool
deriving DecidableEq, Repr

/-- `ReportSportStatusChange()`, without its printing. -/
def ReportSportStatusChange (v : PollVars) : PollVars :=
  if v.spGood ≠ v.spPrev then { v with spPrev := v.spGood } else v

/-- The loop `while (frSerial.available())` of `SPort_Interleave_Packet` over the bytes
waiting in `frSerial`, with the local `prevByt`; `millis()` returns `now` at the match and
`sb_now` inside `SPort_Inject_Packet`. The bytes not read stay in `frSerial`. -/
def interleaveLoop (now sb_now : Nat) : List Nat → Nat → PollVars → PollVars
  | [], _, v => { v with rx := [] }
  | Byt :: rest, prevByt, v =>
    if prevByt = 0x7E ∧ Byt = 0x1B then
      let v := { v with rx := rest }
      let v := { v with sp_read_millis := now }
      let v := { v with spGood := true }
      let v := ReportSportStatusChange v
      { v with sp := SPort_Inject_Packet sb_now v.sp }
    else interleaveLoop now sb_now rest Byt v

/-- `SPort_Interleave_Packet()`: `prevByt` starts at 0 in every call. -/
def SPort_Interleave_Packet (now sb_now : Nat) (v : PollVars) : PollVars :=
  interleaveLoop now sb_now v.rx 0 v

/-! ## Link statistics -/

/-- The link variables of config.h used by `checkLinkErrors`; `packets_lost` is
`link_status.packets_lost`. -/
structure LinkVars where
  hb_heard_from : Bool
  hb_system_id : Nat
  hb_comp_id : Nat
  hb_seq_expected : Nat
  packets_lost : Nat
deriving DecidableEq, Repr

/-- `checkLinkErrors(msgptr)` for a message with the given `sysid`, `compid` and `seq`
(each a `uint8_t`). `seq_received` and `packet_lost_count` are `uint16_t`,
`hb_seq_expected` is a `uint8_t` and `packets_lost` a `uint32_t`. -/
def checkLinkErrors (sysid compid seq : Nat) (l : LinkVars) : LinkVars :=
  if !l.hb_heard_from ∨ sysid ≠ l.hb_system_id ∨ compid ≠ l.hb_comp_id then l
  else
    let seq_received := seq % 65536
    let packet_lost_count : Nat :=
      if seq_received < l.hb_seq_expected then
        ((((seq_received : Int) + 255) - (l.hb_seq_expected : Int)) % 65536).toNat
      else
        (((seq_received : Int) - (l.hb_seq_expected : Int)) % 65536).toNat
    let l := { l with hb_seq_expected := (seq + 1) % 256 }
    { l with packets_lost := (l.packets_lost + packet_lost_count) % 4294967296 }

/-! ## Home and HUD packers -/

/-- The globals of `Pack_Home_5004` and `Pack_VFR_Hud_50F2`. The `fr_` variables are
declared outside the available sources; they are taken wide enough to hold every value
assigned here. -/
structure AltVars where
  sp : State
  sr : sb_t
  homGood : Bool
  ap_alt_ag : Int
  fr_home_dist : Int
  fr_home_alt : Int
  fr_home_arrow : Int
  fr_air_spd : Int
  fr_throt : Nat
  fr_bar_alt : Int
deriving DecidableEq, Repr

/-- `roundf(x)` for an integer value `x` as `prep_number` receives it: the value is
rounded to binary32 on its way through `float`. -/
def roundf_int (x : Int) : Int :=
  if x < 0 then -((f32round x.natAbs : Nat) : Int) else ((f32round x.natAbs : Nat) : Int)

/-- `Pack_Home_5004(id)`. The trigonometry is not modelled: `dis` is the value of
`(int)dis` and `arrow` the value stored in `fr_home_arrow`. `ap_alt_ag` is an `int32_t`
in millimetres, its division by 100 truncates. -/
def Pack_Home_5004 (now id : Nat) (dis arrow : Int) (v : AltVars) : Option AltVars :=
  let v := { v with sp := { v.sp with fr_payload := 0 } }
  let v := { v with fr_home_arrow := arrow }
  let v := { v with fr_home_dist := if v.homGood then dis else 0 }
  let v := { v with fr_home_alt := Int.tdiv v.ap_alt_ag 100 }
  let v := { v with fr_home_dist := (prep_number (roundf_int v.fr_home_dist) 3 2 : Nat) }
  let v := { v with sp := bit32Pack (v.fr_home_dist % 4294967296).toNat 0 12 v.sp }
  let v := { v with fr_home_alt := (prep_number (roundf_int v.fr_home_alt) 3 2 : Nat) }
  let v := { v with sp := bit32Pack (v.fr_home_alt % 4294967296).toNat 12 12 v.sp }
  let v := { v with sp := if v.fr_home_alt < 0 then bit32Pack 1 24 1 v.sp else bit32Pack 0 24 1 v.sp }
  let v := { v with sp := bit32Pack (v.fr_home_arrow % 4294967296).toNat 25 7 v.sp }
  let v := { v with sr := { v.sr with id := id, subid := 0, payload := v.sp.fr_payload } }
  (PushToEmptyRow now v.sr v.sp).map (fun sp => { v with sp := sp })

/-- `Pack_VFR_Hud_50F2(id)`. The float products are not modelled: `air_spd` and `bar_alt`
are the values of `ap_hud_air_spd * 10` and `ap_hud_amsl * 10` after `roundf`, in
decimetres per second and decimetres, and `throt` is `ap_hud_throt`. -/
def Pack_VFR_Hud_50F2 (now id : Nat) (air_spd : Int) (throt : Nat) (bar_alt : Int)
    (v : AltVars) : Option AltVars :=
  let v := { v with sp := { v.sp with fr_payload := 0 } }
  let v := { v with fr_air_spd := air_spd }
  let v := { v with fr_throt := throt }
  let v := { v with fr_bar_alt := bar_alt }
  let v := { v with fr_air_spd := (prep_number v.fr_air_spd 2 1 : Nat) }
  let v := { v with sp := bit32Pack (v.fr_air_spd % 4294967296).toNat 0 8 v.sp }
  let v := { v with sp := bit32Pack v.fr_throt 8 7 v.sp }
  let v := { v with fr_bar_alt := (prep_number v.fr_bar_alt 3 2 : Nat) }
  let v := { v with sp := bit32Pack (v.fr_bar_alt % 4294967296).toNat 15 12 v.sp }
  let v := { v with sp := if v.fr_bar_alt < 0 then bit32Pack 1 27 1 v.sp else bit32Pack 0 27 1 v.sp }
  let v := { v with sr := { v.sr with id := id, subid := 1, payload := v.sp.fr_payload } }
  (PushToEmptyRow now v.sr v.sp).map (fun sp => { v with sp := sp })

/-! ## Parameters packer -/

/-- The globals of `Pack_Parameters_5007` next to those in `Tele` (`sr`, `ap_type`, the
S.Port globals). -/
structure ParamVars where
  t : Tele
  app_count : Nat
  fr_param_id : Nat
  fr_frame_type : Nat
  fr_bat1_capacity : Nat
  fr_bat2_capacity : Nat
  fr_mission_count : Nat
  ap_mission_count : Nat
  bat1_capacity : Nat
  bat2_capacity : Nat
  ap_bat1_capacity : Nat
  ap_bat2_capacity : Nat
  fr_paramsSent : Bool
deriving DecidableEq, Repr

/-- `Pack_Parameters_5007(id)`, with `millis()` returning `now` inside `PushToEmptyRow`;
`Battery_mAh_Source` is the configuration constant (1: from the flight controller,
2: local, 3: neither assignment is compiled). Case 3 has no `sr.id = id` and case 4 no
`sr.payload = fr_payload`. -/
def Pack_Parameters_5007 (Battery_mAh_Source : Nat) (now id : Nat) (p : ParamVars) :
    Option ParamVars :=
  let p := { p with app_count := p.app_count + 1 }
  if p.app_count = 1 then
    let p := { p with fr_param_id := 1 }
    let p := { p with fr_frame_type := p.t.ap_type }
    let p := { p with t := { p.t with sp := { p.t.sp with fr_payload := 0 } } }
    let p := { p with t := { p.t with sp := bit32Pack p.fr_frame_type 0 24 p.t.sp } }
    let p := { p with t := { p.t with sp := bit32Pack p.fr_param_id 24 4 p.t.sp } }
    let p := { p with
      t := { p.t with sr := { p.t.sr with id := id, subid := 1, payload := p.t.sp.fr_payload } } }
    (PushToEmptyRow now p.t.sr p.t.sp).map (fun sp => { p with t := { p.t with sp := sp } })
  else if p.app_count = 2 then
    let p := { p with fr_param_id := 4 }
    let p := { p with
      fr_bat1_capacity :=
        if Battery_mAh_Source = 2 then p.bat1_capacity
        else if Battery_mAh_Source = 1 then p.ap_bat1_capacity
        else p.fr_bat1_capacity }
    let p := { p with t := { p.t with sp := { p.t.sp with fr_payload := 0 } } }
    let p := { p with t := { p.t with sp := bit32Pack p.fr_bat1_capacity 0 24 p.t.sp } }
    let p := { p with t := { p.t with sp := bit32Pack p.fr_param_id 24 4 p.t.sp } }
    let p := { p with
      t := { p.t with sr := { p.t.sr with id := id, subid := 4, payload := p.t.sp.fr_payload } } }
    (PushToEmptyRow now p.t.sr p.t.sp).map (fun sp => { p with t := { p.t with sp := sp } })
  else if p.app_count = 3 then
    let p := { p with fr_param_id := 5 }
    let p := { p with
      fr_bat2_capacity :=
        if Battery_mAh_Source = 2 then p.bat2_capacity
        else if Battery_mAh_Source = 1 then p.ap_bat2_capacity
        else p.fr_bat2_capacity }
    let p := { p with t := { p.t with sp := { p.t.sp with fr_payload := 0 } } }
    let p := { p with t := { p.t with sp := bit32Pack p.fr_bat2_capacity 0 24 p.t.sp } }
    let p := { p with t := { p.t with sp := bit32Pack p.fr_param_id 24 4 p.t.sp } }
    let p := { p with
      t := { p.t with sr := { p.t.sr with subid := 5, payload := p.t.sp.fr_payload } } }
    (PushToEmptyRow now p.t.sr p.t.sp).map (fun sp => { p with t := { p.t with sp := sp } })
  else if p.app_count = 4 then
    let p := { p with fr_param_id := 6 }
    let p := { p with fr_mission_count := p.ap_mission_count }
    let p := { p with t := { p.t with sp := { p.t.sp with fr_payload := 0 } } }
    let p := { p with t := { p.t with sp := bit32Pack p.fr_mission_count 0 24 p.t.sp } }
    let p := { p with t := { p.t with sp := bit32Pack p.fr_param_id 24 4 p.t.sp } }
    let p := { p with t := { p.t with sr := { p.t.sr with id := id, subid := 6 } } }
    (PushToEmptyRow now p.t.sr p.t.sp).map (fun sp =>
      { p with t := { p.t with sp := sp }, fr_paramsSent := true, app_count := 0 })
  else some p

/-- A packer working on the telemetry globals, run between two calls of
`Pack_Parameters_5007`. -/
def withTele (f : Tele → Option Tele) (p : ParamVars) : Option ParamVars :=
  (f p.t).map (fun t => { p with t := t })

/-! ## Sequences of pushes and pops -/

/-- An operation on the sensor table: a push, a pop, or a change of the connection
state between two of them. -/
inductive TableOp where
  | push (now : Nat) (pter : sb_t)
  | pop (sb_now : Nat)
  | link (mavGood : Bool)
deriving DecidableEq, Repr

/-- The operations in order. -/
def runTable : List TableOp → State → Option State
  | [], s => some s
  | TableOp.push now pter :: ops, s => (PushToEmptyRow now pter s).bind (runTable ops)
  | TableOp.pop sb_now :: ops, s => runTable ops (SPort_Inject_Packet sb_now s)
  | TableOp.link b :: ops, s => runTable ops { s with mavGood := b }

/-! ## Reference definitions for RSSI, polling and link statistics -/

/-- The RSSI messages in order, each handed to `DecodeOneMavFrame`. -/
def runRssi (scale : Nat → Nat) (mavGood : Bool) : List RssiMsg → RssiVars → RssiVars
  | [], v => v
  | m :: ms, v => runRssi scale mavGood ms (DecodeOneMavFrame_rssi scale mavGood m v)

/-- The message is a RADIO_STATUS (#109). -/
def isRadioStatus : RssiMsg → Bool
  | .radio_status _ _ _ _ _ _ _ => true
  | _ => false

/-- The message is an RC_CHANNELS_RAW (#35). -/
def isChannelsRaw : RssiMsg → Bool
  | .rc_channels_raw _ => true
  | _ => false

/-- The byte sequence holds 0x7E immediately followed by 0x1B. -/
def hasPoll : List Nat → Bool
  | a :: b :: rest => (a == 0x7E && b == 0x1B) || hasPoll (b :: rest)
  | _ => false

/-- Specification side: the number of packets skipped between the expected sequence
number `e` and the received `s`, modulo 256. -/
def spec_lost (e s : Nat) : Nat := (s + 256 - e % 256) % 256

/-! ## Example states for the later properties -/

/-- The RSSI variables at start-up: no source seen. -/
def blankRssi : RssiVars :=
  { rssi35 := false, rssi65 := false, rssi109 := false, rssiGood := false, ap_rssi35 := 0,
    ap_rssi65 := 0, ap_rssi109 := 0, ap_rssi := 0, ap_remrssi := 0, ap_txbuf := 0,
    ap_noise := 0, ap_remnoise := 0, ap_rxerrors := 0, ap_fixed := 0, ap_chcnt := 0,
    ap_chan_raw := [] }

/-- The value `x / 2.54` stored in an integer, for `x` in 0 .. 255. -/
def scale254 (x : Nat) : Nat := x * 100 / 254

/-- A poll state over the given S.Port state with `rx` waiting in `frSerial`. -/
def pollState (sp : State) (rx : List Nat) : PollVars :=
  { sp := sp, rx := rx, sp_read_millis := 0, spGood := false, spPrev := false }

/-- Link variables tracking sender (1, 1) with `e` the next expected sequence number. -/
def trackedLink (e lost : Nat) : LinkVars :=
  { hb_heard_from := true, hb_system_id := 1, hb_comp_id := 1, hb_seq_expected := e,
    packets_lost := lost }

/-- The altitude variables over the given table, all values 0. -/
def blankAlt (rows : List sb_t) (ap_alt_ag : Int) : AltVars :=
  { sp := blankState rows TrMode.ground, sr := freeRow, homGood := true,
    ap_alt_ag := ap_alt_ag, fr_home_dist := 0, fr_home_alt := 0, fr_home_arrow := 0,
    fr_air_spd := 0, fr_throt := 0, fr_bar_alt := 0 }

/-- The parameter variables over a connected telemetry state with craft type 2, battery
capacities 5000 and 2200 mAh from the flight controller and a mission of 12 items. -/
def blankParams (rows : List sb_t) : ParamVars :=
  { t := { connectedTele rows 0 with ap_type := 2 }, app_count := 0, fr_param_id := 0,
    fr_frame_type := 0, fr_bat1_capacity := 0, fr_bat2_capacity := 0, fr_mission_count := 0,
    ap_mission_count := 12, bat1_capacity := 0, bat2_capacity := 0,
    ap_bat1_capacity := 5000, ap_bat2_capacity := 2200, fr_paramsSent := false }

/-! ## The whole decoder

Every case of the `switch` in `DecodeOneMavFrame` and every packer it reaches through
`PackSensorTable`, for the configuration of `config.h`: `PlusVersion` and
`Request_Mission_Count_From_FC` defined, `Decode_Non_Essential_Mav`,
`Send_Sensor_Health_Messages`, `Request_Missions_From_FC`, `QLRS` and the debug options not
defined. -/

theorem CheckByteStuffAndSend_eq (b : Nat) (s : State) :
    CheckByteStuffAndSend b s = { s with out := s.out ++ spec_stuff b } := by
  unfold CheckByteStuffAndSend spec_stuff frSerialSafeWrite
  split_ifs <;> simp

theorem SPort_SendByte_crc (b : Nat) (s : State) :
    SPort_SendByte b true s =
      { s with out := s.out ++ spec_stuff b, crc := crcUpdate s.crc b } := by
  simp [SPort_SendByte, CheckByteStuffAndSend_eq]

theorem SPort_SendByte_raw (b : Nat) (s : State) :
    SPort_SendByte b false s = { s with out := s.out ++ [b] } := by
  simp [SPort_SendByte, frSerialSafeWrite]

theorem crcUpdate_eq (c b : Nat) :
    crcUpdate c b = (c + b + (c + b) / 256) % 256 := by
  unfold crcUpdate
  have h255 : ∀ x : Nat, x &&& 0x00ff = x % 256 := fun x => by
    have := Nat.and_pow_two_sub_one_eq_mod x 8
    simpa using this
  simp only [h255, Nat.shiftRight_eq_div_pow]
  omega

theorem crcUpdate_lt (c b : Nat) : crcUpdate c b < 256 := by
  rw [crcUpdate_eq]; omega

theorem SPort_SendDataFrame_eq (Instance Id value : Nat) (s : State) :
    SPort_SendDataFrame Instance Id value s =
      { s with out := s.out ++ spec_frame s.trmode (Instance % 256) s.crc Id value, crc := 0 } := by
  have e1 : Id % 65536 % 256 = Id % 256 := by omega
  have e2 : Id % 65536 / 256 % 256 = Id / 256 % 256 := by omega
  have e3 : value % 4294967296 % 256 = value % 256 := by omega
  have e4 : value % 4294967296 / 256 % 256 = value / 256 % 256 := by omega
  have e5 : value % 4294967296 / 65536 % 256 = value / 65536 % 256 := by omega
  have e6 : value % 4294967296 / 16777216 % 256 = value / 16777216 % 256 := by omega
  have e7 : ∀ c b : Nat, (0xFF + 256 - crcUpdate c b % 256) % 256 = 0xFF - crcUpdate c b :=
    fun c b => by have := crcUpdate_lt c b; omega
  unfold SPort_SendDataFrame
  by_cases h : s.trmode = TrMode.ground
  · simp [h, SPort_SendByte_crc, SPort_SendByte_raw, SPort_SendCrc, CheckByteStuffAndSend_eq,
      spec_frame, spec_frameBody, spec_frameData, spec_checksum, e1, e2, e3, e4, e5, e6, e7]
  · simp [h, SPort_SendByte_crc, SPort_SendByte_raw, SPort_SendCrc, CheckByteStuffAndSend_eq,
      spec_frame, spec_frameBody, spec_frameData, spec_checksum, e1, e2, e3, e4, e5, e6, e7]


theorem spec_destuff_stuff (b : Nat) (rest : List Nat) :
    spec_destuff (spec_stuff b ++ rest) = b :: spec_destuff rest := by
  unfold spec_stuff
  split_ifs with h1 h2
  · subst h1; simp [spec_destuff]
  · subst h2; simp [spec_destuff]
  · cases rest with
    | nil => simp [spec_destuff]
    | cons x xs => simp [spec_destuff, h2]

theorem spec_destuff_flatMap (bs : List Nat) (rest : List Nat) :
    spec_destuff (bs.flatMap spec_stuff ++ rest) = bs ++ spec_destuff rest := by
  induction bs with
  | nil => simp
  | cons b bs ih => simp [List.flatMap_cons, List.append_assoc, spec_destuff_stuff, ih]

theorem spec_destuff_frameBody (c Id value : Nat) :
    spec_destuff (spec_frameBody c Id value) =
      spec_frameData Id value ++ [0xFF - spec_checksum c (spec_frameData Id value)] := by
  unfold spec_frameBody
  rw [spec_destuff_flatMap]
  have := spec_destuff_stuff (0xFF - spec_checksum c (spec_frameData Id value)) []
  simp only [List.append_nil] at this
  rw [this]; simp [spec_destuff]

theorem spec_checksum_lt (c : Nat) (bs : List Nat) (h : bs ≠ []) : spec_checksum c bs < 256 := by
  unfold spec_checksum
  induction bs using List.reverseRecOn with
  | nil => exact absurd rfl h
  | append_singleton l a _ => simp [List.foldl_append, crcUpdate_lt]

theorem crcUpdate_complement (c : Nat) (h : c < 256) : crcUpdate c (0xFF - c) = 0xFF := by
  rw [crcUpdate_eq]; omega

/-! ## The scan loop of `SPort_Inject_Packet` -/

theorem sb_subid_age_eq (now : Nat) (r : sb_t) (h : ageFits now r) :
    sb_subid_age now r = spec_age now r := by
  obtain ⟨h1, h2, h3, h4⟩ := h
  unfold sb_subid_age sb_age spec_age toInt16
  omega

theorem scanStep_tier1 (now : Nat) (acc : Scan) (i : Nat) (r : sb_t) :
    acc.sb_max_tier1 ≤ (scanStep now acc i r).sb_max_tier1 ∧
    (r.inuse = true → r.id ≠ 0x5000 →
      sb_subid_age now r ≤ (scanStep now acc i r).sb_max_tier1) ∧
    (((scanStep now acc i r).sb_max_tier1 = acc.sb_max_tier1 ∧
        (scanStep now acc i r).ptr_tier1 = acc.ptr_tier1) ∨
      ((scanStep now acc i r).ptr_tier1 = i ∧ r.inuse = true ∧ r.id ≠ 0x5000 ∧
        sb_subid_age now r = (scanStep now acc i r).sb_max_tier1)) := by
  unfold scanStep
  by_cases hu : r.inuse = true <;> by_cases ht : r.id = 0x5000 <;>
    by_cases hc : sb_subid_age now r ≥ acc.sb_max_tier1 <;>
    by_cases hd : sb_subid_age now r ≥ acc.sb_max_tier2 <;>
    simp [hu, ht, hc, hd] <;> omega

theorem scanStep_tier2 (now : Nat) (acc : Scan) (i : Nat) (r : sb_t) :
    acc.sb_max_tier2 ≤ (scanStep now acc i r).sb_max_tier2 ∧
    (r.inuse = true → r.id = 0x5000 →
      sb_subid_age now r ≤ (scanStep now acc i r).sb_max_tier2) ∧
    (((scanStep now acc i r).sb_max_tier2 = acc.sb_max_tier2 ∧
        (scanStep now acc i r).ptr_tier2 = acc.ptr_tier2) ∨
      ((scanStep now acc i r).ptr_tier2 = i ∧ r.inuse = true ∧ r.id = 0x5000 ∧
        sb_subid_age now r = (scanStep now acc i r).sb_max_tier2)) := by
  unfold scanStep
  by_cases hu : r.inuse = true <;> by_cases ht : r.id = 0x5000 <;>
    by_cases hc : sb_subid_age now r ≥ acc.sb_max_tier2 <;>
    by_cases hd : sb_subid_age now r ≥ acc.sb_max_tier1 <;>
    simp [hu, ht, hc, hd] <;> omega

theorem scanLoop_tier1 (now : Nat) (rs : List sb_t) (i : Nat) (acc : Scan) :
    acc.sb_max_tier1 ≤ (scanLoop now rs i acc).sb_max_tier1 ∧
    (∀ r ∈ rs, r.inuse = true → r.id ≠ 0x5000 →
      sb_subid_age now r ≤ (scanLoop now rs i acc).sb_max_tier1) ∧
    (((scanLoop now rs i acc).sb_max_tier1 = acc.sb_max_tier1 ∧
        (scanLoop now rs i acc).ptr_tier1 = acc.ptr_tier1) ∨
      (∃ k r, rs[k]? = some r ∧ (scanLoop now rs i acc).ptr_tier1 = i + k ∧
        r.inuse = true ∧ r.id ≠ 0x5000 ∧
        sb_subid_age now r = (scanLoop now rs i acc).sb_max_tier1)) := by
  induction rs generalizing i acc with
  | nil => simp [scanLoop]
  | cons r rs ih =>
    obtain ⟨h1, h2, h3⟩ := ih (i + 1) (scanStep now acc i r)
    obtain ⟨g1, g2, g3⟩ := scanStep_tier1 now acc i r
    simp only [scanLoop]
    refine ⟨le_trans g1 h1, ?_, ?_⟩
    · intro r' hr' hu ht
      rcases List.mem_cons.mp hr' with rfl | hmem
      · exact le_trans (g2 hu ht) h1
      · exact h2 r' hmem hu ht
    · rcases h3 with ⟨e1, e2⟩ | ⟨k, r', hk, hp, hu, ht, ha⟩
      · rcases g3 with ⟨f1, f2⟩ | ⟨f1, fu, ft, fa⟩
        · left; exact ⟨e1.trans f1, e2.trans f2⟩
        · right
          exact ⟨0, r, by simp, by simp [e2, f1], fu, ft, by rw [e1]; exact fa⟩
      · right
        exact ⟨k + 1, r', by simpa using hk, by rw [hp]; omega, hu, ht, ha⟩

theorem scanLoop_tier2 (now : Nat) (rs : List sb_t) (i : Nat) (acc : Scan) :
    acc.sb_max_tier2 ≤ (scanLoop now rs i acc).sb_max_tier2 ∧
    (∀ r ∈ rs, r.inuse = true → r.id = 0x5000 →
      sb_subid_age now r ≤ (scanLoop now rs i acc).sb_max_tier2) ∧
    (((scanLoop now rs i acc).sb_max_tier2 = acc.sb_max_tier2 ∧
        (scanLoop now rs i acc).ptr_tier2 = acc.ptr_tier2) ∨
      (∃ k r, rs[k]? = some r ∧ (scanLoop now rs i acc).ptr_tier2 = i + k ∧
        r.inuse = true ∧ r.id = 0x5000 ∧
        sb_subid_age now r = (scanLoop now rs i acc).sb_max_tier2)) := by
  induction rs generalizing i acc with
  | nil => simp [scanLoop]
  | cons r rs ih =>
    obtain ⟨h1, h2, h3⟩ := ih (i + 1) (scanStep now acc i r)
    obtain ⟨g1, g2, g3⟩ := scanStep_tier2 now acc i r
    simp only [scanLoop]
    refine ⟨le_trans g1 h1, ?_, ?_⟩
    · intro r' hr' hu ht
      rcases List.mem_cons.mp hr' with rfl | hmem
      · exact le_trans (g2 hu ht) h1
      · exact h2 r' hmem hu ht
    · rcases h3 with ⟨e1, e2⟩ | ⟨k, r', hk, hp, hu, ht, ha⟩
      · rcases g3 with ⟨f1, f2⟩ | ⟨f1, fu, ft, fa⟩
        · left; exact ⟨e1.trans f1, e2.trans f2⟩
        · right
          exact ⟨0, r, by simp, by simp [e2, f1], fu, ft, by rw [e1]; exact fa⟩
      · right
        exact ⟨k + 1, r', by simpa using hk, by rw [hp]; omega, hu, ht, ha⟩


/-! ## The row chosen by `SPort_Inject_Packet` -/

theorem scan_tier1 (now : Nat) (sb : List sb_t) :
    0 ≤ (scanLoop now sb 0 scanInit).sb_max_tier1 ∧
    (∀ r ∈ sb, r.inuse = true → r.id ≠ 0x5000 →
      sb_subid_age now r ≤ (scanLoop now sb 0 scanInit).sb_max_tier1) ∧
    (0 < (scanLoop now sb 0 scanInit).sb_max_tier1 →
      ∃ r, sb[(scanLoop now sb 0 scanInit).ptr_tier1]? = some r ∧ r.inuse = true ∧
        r.id ≠ 0x5000 ∧ sb_subid_age now r = (scanLoop now sb 0 scanInit).sb_max_tier1) := by
  obtain ⟨h1, h2, h3⟩ := scanLoop_tier1 now sb 0 scanInit
  refine ⟨h1, h2, fun hpos => ?_⟩
  rcases h3 with ⟨e1, _⟩ | ⟨k, r, hk, hp, hu, ht, ha⟩
  · rw [e1] at hpos; exact absurd hpos (by simp [scanInit])
  · exact ⟨r, by rw [hp]; simpa using hk, hu, ht, ha⟩

theorem scan_tier2 (now : Nat) (sb : List sb_t) :
    0 ≤ (scanLoop now sb 0 scanInit).sb_max_tier2 ∧
    (∀ r ∈ sb, r.inuse = true → r.id = 0x5000 →
      sb_subid_age now r ≤ (scanLoop now sb 0 scanInit).sb_max_tier2) ∧
    (0 < (scanLoop now sb 0 scanInit).sb_max_tier2 →
      ∃ r, sb[(scanLoop now sb 0 scanInit).ptr_tier2]? = some r ∧ r.inuse = true ∧
        r.id = 0x5000 ∧ sb_subid_age now r = (scanLoop now sb 0 scanInit).sb_max_tier2) := by
  obtain ⟨h1, h2, h3⟩ := scanLoop_tier2 now sb 0 scanInit
  refine ⟨h1, h2, fun hpos => ?_⟩
  rcases h3 with ⟨e1, _⟩ | ⟨k, r, hk, hp, hu, ht, ha⟩
  · rw [e1] at hpos; exact absurd hpos (by simp [scanInit])
  · exact ⟨r, by rw [hp]; simpa using hk, hu, ht, ha⟩

/-- Some tier-1 row has a positive 16-bit age: the pop takes a tier-1 row of greatest
age. -/
theorem popPtr_tier1 (now : Nat) (sb : List sb_t)
    (h : ∃ r ∈ sb, r.inuse = true ∧ r.id ≠ 0x5000 ∧ 0 < sb_subid_age now r) :
    ∃ p r, popPtr now sb = some p ∧ sb[p]? = some r ∧ r.inuse = true ∧ r.id ≠ 0x5000 ∧
      0 < sb_subid_age now r ∧
      ∀ r' ∈ sb, r'.inuse = true → r'.id ≠ 0x5000 →
        sb_subid_age now r' ≤ sb_subid_age now r := by
  obtain ⟨h1, h2, h3⟩ := scan_tier1 now sb
  obtain ⟨r0, hr0, hu0, ht0, ha0⟩ := h
  have hpos : 0 < (scanLoop now sb 0 scanInit).sb_max_tier1 :=
    lt_of_lt_of_le ha0 (h2 r0 hr0 hu0 ht0)
  obtain ⟨r, hr, hu, ht, ha⟩ := h3 hpos
  refine ⟨_, r, ?_, hr, hu, ht, by rw [ha]; exact hpos, fun r' hr' hu' ht' => by
    rw [ha]; exact h2 r' hr' hu' ht'⟩
  unfold popPtr choosePtr
  have hne : (scanLoop now sb 0 scanInit).sb_max_tier1 ≠ 0 := ne_of_gt hpos
  simp [hne, hpos]

/-- No tier-1 row has a positive 16-bit age but some tier-2 row has: the pop takes a
tier-2 row of greatest age. -/
theorem popPtr_tier2 (now : Nat) (sb : List sb_t)
    (h1 : ∀ r ∈ sb, r.inuse = true → r.id ≠ 0x5000 → sb_subid_age now r ≤ 0)
    (h : ∃ r ∈ sb, r.inuse = true ∧ r.id = 0x5000 ∧ 0 < sb_subid_age now r) :
    ∃ p r, popPtr now sb = some p ∧ sb[p]? = some r ∧ r.inuse = true ∧ r.id = 0x5000 ∧
      0 < sb_subid_age now r ∧
      ∀ r' ∈ sb, r'.inuse = true → r'.id = 0x5000 →
        sb_subid_age now r' ≤ sb_subid_age now r := by
  obtain ⟨g1, _, g3⟩ := scan_tier1 now sb
  have hz : (scanLoop now sb 0 scanInit).sb_max_tier1 = 0 := by
    rcases lt_or_eq_of_le g1 with hpos | heq
    · obtain ⟨r, hr, hu, ht, ha⟩ := g3 hpos
      have := h1 r (List.getElem?_mem hr) hu ht
      omega
    · exact heq.symm
  obtain ⟨_, k2, k3⟩ := scan_tier2 now sb
  obtain ⟨r0, hr0, hu0, ht0, ha0⟩ := h
  have hpos : 0 < (scanLoop now sb 0 scanInit).sb_max_tier2 :=
    lt_of_lt_of_le ha0 (k2 r0 hr0 hu0 ht0)
  obtain ⟨r, hr, hu, ht, ha⟩ := k3 hpos
  refine ⟨_, r, ?_, hr, hu, ht, by rw [ha]; exact hpos, fun r' hr' hu' ht' => by
    rw [ha]; exact k2 r' hr' hu' ht'⟩
  unfold popPtr choosePtr
  simp [hz, hpos]

/-- No in-use row has a positive 16-bit age: nothing is popped. -/
theorem popPtr_none (now : Nat) (sb : List sb_t)
    (h : ∀ r ∈ sb, r.inuse = true → sb_subid_age now r ≤ 0) :
    popPtr now sb = none := by
  obtain ⟨g1, _, g3⟩ := scan_tier1 now sb
  obtain ⟨k1, _, k3⟩ := scan_tier2 now sb
  have hz1 : (scanLoop now sb 0 scanInit).sb_max_tier1 = 0 := by
    rcases lt_or_eq_of_le g1 with hpos | heq
    · obtain ⟨r, hr, hu, _, ha⟩ := g3 hpos
      have := h r (List.getElem?_mem hr) hu
      omega
    · exact heq.symm
  have hz2 : (scanLoop now sb 0 scanInit).sb_max_tier2 = 0 := by
    rcases lt_or_eq_of_le k1 with hpos | heq
    · obtain ⟨r, hr, hu, _, ha⟩ := k3 hpos
      have := h r (List.getElem?_mem hr) hu
      omega
    · exact heq.symm
  unfold popPtr choosePtr
  simp [hz1, hz2]

/-! ## The effect of `SPort_Inject_Packet` -/

theorem SPort_Inject_Packet_some (now : Nat) (s : State) (p : Nat) (r : sb_t)
    (hconn : s.mavGood = true) (hp : popPtr now s.sb = some p) (hr : s.sb[p]? = some r) :
    transmits now s p r := by
  have hget : s.sb.getD p default = r := by
    simp [List.getD_eq_getElem?_getD, hr]
  refine ⟨hr, ?_, ?_⟩
  · unfold SPort_Inject_Packet
    simp only [hconn, hp, hget]
    simp [SPort_SendDataFrame_eq, SPort_SendByte_raw]
    split_ifs <;> rfl
  · unfold SPort_Inject_Packet rssiMarker
    simp only [hconn, hp, hget]
    simp [SPort_SendDataFrame_eq, SPort_SendByte_raw]
    by_cases h1 : r.id = 0xF101 <;> by_cases h2 : s.trmode = TrMode.relay <;>
      simp [h1, h2]

theorem SPort_Inject_Packet_none (now : Nat) (s : State)
    (hconn : s.mavGood = true) (hp : popPtr now s.sb = none) :
    (SPort_Inject_Packet now s).sb = s.sb ∧ (SPort_Inject_Packet now s).out = s.out := by
  unfold SPort_Inject_Packet
  simp [hconn, hp]

/-! ## Pushing -/

theorem findFreeRow_append (pre suf : List sb_t) (j : Nat)
    (hpre : ∀ r ∈ pre, r.inuse = true) :
    findFreeRow (pre ++ suf) j = findFreeRow suf (j + pre.length) := by
  induction pre generalizing j with
  | nil => simp
  | cons x xs ih =>
    have hx : x.inuse = true := hpre x (List.mem_cons_self _ _)
    have hxs : ∀ r ∈ xs, r.inuse = true := fun r hr => hpre r (List.mem_cons_of_mem _ hr)
    rw [List.cons_append, findFreeRow, if_pos hx, ih (j + 1) hxs, List.length_cons]
    congr 1
    omega

theorem findFreeRow_split (pre suf : List sb_t) (f : sb_t)
    (hpre : ∀ r ∈ pre, r.inuse = true) (hf : f.inuse = false) :
    findFreeRow (pre ++ f :: suf) 0 = some pre.length := by
  rw [findFreeRow_append pre (f :: suf) 0 hpre]
  simp [findFreeRow, hf]

/-- The lowest free row is the last row of the table: the record is dropped. -/
theorem PushToEmptyRow_last (now : Nat) (pter : sb_t) (s : State) (pre : List sb_t) (f : sb_t)
    (hsb : s.sb = pre ++ [f]) (hpre : ∀ r ∈ pre, r.inuse = true) (hf : f.inuse = false) :
    PushToEmptyRow now pter s =
      some { s with sens_buf_full_count := s.sens_buf_full_count + 1 } := by
  unfold PushToEmptyRow
  rw [hsb, findFreeRow_split pre [] f hpre hf]
  simp

/-- The lowest free row is not the last row: the record is stored there. -/
theorem PushToEmptyRow_store (now : Nat) (pter : sb_t) (s : State) (pre suf : List sb_t)
    (f : sb_t) (hsb : s.sb = pre ++ f :: suf) (hsuf : suf ≠ [])
    (hpre : ∀ r ∈ pre, r.inuse = true) (hf : f.inuse = false) :
    PushToEmptyRow now pter s =
      some { s with
        sb_unsent := s.sb_unsent + 1
        sb := pre ++ stored (now, pter) :: suf } := by
  unfold PushToEmptyRow
  rw [hsb, findFreeRow_split pre suf f hpre hf]
  have hlen : ¬ (pre.length + 1 ≥ (pre ++ f :: suf).length) := by
    have : 0 < suf.length := List.length_pos.mpr hsuf
    simp only [List.length_append, List.length_cons]
    omega
  simp only [hlen, if_false, stored]
  simp

/-- Pushes into a table whose in-use rows form a prefix `pre` and whose free rows form
the rest `suf`: the first `suf.length - 1` records are stored in order, the others are
dropped and counted. -/
theorem pushAll_fill (ps : List (Nat × sb_t)) (s : State) (pre suf : List sb_t)
    (hsb : s.sb = pre ++ suf) (hpre : ∀ r ∈ pre, r.inuse = true)
    (hsuf : ∀ r ∈ suf, r.inuse = false) (hne : suf ≠ []) :
    ∃ s1, pushAll ps s = some s1 ∧
      s1.sb = pre ++ (ps.take (suf.length - 1)).map stored ++
        suf.drop (min ps.length (suf.length - 1)) ∧
      s1.sens_buf_full_count = s.sens_buf_full_count + (ps.length - (suf.length - 1)) ∧
      s1.mavGood = s.mavGood ∧ s1.out = s.out ∧ s1.crc = s.crc ∧ s1.trmode = s.trmode := by
  induction ps generalizing s pre suf with
  | nil => exact ⟨s, rfl, by simp [hsb], by simp, rfl, rfl, rfl, rfl⟩
  | cons p ps ih =>
    obtain ⟨f, suf1, rfl⟩ := List.exists_cons_of_ne_nil hne
    have hf : f.inuse = false := hsuf f (List.mem_cons_self _ _)
    cases suf1 with
    | nil =>
      have hpush := PushToEmptyRow_last p.1 p.2 s pre f hsb hpre hf
      obtain ⟨s1, h1, h2, h3, h4, h5, h6, h7⟩ :=
        ih { s with sens_buf_full_count := s.sens_buf_full_count + 1 } pre [f]
          hsb hpre hsuf (by simp)
      refine ⟨s1, by simp [pushAll, hpush, h1], ?_, ?_, h4, h5, h6, h7⟩
      · simpa using h2
      · simp only [List.length_cons, List.length_nil] at h3 ⊢
        rw [h3]; omega
    | cons g suf2 =>
      have hpush := PushToEmptyRow_store p.1 p.2 s pre (g :: suf2) f hsb (by simp) hpre hf
      have hpre1 : ∀ r ∈ pre ++ [stored (p.1, p.2)], r.inuse = true := by
        intro r hr
        rcases List.mem_append.mp hr with h | h
        · exact hpre r h
        · simp at h; subst h; rfl
      have hsuf1 : ∀ r ∈ g :: suf2, r.inuse = false :=
        fun r hr => hsuf r (List.mem_cons_of_mem _ hr)
      obtain ⟨s1, h1, h2, h3, h4, h5, h6, h7⟩ :=
        ih { s with
              sb_unsent := s.sb_unsent + 1
              sb := pre ++ stored (p.1, p.2) :: g :: suf2 }
          (pre ++ [stored (p.1, p.2)]) (g :: suf2) (by simp) hpre1 hsuf1 (by simp)
      refine ⟨s1, by simp [pushAll, hpush, h1], ?_, ?_, h4, h5, h6, h7⟩
      · rw [h2]
        simp only [List.length_cons, Nat.add_sub_cancel, List.take_succ_cons, List.map_cons,
          List.append_assoc, List.singleton_append, List.cons_append]
        congr 2
        have e : min (ps.length + 1) (suf2.length + 1) = min ps.length suf2.length + 1 := by
          omega
        rw [e, List.drop_succ_cons]
        rfl
      · simp only [List.length_cons, Nat.add_sub_cancel] at h3 ⊢
        rw [h3]; omega

theorem split_at_lowest_free (sb : List sb_t) (j : Nat) (f : sb_t)
    (hj : sb[j]? = some f)
    (hlow : ∀ i r, i < j → sb[i]? = some r → r.inuse = true) :
    sb = sb.take j ++ f :: sb.drop (j + 1) ∧ (∀ r ∈ sb.take j, r.inuse = true) ∧
      (sb.take j).length = j := by
  have hlt : j < sb.length := by
    by_contra hc
    rw [List.getElem?_eq_none (by omega)] at hj
    exact absurd hj (by simp)
  have hget : sb[j] = f := by
    rw [List.getElem?_eq_getElem hlt] at hj
    exact Option.some.inj hj
  refine ⟨?_, ?_, ?_⟩
  · rw [← hget, ← List.drop_eq_getElem_cons hlt, List.take_append_drop]
  · intro r hr
    obtain ⟨i, hi⟩ := List.getElem?_of_mem hr
    rw [List.getElem?_take] at hi
    by_cases hij : i < j
    · rw [if_pos hij] at hi
      exact hlow i r hij hi
    · rw [if_neg hij] at hi
      exact absurd hi (by simp)
  · rw [List.length_take]; omega


/-! ## Popping -/

theorem SPort_Init_free (s : State) : ∀ r ∈ (SPort_Init s).sb, r.inuse = false := by
  intro r hr
  simp only [SPort_Init, List.mem_map] at hr
  obtain ⟨a, _, rfl⟩ := hr
  rfl

theorem SPort_Init_length (s : State) : (SPort_Init s).sb.length = s.sb.length := by
  simp [SPort_Init]

theorem SPort_Inject_Packet_mavGood (now : Nat) (s : State) :
    (SPort_Inject_Packet now s).mavGood = s.mavGood := by
  unfold SPort_Inject_Packet
  by_cases h : s.mavGood = true
  · simp only [h]
    cases hp : popPtr now s.sb with
    | none => simp [h]
    | some p =>
      simp [SPort_SendDataFrame_eq, SPort_SendByte_raw]
      split_ifs <;> simp [h]
  · simp [h]

/-- Freeing an in-use row removes exactly that row from the pending records. -/
theorem pending_set_perm (sb : List sb_t) (p : Nat) (r r1 : sb_t)
    (hr : sb[p]? = some r) (hu : r.inuse = true) (hf : r1.inuse = false) :
    (sb.filter (fun x => x.inuse)).Perm (r :: (sb.set p r1).filter (fun x => x.inuse)) := by
  induction sb generalizing p with
  | nil => simp at hr
  | cons x xs ih =>
    cases p with
    | zero =>
      simp only [List.getElem?_cons_zero, Option.some.injEq] at hr
      subst hr
      simp [List.filter_cons, hu, hf]
    | succ k =>
      simp only [List.getElem?_cons_succ] at hr
      have h := ih k hr
      simp only [List.set_cons_succ, List.filter_cons]
      by_cases hx : x.inuse = true
      · simp only [hx, if_true]
        exact (List.Perm.cons x h).trans (List.Perm.swap r x _)
      · simp only [hx]
        exact h

/-- A pop at a time at which every pending record has a positive age that fits in 16
bits: some pending record leaves, and it leaves before all others. -/
theorem pop_step (t : Nat) (s : State) (hconn : s.mavGood = true)
    (htime : ∀ r ∈ s.sb, r.inuse = true →
      r.millis + r.subid < t ∧ t < r.millis + 32768 ∧ t < 4294967296)
    (hne : s.sb.filter (fun x => x.inuse) ≠ []) :
    ∃ p r, popped t s = some r ∧ s.sb[p]? = some r ∧ r.inuse = true ∧
      (∀ r' ∈ s.sb, r'.inuse = true → leavesBefore r r') ∧
      (SPort_Inject_Packet t s).sb = s.sb.set p { r with payload := 0, inuse := false } := by
  have hfit : ∀ r ∈ s.sb, r.inuse = true → ageFits t r := by
    intro r hr hu
    obtain ⟨h1, h2, h3⟩ := htime r hr hu
    exact ⟨by omega, h2, by omega, h3⟩
  have hage : ∀ r ∈ s.sb, r.inuse = true → sb_subid_age t r = spec_age t r :=
    fun r hr hu => sb_subid_age_eq t r (hfit r hr hu)
  have hpos : ∀ r ∈ s.sb, r.inuse = true → 0 < sb_subid_age t r := by
    intro r hr hu
    rw [hage r hr hu]
    have := (htime r hr hu).1
    unfold spec_age
    omega
  have hord : ∀ r r' : sb_t, spec_age t r' ≤ spec_age t r →
      ∀ t' : Nat, spec_age t' r' ≤ spec_age t' r := by
    intro r r' h t'
    unfold spec_age at h ⊢
    omega
  have hfin : ∀ p r, popPtr t s.sb = some p → s.sb[p]? = some r →
      popped t s = some r ∧
      (SPort_Inject_Packet t s).sb = s.sb.set p { r with payload := 0, inuse := false } := by
    intro p r hp hr
    refine ⟨?_, (SPort_Inject_Packet_some t s p r hconn hp hr).2.1⟩
    simp [popped, hconn, hp, List.getD_eq_getElem?_getD, hr]
  by_cases h1 : ∃ r ∈ s.sb, r.inuse = true ∧ r.id ≠ 0x5000
  · obtain ⟨r0, hr0, hu0, ht0⟩ := h1
    obtain ⟨p, r, hp, hr, hu, ht, _, hmax⟩ :=
      popPtr_tier1 t s.sb ⟨r0, hr0, hu0, ht0, hpos r0 hr0 hu0⟩
    have hmem := List.getElem?_mem hr
    obtain ⟨g1, g2⟩ := hfin p r hp hr
    refine ⟨p, r, g1, hr, hu, ?_, g2⟩
    intro r' hr' hu'
    refine ⟨fun h => absurd h ht, fun hiff => ?_⟩
    have ht' : r'.id ≠ 0x5000 := fun h => ht (hiff.mpr h)
    apply hord
    rw [← hage r hmem hu, ← hage r' hr' hu']
    exact hmax r' hr' hu' ht'
  · have hall : ∀ r ∈ s.sb, r.inuse = true → r.id = 0x5000 := by
      intro r hr hu
      by_contra hc
      exact h1 ⟨r, hr, hu, hc⟩
    obtain ⟨r0, hr0⟩ := List.exists_mem_of_ne_nil _ hne
    have hr0' := List.mem_filter.mp hr0
    have hu0 : r0.inuse = true := by simpa using hr0'.2
    obtain ⟨p, r, hp, hr, hu, ht, _, hmax⟩ :=
      popPtr_tier2 t s.sb (fun r hr hu ht => absurd (hall r hr hu) ht)
        ⟨r0, hr0'.1, hu0, hall r0 hr0'.1 hu0, hpos r0 hr0'.1 hu0⟩
    have hmem := List.getElem?_mem hr
    obtain ⟨g1, g2⟩ := hfin p r hp hr
    refine ⟨p, r, g1, hr, hu, ?_, g2⟩
    intro r' hr' hu'
    refine ⟨fun _ => hall r' hr' hu', fun _ => ?_⟩
    apply hord
    rw [← hage r hmem hu, ← hage r' hr' hu']
    exact hmax r' hr' hu' (hall r' hr' hu')

/-- As many pops as there are pending records, each at a time at which every pending
record has a positive age that fits in 16 bits: every pending record leaves exactly
once, in the order `leavesBefore`. -/
theorem pops_drain (ts : List Nat) (s : State) (hconn : s.mavGood = true)
    (hlen : ts.length = (s.sb.filter (fun x => x.inuse)).length)
    (htime : ∀ t ∈ ts, ∀ r ∈ s.sb, r.inuse = true →
      r.millis + r.subid < t ∧ t < r.millis + 32768 ∧ t < 4294967296) :
    ∃ recs : List sb_t, popTrace ts s = recs.map some ∧
      recs.Perm (s.sb.filter (fun x => x.inuse)) ∧ recs.Pairwise leavesBefore ∧
      (popAll ts s).sb.filter (fun x => x.inuse) = [] := by
  induction ts generalizing s with
  | nil =>
    refine ⟨[], rfl, ?_, List.Pairwise.nil, ?_⟩
    · have : s.sb.filter (fun x => x.inuse) = [] := List.length_eq_zero.mp hlen.symm
      rw [this]
    · exact List.length_eq_zero.mp hlen.symm
  | cons t ts ih =>
    have hne : s.sb.filter (fun x => x.inuse) ≠ [] := by
      intro h; rw [h] at hlen; simp at hlen
    obtain ⟨p, r, hpop, hr, hu, hbefore, hsb⟩ :=
      pop_step t s hconn (htime t (List.mem_cons_self _ _)) hne
    have hperm := pending_set_perm s.sb p r { r with payload := 0, inuse := false } hr hu rfl
    rw [← hsb] at hperm
    have hsub : ∀ x ∈ (SPort_Inject_Packet t s).sb, x.inuse = true →
        x ∈ s.sb ∧ x.inuse = true := by
      intro x hx hxu
      have hx1 : x ∈ (SPort_Inject_Packet t s).sb.filter (fun x => x.inuse) :=
        List.mem_filter.mpr ⟨hx, by simpa using hxu⟩
      have hx2 : x ∈ s.sb.filter (fun x => x.inuse) :=
        hperm.symm.subset (List.mem_cons_of_mem _ hx1)
      exact ⟨(List.mem_filter.mp hx2).1, hxu⟩
    obtain ⟨recs, h1, h2, h3, h4⟩ := ih (SPort_Inject_Packet t s)
      (by rw [SPort_Inject_Packet_mavGood]; exact hconn)
      (by
        have := hperm.length_eq
        simp only [List.length_cons] at this hlen
        omega)
      (fun t' ht' x hx hxu =>
        htime t' (List.mem_cons_of_mem _ ht') x (hsub x hx hxu).1 hxu)
    refine ⟨r :: recs, by simp [popTrace, hpop, h1], ?_, ?_, by simpa [popAll] using h4⟩
    · exact (List.Perm.cons r h2).trans hperm.symm
    · refine List.Pairwise.cons ?_ h3
      intro x hx
      have hx1 := h2.subset hx
      have hx2 := List.mem_filter.mp hx1
      have hxu : x.inuse = true := by simpa using hx2.2
      exact hbefore x (hsub x hx2.1 hxu).1 hxu

/-! ## The two-tier choice -/

/-- While connected and as long as the age of every in-use row fits in the 16 bits that
hold it, `SPort_Inject_Packet` transmits a row of greatest age among the rows whose id
is not 0x5000 when that age is positive, otherwise a row of greatest age among the
0x5000 rows when that age is positive, otherwise nothing; only the chosen row changes. -/
theorem SPort_Inject_Packet_two_tier (now : Nat) (s : State) (hconn : s.mavGood = true)
    (hfit : ∀ r ∈ s.sb, r.inuse = true → ageFits now r) :
    ((∃ r ∈ s.sb, r.inuse = true ∧ r.id ≠ 0x5000 ∧ 0 < spec_age now r) →
      ∃ p r, transmits now s p r ∧ r.inuse = true ∧ r.id ≠ 0x5000 ∧ 0 < spec_age now r ∧
        ∀ r' ∈ s.sb, r'.inuse = true → r'.id ≠ 0x5000 → spec_age now r' ≤ spec_age now r) ∧
    ((¬ ∃ r ∈ s.sb, r.inuse = true ∧ r.id ≠ 0x5000 ∧ 0 < spec_age now r) →
      (∃ r ∈ s.sb, r.inuse = true ∧ r.id = 0x5000 ∧ 0 < spec_age now r) →
      ∃ p r, transmits now s p r ∧ r.inuse = true ∧ r.id = 0x5000 ∧ 0 < spec_age now r ∧
        ∀ r' ∈ s.sb, r'.inuse = true → r'.id = 0x5000 → spec_age now r' ≤ spec_age now r) ∧
    ((¬ ∃ r ∈ s.sb, r.inuse = true ∧ 0 < spec_age now r) →
      (SPort_Inject_Packet now s).sb = s.sb ∧ (SPort_Inject_Packet now s).out = s.out) := by
  have hage : ∀ r ∈ s.sb, r.inuse = true → sb_subid_age now r = spec_age now r :=
    fun r hr hu => sb_subid_age_eq now r (hfit r hr hu)
  refine ⟨?_, ?_, ?_⟩
  · rintro ⟨r0, hr0, hu0, ht0, ha0⟩
    obtain ⟨p, r, hp, hr, hu, ht, ha, hmax⟩ :=
      popPtr_tier1 now s.sb ⟨r0, hr0, hu0, ht0, by rw [hage r0 hr0 hu0]; exact ha0⟩
    have hmem := List.getElem?_mem hr
    refine ⟨p, r, SPort_Inject_Packet_some now s p r hconn hp hr, hu, ht, ?_, ?_⟩
    · rw [← hage r hmem hu]; exact ha
    · intro r' hr' hu' ht'
      rw [← hage r hmem hu, ← hage r' hr' hu']
      exact hmax r' hr' hu' ht'
  · rintro hno ⟨r0, hr0, hu0, ht0, ha0⟩
    have h1 : ∀ r ∈ s.sb, r.inuse = true → r.id ≠ 0x5000 → sb_subid_age now r ≤ 0 := by
      intro r hr hu ht
      rw [hage r hr hu]
      by_contra hc
      exact hno ⟨r, hr, hu, ht, not_le.mp hc⟩
    obtain ⟨p, r, hp, hr, hu, ht, ha, hmax⟩ :=
      popPtr_tier2 now s.sb h1 ⟨r0, hr0, hu0, ht0, by rw [hage r0 hr0 hu0]; exact ha0⟩
    have hmem := List.getElem?_mem hr
    refine ⟨p, r, SPort_Inject_Packet_some now s p r hconn hp hr, hu, ht, ?_, ?_⟩
    · rw [← hage r hmem hu]; exact ha
    · intro r' hr' hu' ht'
      rw [← hage r hmem hu, ← hage r' hr' hu']
      exact hmax r' hr' hu' ht'
  · intro hno
    apply SPort_Inject_Packet_none now s hconn
    apply popPtr_none
    intro r hr hu
    rw [hage r hr hu]
    by_contra hc
    exact hno ⟨r, hr, hu, not_le.mp hc⟩

/-- An instance of `SPort_Inject_Packet_two_tier`: a status text and an AP status row
enqueued at 0, popped at 50. -/
theorem SPort_Inject_Packet_two_tier_example :
    ∃ p r, transmits 50 (blankState [row 0x5000 1 0 3, row 0x5001 0 0 7, freeRow] TrMode.ground) p r ∧
      r.inuse = true ∧ r.id ≠ 0x5000 ∧
      0 < spec_age 50 r ∧
      ∀ r' ∈ (blankState [row 0x5000 1 0 3, row 0x5001 0 0 7, freeRow] TrMode.ground).sb,
        r'.inuse = true → r'.id ≠ 0x5000 → spec_age 50 r' ≤ spec_age 50 r :=
  (SPort_Inject_Packet_two_tier 50
    (blankState [row 0x5000 1 0 3, row 0x5001 0 0 7, freeRow] TrMode.ground)
    (by decide) (by decide)).1 (by decide)

/-- While some record with an id other than 0x5000 has a positive 16-bit age, the pop
takes a record with an id other than 0x5000. -/
theorem popped_tier1_first (now : Nat) (s : State) (hconn : s.mavGood = true)
    (h : ∃ r ∈ s.sb, r.inuse = true ∧ r.id ≠ 0x5000 ∧ 0 < sb_subid_age now r) :
    ∃ r, popped now s = some r ∧ r.inuse = true ∧ r.id ≠ 0x5000 := by
  obtain ⟨p, r, hp, hr, hu, ht, _, _⟩ := popPtr_tier1 now s.sb h
  exact ⟨r, by simp [popped, hconn, hp, List.getD_eq_getElem?_getD, hr], hu, ht⟩

/-! ## binary32 rounding and the decoded value of prep_number -/

theorem bitLength_bounds (fuel p : Nat) (hp : 0 < p) (hf : p < 2 ^ fuel) :
    2 ^ (bitLength fuel p - 1) ≤ p ∧ p < 2 ^ bitLength fuel p ∧ 0 < bitLength fuel p := by
  induction fuel generalizing p with
  | zero => simp at hf; omega
  | succ f ih =>
    have hne : p ≠ 0 := by omega
    simp only [bitLength, hne, if_false]
    by_cases h2 : p / 2 = 0
    · have hp1 : p = 1 := by omega
      subst hp1
      cases f with
      | zero => simp [bitLength]
      | succ g => simp [bitLength]
    · have hlt : p / 2 < 2 ^ f := by
        rw [pow_succ] at hf
        omega
      obtain ⟨h1, h3, h4⟩ := ih (p / 2) (by omega) hlt
      refine ⟨?_, ?_, by omega⟩
      · have e : bitLength f (p / 2) + 1 - 1 = (bitLength f (p / 2) - 1) + 1 := by omega
        rw [e, pow_succ]
        omega
      · rw [pow_succ]
        omega

theorem f32round_small (p : Nat) (hp : p < 2 ^ 24) : f32round p = p := by
  unfold f32round
  by_cases h0 : p = 0
  · subst h0; simp [bitLength]
  · obtain ⟨h1, _, h3⟩ := bitLength_bounds 64 p (by omega) (by
      calc p < 2 ^ 24 := hp
        _ ≤ 2 ^ 64 := by norm_num)
    have hle : bitLength 64 p ≤ 24 := by
      by_contra hc
      have : 2 ^ 24 ≤ 2 ^ (bitLength 64 p - 1) := Nat.pow_le_pow_right (by norm_num) (by omega)
      omega
    simp [hle]

/-- The rounding of `p >= 2^24`: a multiple of `2 * h` within `h` of `p`, where the
power of two `h` is half the spacing of binary32 values around `p`. -/
theorem f32round_large (p : Nat) (hlo : 2 ^ 24 ≤ p) (hhi : p < 2 ^ 64) :
    ∃ sh q1 : Nat, 1 ≤ sh ∧ f32round p = q1 * 2 ^ sh ∧
      2 ^ 23 * 2 ^ sh ≤ p ∧ p < 2 ^ 24 * 2 ^ sh ∧
      2 * p ≤ 2 * f32round p + 2 ^ sh ∧ 2 * f32round p ≤ 2 * p + 2 ^ sh := by
  obtain ⟨h1, h2, h3⟩ := bitLength_bounds 64 p (by
    have : 0 < 2 ^ 24 := by norm_num
    omega) hhi
  have hgt : 24 < bitLength 64 p := by
    by_contra hc
    have : 2 ^ bitLength 64 p ≤ 2 ^ 24 := Nat.pow_le_pow_right (by norm_num) (by omega)
    omega
  have hnle : ¬ bitLength 64 p ≤ 24 := by omega
  obtain ⟨sh, hsh⟩ : ∃ sh, bitLength 64 p = sh + 25 := ⟨bitLength 64 p - 25, by omega⟩
  have e1 : bitLength 64 p - 24 = sh + 1 := by omega
  have e2 : bitLength 64 p - 1 = 23 + (sh + 1) := by omega
  have hpow : (2 : Nat) ^ (sh + 1) = 2 * 2 ^ sh := by rw [pow_succ]; ring
  have hpos : 0 < 2 ^ sh := pow_pos (by norm_num) _
  have hdm := Nat.div_add_mod p (2 ^ (sh + 1))
  have hmod : p % 2 ^ (sh + 1) < 2 ^ (sh + 1) := Nat.mod_lt _ (pow_pos (by norm_num) _)
  have hb1 : 2 ^ 23 * 2 ^ (sh + 1) ≤ p := by
    rw [← pow_add, ← e2]; exact h1
  have hb2 : p < 2 ^ 24 * 2 ^ (sh + 1) := by
    have : bitLength 64 p = 24 + (sh + 1) := by omega
    rw [← pow_add, ← this]; exact h2
  unfold f32round
  simp only [hnle, if_false, e1, Nat.add_sub_cancel]
  generalize hq : p / 2 ^ (sh + 1) = q at hdm ⊢
  generalize hr : p % 2 ^ (sh + 1) = r at hdm hmod ⊢
  by_cases hup : r > 2 ^ sh ∨ (r = 2 ^ sh ∧ q % 2 = 1)
  · refine ⟨sh + 1, q + 1, by omega, by simp [hup], hb1, hb2, ?_, ?_⟩
    · simp only [hup, if_true]
      have : (q + 1) * 2 ^ (sh + 1) = 2 ^ (sh + 1) * q + 2 ^ (sh + 1) := by ring
      rw [this]
      omega
    · simp only [hup, if_true]
      have : (q + 1) * 2 ^ (sh + 1) = 2 ^ (sh + 1) * q + 2 ^ (sh + 1) := by ring
      rw [this]
      rcases hup with h | ⟨h, _⟩ <;> omega
  · refine ⟨sh + 1, q, by omega, by simp [hup], hb1, hb2, ?_, ?_⟩
    · simp only [hup, if_false]
      have : q * 2 ^ (sh + 1) = 2 ^ (sh + 1) * q := by ring
      rw [this]
      have hr' : r ≤ 2 ^ sh := by
        by_contra hc
        exact hup (Or.inl (by omega))
      omega
    · simp only [hup, if_false]
      have : q * 2 ^ (sh + 1) = 2 ^ (sh + 1) * q := by ring
      rw [this]
      omega


theorem multiple_ge_of_lt_add (x T q1 g : Nat) (hx : x = q1 * T) (h : g * T < x + T) :
    g * T ≤ x := by
  rw [hx] at h ⊢
  have h1 : g * T < (q1 + 1) * T := by
    have : (q1 + 1) * T = q1 * T + T := by ring
    rw [this]; exact h
  have h2 : g < q1 + 1 := Nat.lt_of_mul_lt_mul_right h1
  exact Nat.mul_le_mul_right T (by omega)

theorem spacing_divides (sh e : Nat) (h : sh ≤ e) : ∃ c : Nat, 2 ^ e = c * 2 ^ sh :=
  ⟨2 ^ (e - sh), by rw [← pow_add]; congr 1; omega⟩

theorem spacing_le (sh e : Nat) (h : 2 ^ sh < 2 ^ (e + 1)) : sh ≤ e := by
  have := (Nat.pow_lt_pow_iff_right (by norm_num : 1 < 2)).mp h
  omega

/-- `roundf(n * 0.1f)` is `n / 10` rounded half up, for `10 <= n < 10240`. -/
theorem roundf_tenth_eq (n : Nat) (hlo : 10 ≤ n) (hhi : n < 10240) :
    roundf_tenth n = (n + 5) / 10 := by
  simp only [roundf_tenth, roundf_mul]
  rw [f32round_small n (by norm_num; omega)]
  obtain ⟨sh, q1, hsh, hx, hb1, hb2, h1, h2⟩ :=
    f32round_large (n * 13421773) (by norm_num; omega) (by norm_num; omega)
  generalize f32round (n * 13421773) = x at hx h1 h2 ⊢
  have hsh26 : sh ≤ 26 := spacing_le sh 26 (by norm_num at hb1 ⊢; omega)
  obtain ⟨c, hc⟩ := spacing_divides sh 26 hsh26
  generalize 2 ^ sh = T at hx hb1 hb2 h1 h2 hc
  norm_num at hb1 hb2 hc ⊢
  have hk1 : 10 * ((n + 5) / 10) ≤ n + 5 := Nat.mul_div_le _ _
  have hk2 : n + 5 < 10 * ((n + 5) / 10) + 10 := by
    have := Nat.lt_div_mul_add (a := n + 5) (b := 10) (by norm_num)
    omega
  generalize (n + 5) / 10 = k at hk1 hk2 ⊢
  have hg : (2 * k - 1) * c * T ≤ x := by
    apply multiple_ge_of_lt_add x T q1 _ hx
    have e : (2 * k - 1) * c * T = (2 * k - 1) * 67108864 := by rw [mul_assoc, ← hc]
    rw [e]
    omega
  have e : (2 * k - 1) * c * T = (2 * k - 1) * 67108864 := by rw [mul_assoc, ← hc]
  rw [e] at hg
  apply Nat.div_eq_of_lt_le <;> omega


/-- `roundf(n * 0.01f)` is `n / 100` rounded half up, for `1000 <= n < 100000`. -/
theorem roundf_hundredth_eq (n : Nat) (hlo : 1000 ≤ n) (hhi : n < 100000) :
    roundf_hundredth n = (n + 50) / 100 := by
  simp only [roundf_hundredth, roundf_mul]
  rw [f32round_small n (by norm_num; omega)]
  obtain ⟨sh, q1, hsh, hx, hb1, hb2, h1, h2⟩ :=
    f32round_large (n * 10737418) (by norm_num; omega) (by norm_num; omega)
  generalize f32round (n * 10737418) = x at hx h1 h2 ⊢
  have hsh1 : sh ≤ 29 := spacing_le sh 29 (by norm_num at hb1 ⊢; omega)
  obtain ⟨c, hc⟩ := spacing_divides sh 29 hsh1
  generalize 2 ^ sh = T at hx hb1 hb2 h1 h2 hc
  norm_num at hb1 hb2 hc ⊢
  have hk1 : 100 * ((n + 50) / 100) ≤ n + 50 := Nat.mul_div_le _ _
  have hk2 : n + 50 < 100 * ((n + 50) / 100) + 100 := by
    have := Nat.lt_div_mul_add (a := n + 50) (b := 100) (by norm_num)
    omega
  generalize (n + 50) / 100 = k at hk1 hk2 ⊢
  have e : (2 * k - 1) * c * T = (2 * k - 1) * 536870912 := by rw [mul_assoc, ← hc]
  have hg : (2 * k - 1) * c * T ≤ x := by
    apply multiple_ge_of_lt_add x T q1 _ hx
    rw [e]
    omega
  rw [e] at hg
  apply Nat.div_eq_of_lt_le <;> omega

/-- `roundf(n * 0.001f)` is `n / 1000` rounded half up, for `10000 <= n < 1024000`. -/
theorem roundf_thousandth_eq (n : Nat) (hlo : 10000 ≤ n) (hhi : n < 1024000) :
    roundf_thousandth n = (n + 500) / 1000 := by
  simp only [roundf_thousandth, roundf_mul]
  rw [f32round_small n (by norm_num; omega)]
  obtain ⟨sh, q1, hsh, hx, hb1, hb2, h1, h2⟩ :=
    f32round_large (n * 8589935) (by norm_num; omega) (by norm_num; omega)
  generalize f32round (n * 8589935) = x at hx h1 h2 ⊢
  have hsh1 : sh ≤ 32 := spacing_le sh 32 (by norm_num at hb1 ⊢; omega)
  obtain ⟨c, hc⟩ := spacing_divides sh 32 hsh1
  generalize 2 ^ sh = T at hx hb1 hb2 h1 h2 hc
  norm_num at hb1 hb2 hc ⊢
  have hk1 : 1000 * ((n + 500) / 1000) ≤ n + 500 := Nat.mul_div_le _ _
  have hk2 : n + 500 < 1000 * ((n + 500) / 1000) + 1000 := by
    have := Nat.lt_div_mul_add (a := n + 500) (b := 1000) (by norm_num)
    omega
  generalize (n + 500) / 1000 = k at hk1 hk2 ⊢
  have e : (2 * k - 1) * c * T = (2 * k - 1) * 4294967296 := by rw [mul_assoc, ← hc]
  have hg : (2 * k - 1) * c * T ≤ x := by
    apply multiple_ge_of_lt_add x T q1 _ hx
    rw [e]
    omega
  rw [e] at hg
  apply Nat.div_eq_of_lt_le <;> omega

theorem packField_eq (mb eb m e : Nat) (neg : Bool) (hm : m < 2 ^ mb) (he : e < 2 ^ eb)
    (hw : mb + eb < 16) :
    packField mb eb m e neg = e + 2 ^ eb * (m + (if neg then 2 ^ mb else 0)) := by
  have h1 : (m <<< eb) ||| e = 2 ^ eb * m + e := by
    rw [Nat.shiftLeft_eq, Nat.mul_comm, ← Nat.mul_add_lt_is_or he]
  have hlt : 2 ^ eb * m + e < 2 ^ (mb + eb) := by
    have : 2 ^ eb * m + e < 2 ^ eb * (m + 1) := by rw [Nat.mul_add]; omega
    calc 2 ^ eb * m + e < 2 ^ eb * (m + 1) := this
      _ ≤ 2 ^ eb * 2 ^ mb := Nat.mul_le_mul_left _ (by omega)
      _ = 2 ^ (mb + eb) := by rw [← pow_add, Nat.add_comm]
  have h16 : 2 ^ (mb + eb) ≤ 65536 := by
    have : (2 : Nat) ^ (mb + eb) ≤ 2 ^ 16 := Nat.pow_le_pow_right (by norm_num) (by omega)
    simpa using this
  have hmod : (2 ^ eb * m + e) % 65536 = 2 ^ eb * m + e := Nat.mod_eq_of_lt (by omega)
  unfold packField
  simp only [h1, hmod]
  cases neg with
  | false => simp; ring
  | true =>
    have h2 : (2 ^ eb * m + e) ||| (0x1 <<< (mb + eb)) = 2 ^ (mb + eb) * 1 + (2 ^ eb * m + e) := by
      rw [Nat.shiftLeft_eq, Nat.one_mul, Nat.or_comm, Nat.mul_one]
      have := Nat.mul_add_lt_is_or hlt 1
      rw [Nat.mul_one] at this
      exact this.symm
    simp only [if_true, h2]
    rw [pow_add]
    ring

theorem packField_decode (mb eb m e : Nat) (neg : Bool) (hm : m < 2 ^ mb) (he : e < 2 ^ eb)
    (hw : mb + eb < 16) :
    spec_decode mb eb (packField mb eb m e neg) = m * 10 ^ e ∧
      packField mb eb m e neg % 2 ^ eb = e := by
  rw [packField_eq mb eb m e neg hm he hw]
  have hpos : 0 < 2 ^ eb := pow_pos (by norm_num) _
  have hmod : (e + 2 ^ eb * (m + if neg = true then 2 ^ mb else 0)) % 2 ^ eb = e := by
    rw [Nat.add_mul_mod_self_left, Nat.mod_eq_of_lt he]
  have hdiv : (e + 2 ^ eb * (m + if neg = true then 2 ^ mb else 0)) / 2 ^ eb =
      m + if neg = true then 2 ^ mb else 0 := by
    rw [Nat.add_mul_div_left _ _ hpos, Nat.div_eq_of_lt he, Nat.zero_add]
  refine ⟨?_, hmod⟩
  unfold spec_decode
  rw [Nat.shiftRight_eq_div_pow, hdiv, hmod]
  congr 1
  cases neg with
  | false => simpa using Nat.mod_eq_of_lt hm
  | true => simp [Nat.mod_eq_of_lt hm]

theorem prep_number_1_1 (n : Int) (hlo : -2147483648 ≤ n) (hhi : n ≤ 2147483647) :
    prep_number n 1 1 =
      packField 4 1 (prepMantissa 1 1 n.natAbs) (prepExponent 1 1 n.natAbs)
        (decide (n < 0)) := by
  have habs : n.natAbs % 4294967296 = n.natAbs := by omega
  unfold prep_number packField prepMantissa prepExponent
  simp only [habs]
  by_cases hn : n < 0 <;> by_cases h0 : n.natAbs < 10 <;> by_cases h1 : n.natAbs < 150 <;>
    simp [hn, h0, h1]

theorem prep_number_2_1 (n : Int) (hlo : -2147483648 ≤ n) (hhi : n ≤ 2147483647) :
    prep_number n 2 1 =
      packField 7 1 (prepMantissa 2 1 n.natAbs) (prepExponent 2 1 n.natAbs)
        (decide (n < 0)) := by
  have habs : n.natAbs % 4294967296 = n.natAbs := by omega
  unfold prep_number packField prepMantissa prepExponent
  simp only [habs]
  by_cases hn : n < 0 <;> by_cases h0 : n.natAbs < 100 <;> by_cases h1 : n.natAbs < 1270 <;>
    simp [hn, h0, h1]

theorem prep_number_2_2 (n : Int) (hlo : -2147483648 ≤ n) (hhi : n ≤ 2147483647) :
    prep_number n 2 2 =
      packField 7 2 (prepMantissa 2 2 n.natAbs) (prepExponent 2 2 n.natAbs)
        (decide (n < 0)) := by
  have habs : n.natAbs % 4294967296 = n.natAbs := by omega
  unfold prep_number packField prepMantissa prepExponent
  simp only [habs]
  by_cases hn : n < 0 <;> by_cases h0 : n.natAbs < 100 <;> by_cases h1 : n.natAbs < 1000 <;> by_cases h2 : n.natAbs < 10000 <;> by_cases h3 : n.natAbs < 127000 <;>
    simp [hn, h0, h1, h2, h3]

theorem prep_number_3_1 (n : Int) (hlo : -2147483648 ≤ n) (hhi : n ≤ 2147483647) :
    prep_number n 3 1 =
      packField 10 1 (prepMantissa 3 1 n.natAbs) (prepExponent 3 1 n.natAbs)
        (decide (n < 0)) := by
  have habs : n.natAbs % 4294967296 = n.natAbs := by omega
  unfold prep_number packField prepMantissa prepExponent
  simp only [habs]
  by_cases hn : n < 0 <;> by_cases h0 : n.natAbs < 1000 <;> by_cases h1 : n.natAbs < 10240 <;>
    simp [hn, h0, h1]

theorem prep_number_3_2 (n : Int) (hlo : -2147483648 ≤ n) (hhi : n ≤ 2147483647) :
    prep_number n 3 2 =
      packField 10 2 (prepMantissa 3 2 n.natAbs) (prepExponent 3 2 n.natAbs)
        (decide (n < 0)) := by
  have habs : n.natAbs % 4294967296 = n.natAbs := by omega
  unfold prep_number packField prepMantissa prepExponent
  simp only [habs]
  by_cases hn : n < 0 <;> by_cases h0 : n.natAbs < 1000 <;> by_cases h1 : n.natAbs < 10000 <;> by_cases h2 : n.natAbs < 100000 <;> by_cases h3 : n.natAbs < 1024000 <;>
    simp [hn, h0, h1, h2, h3]

theorem withinOneUnit_packField (mb eb m e a : Nat) (neg : Bool) (hm : m < 2 ^ mb)
    (he : e < 2 ^ eb) (hw : mb + eb < 16) (h1 : m * 10 ^ e ≤ a + 10 ^ e)
    (h2 : a ≤ m * 10 ^ e + 10 ^ e) :
    withinOneUnit mb eb (packField mb eb m e neg) a := by
  obtain ⟨hd, hx⟩ := packField_decode mb eb m e neg hm he hw
  unfold withinOneUnit
  rw [hd, hx]
  exact ⟨h1, h2⟩

/-- Below the point where the rounded mantissa reaches 1024 (10235 and 1023500 for the two
10-bit classes, the class maximum for the others) the decoded value of `prep_number` is
within one unit of the last encoded digit of `|n|`. -/
theorem prep_number_within_one_unit (n : Int) (hlo : -2147483648 ≤ n) (hhi : n ≤ 2147483647) :
    (n.natAbs < 150 → withinOneUnit 4 1 (prep_number n 1 1) n.natAbs) ∧
    (n.natAbs < 1270 → withinOneUnit 7 1 (prep_number n 2 1) n.natAbs) ∧
    (n.natAbs < 127000 → withinOneUnit 7 2 (prep_number n 2 2) n.natAbs) ∧
    (n.natAbs < 10235 → withinOneUnit 10 1 (prep_number n 3 1) n.natAbs) ∧
    (n.natAbs < 1023500 → withinOneUnit 10 2 (prep_number n 3 2) n.natAbs) := by
  refine ⟨?_, ?_, ?_, ?_, ?_⟩
  · intro h
    rw [prep_number_1_1 n hlo hhi]
    generalize n.natAbs = a at h
    by_cases h0 : a < 10
    · simp only [prepMantissa, prepExponent, h0, and_self, and_true, true_and, false_and, and_false, if_true, if_false,
        Nat.reducePow, Nat.reduceAdd, Nat.reduceEqDiff]
      apply withinOneUnit_packField <;> omega
    by_cases h1 : a < 150
    · simp only [prepMantissa, prepExponent, h0, h1, and_self, and_true, true_and, false_and, and_false, if_true, if_false,
        Nat.reducePow, Nat.reduceAdd, Nat.reduceEqDiff]
      rw [roundf_tenth_eq a (by omega) (by omega)]
      apply withinOneUnit_packField <;> omega
    · omega
  · intro h
    rw [prep_number_2_1 n hlo hhi]
    generalize n.natAbs = a at h
    by_cases h0 : a < 100
    · simp only [prepMantissa, prepExponent, h0, and_self, and_true, true_and, false_and, and_false, if_true, if_false,
        Nat.reducePow, Nat.reduceAdd, Nat.reduceEqDiff]
      apply withinOneUnit_packField <;> omega
    by_cases h1 : a < 1270
    · simp only [prepMantissa, prepExponent, h0, h1, and_self, and_true, true_and, false_and, and_false, if_true, if_false,
        Nat.reducePow, Nat.reduceAdd, Nat.reduceEqDiff]
      rw [roundf_tenth_eq a (by omega) (by omega)]
      apply withinOneUnit_packField <;> omega
    · omega
  · intro h
    rw [prep_number_2_2 n hlo hhi]
    generalize n.natAbs = a at h
    by_cases h0 : a < 100
    · simp only [prepMantissa, prepExponent, h0, and_self, and_true, true_and, false_and, and_false, if_true, if_false,
        Nat.reducePow, Nat.reduceAdd, Nat.reduceEqDiff]
      apply withinOneUnit_packField <;> omega
    by_cases h1 : a < 1000
    · simp only [prepMantissa, prepExponent, h0, h1, and_self, and_true, true_and, false_and, and_false, if_true, if_false,
        Nat.reducePow, Nat.reduceAdd, Nat.reduceEqDiff]
      rw [roundf_tenth_eq a (by omega) (by omega)]
      apply withinOneUnit_packField <;> omega
    by_cases h2 : a < 10000
    · simp only [prepMantissa, prepExponent, h0, h1, h2, and_self, and_true, true_and, false_and, and_false, if_true, if_false,
        Nat.reducePow, Nat.reduceAdd, Nat.reduceEqDiff]
      rw [roundf_hundredth_eq a (by omega) (by omega)]
      apply withinOneUnit_packField <;> omega
    by_cases h3 : a < 127000
    · simp only [prepMantissa, prepExponent, h0, h1, h2, h3, and_self, and_true, true_and, false_and, and_false, if_true, if_false,
        Nat.reducePow, Nat.reduceAdd, Nat.reduceEqDiff]
      rw [roundf_thousandth_eq a (by omega) (by omega)]
      apply withinOneUnit_packField <;> omega
    · omega
  · intro h
    rw [prep_number_3_1 n hlo hhi]
    generalize n.natAbs = a at h
    by_cases h0 : a < 1000
    · simp only [prepMantissa, prepExponent, h0, and_self, and_true, true_and, false_and, and_false, if_true, if_false,
        Nat.reducePow, Nat.reduceAdd, Nat.reduceEqDiff]
      apply withinOneUnit_packField <;> omega
    by_cases h1 : a < 10240
    · simp only [prepMantissa, prepExponent, h0, h1, and_self, and_true, true_and, false_and, and_false, if_true, if_false,
        Nat.reducePow, Nat.reduceAdd, Nat.reduceEqDiff]
      rw [roundf_tenth_eq a (by omega) (by omega)]
      apply withinOneUnit_packField <;> omega
    · omega
  · intro h
    rw [prep_number_3_2 n hlo hhi]
    generalize n.natAbs = a at h
    by_cases h0 : a < 1000
    · simp only [prepMantissa, prepExponent, h0, and_self, and_true, true_and, false_and, and_false, if_true, if_false,
        Nat.reducePow, Nat.reduceAdd, Nat.reduceEqDiff]
      apply withinOneUnit_packField <;> omega
    by_cases h1 : a < 10000
    · simp only [prepMantissa, prepExponent, h0, h1, and_self, and_true, true_and, false_and, and_false, if_true, if_false,
        Nat.reducePow, Nat.reduceAdd, Nat.reduceEqDiff]
      rw [roundf_tenth_eq a (by omega) (by omega)]
      apply withinOneUnit_packField <;> omega
    by_cases h2 : a < 100000
    · simp only [prepMantissa, prepExponent, h0, h1, h2, and_self, and_true, true_and, false_and, and_false, if_true, if_false,
        Nat.reducePow, Nat.reduceAdd, Nat.reduceEqDiff]
      rw [roundf_hundredth_eq a (by omega) (by omega)]
      apply withinOneUnit_packField <;> omega
    by_cases h3 : a < 1024000
    · simp only [prepMantissa, prepExponent, h0, h1, h2, h3, and_self, and_true, true_and, false_and, and_false, if_true, if_false,
        Nat.reducePow, Nat.reduceAdd, Nat.reduceEqDiff]
      rw [roundf_thousandth_eq a (by omega) (by omega)]
      apply withinOneUnit_packField <;> omega
    · omega

/-! ## The fields written by bit32Pack -/

theorem createMask_fold (j n lo r : Nat) :
    ((List.range' lo n).foldl (fun r i => r ||| ((1 <<< i) % 4294967296)) r).testBit j =
      (r.testBit j || decide (lo ≤ j ∧ j < lo + n ∧ j < 32)) := by
  induction n generalizing lo r with
  | zero =>
    have : ¬ (lo ≤ j ∧ j < lo + 0 ∧ j < 32) := by omega
    simp only [List.range'_zero, List.foldl_nil, this, decide_False, Bool.or_false]
  | succ n ih =>
    rw [List.range'_succ, List.foldl_cons, ih, Nat.testBit_or, Nat.one_shiftLeft,
      show (4294967296 : Nat) = 2 ^ 32 by norm_num, Nat.testBit_mod_two_pow, Nat.testBit_two_pow]
    by_cases h1 : lo = j
    · subst h1
      by_cases h2 : lo < 32 <;> simp [h2]
    · by_cases h3 : lo + 1 ≤ j
      · have : lo ≤ j := by omega
        have e : lo + 1 + n = lo + (n + 1) := by omega
        simp [h1, h3, this, e]
      · have : ¬ lo ≤ j := by omega
        simp [h1, h3, this]

theorem createMask_testBit (lo hi j : Nat) :
    (createMask lo hi).testBit j = decide (lo ≤ j ∧ j ≤ hi ∧ j < 32) := by
  unfold createMask
  rw [createMask_fold]
  by_cases h : lo ≤ j ∧ j ≤ hi ∧ j < 32
  · have : lo ≤ j ∧ j < lo + (hi + 1 - lo) ∧ j < 32 := by omega
    simp [h, this]
  · have : ¬ (lo ≤ j ∧ j < lo + (hi + 1 - lo) ∧ j < 32) := by omega
    simp only [h, this, decide_False, Nat.zero_testBit, Bool.or_false]

/-- For a field inside the 32-bit word, `bit32Pack` ORs `(v mod 2^w) * 2^d` into
`fr_payload`. -/
theorem bit32Pack_fr_payload (v d w : Nat) (s : State) (hw : 1 ≤ w) (hdw : d + w ≤ 32) :
    bit32Pack v d w s = { s with fr_payload := s.fr_payload ||| ((v % 2 ^ w) * 2 ^ d) } := by
  have hd : d % 256 = d := by omega
  have hw2 : w % 256 = w := by omega
  have hhi : (d + w + 255) % 256 = d + w - 1 := by omega
  unfold bit32Pack
  simp only [hd, hw2, hhi]
  congr 2
  apply Nat.eq_of_testBit_eq
  intro j
  rw [Nat.testBit_and, createMask_testBit, show (4294967296 : Nat) = 2 ^ 32 by norm_num,
    Nat.testBit_mod_two_pow, Nat.testBit_shiftLeft, Nat.testBit_mod_two_pow, Nat.mul_comm,
    Nat.testBit_mul_pow_two, Nat.testBit_mod_two_pow]
  by_cases h1 : d ≤ j
  · by_cases h2 : j < d + w
    · have a1 : j < 32 := by omega
      have a2 : j - d < 32 := by omega
      have a3 : j - d < w := by omega
      have a4 : j ≤ d + w - 1 := by omega
      simp [h1, a1, a2, a3, a4]
    · have a3 : ¬ j - d < w := by omega
      have a4 : ¬ j ≤ d + w - 1 := by omega
      simp [a3, a4]
  · simp [h1]

theorem bit32Unpack_testBit (x d w i : Nat) (hw : 1 ≤ w) (hdw : d + w ≤ 32) :
    (bit32Unpack x d w).testBit i = (decide (i < w) && x.testBit (d + i)) := by
  have hd : d % 256 = d := by omega
  have hw2 : w % 256 = w := by omega
  have hhi : (d + w + 255) % 256 = d + w - 1 := by omega
  unfold bit32Unpack
  simp only [hd, hw2, hhi]
  rw [Nat.testBit_shiftRight, Nat.testBit_and, createMask_testBit,
    show (4294967296 : Nat) = 2 ^ 32 by norm_num, Nat.testBit_mod_two_pow]
  by_cases h : i < w
  · have a1 : d + i < 32 := by omega
    have a2 : d + i ≤ d + w - 1 := by omega
    simp [h, a1, a2]
  · have a2 : ¬ d + i ≤ d + w - 1 := by omega
    simp [h, a2]

/-! ## Status text chunks -/

theorem PushToEmptyRow_fr_payload (now : Nat) (r : sb_t) (s : State) (p : Nat) :
    PushToEmptyRow now r { s with fr_payload := p } =
      (PushToEmptyRow now r s).map (fun s1 => { s1 with fr_payload := p }) := by
  unfold PushToEmptyRow
  cases findFreeRow s.sb 0 with
  | none => rfl
  | some j =>
    simp only [Option.map]
    split_ifs <;> rfl

theorem pushAll_fr_payload (ps : List (Nat × sb_t)) (s : State) (p : Nat) :
    pushAll ps { s with fr_payload := p } =
      (pushAll ps s).map (fun s1 => { s1 with fr_payload := p }) := by
  induction ps generalizing s with
  | nil => rfl
  | cons q rest ih =>
    simp only [pushAll]
    rw [PushToEmptyRow_fr_payload]
    cases PushToEmptyRow q.1 q.2 s with
    | none => rfl
    | some s1 => simpa using ih s1

theorem and_two_pow_shift (s i : Nat) : (s &&& 2 ^ i) >>> i = s / 2 ^ i % 2 := by
  apply Nat.eq_of_testBit_eq
  intro j
  have h : s / 2 ^ i % 2 = (s >>> i) % 2 ^ 1 := by rw [Nat.shiftRight_eq_div_pow, Nat.pow_one]
  rw [Nat.testBit_shiftRight, Nat.testBit_and, Nat.testBit_two_pow, h, Nat.testBit_mod_two_pow,
    Nat.testBit_shiftRight]
  by_cases hj : j = 0
  · subst hj; simp
  · have a1 : ¬ i = i + j := by omega
    have a2 : ¬ j < 1 := by omega
    simp [a1, a2]

theorem chunk_pack (chars : List Nat) (L s idx : Nat) (sp : State) :
    (if idx + 4 > L then
        bit32Pack 0 31 1 (bit32Pack ((s &&& 0x4) >>> 2) 23 1 (bit32Pack ((s &&& 0x2) >>> 1) 15 1
          (bit32Pack (s &&& 0x1) 7 1 (bit32Pack (chars.getD (idx + 3) 0) 0 7
          (bit32Pack (chars.getD (idx + 2) 0) 8 7 (bit32Pack (chars.getD (idx + 1) 0) 16 7
          (bit32Pack (chars.getD idx 0) 24 7 { sp with fr_payload := 0 })))))))
      else
        bit32Pack (chars.getD (idx + 3) 0) 0 7
          (bit32Pack (chars.getD (idx + 2) 0) 8 7 (bit32Pack (chars.getD (idx + 1) 0) 16 7
          (bit32Pack (chars.getD idx 0) 24 7 { sp with fr_payload := 0 })))) =
      { sp with fr_payload := spec_chunk chars L s idx } := by
  have e1 : ∀ x : Nat, x &&& 0x7F = x % 2 ^ 7 := fun x => Nat.and_pow_two_sub_one_eq_mod x 7
  have s0 : (s &&& 1) % 2 ^ 1 = s % 2 := by
    rw [Nat.and_one_is_mod]; omega
  have s1 : ((s &&& 2) >>> 1) % 2 ^ 1 = s / 2 % 2 := by
    have := and_two_pow_shift s 1
    simp only [Nat.pow_one] at this
    rw [this]; omega
  have s2 : ((s &&& 4) >>> 2) % 2 ^ 1 = s / 4 % 2 := by
    have := and_two_pow_shift s 2
    simp only [Nat.reducePow] at this
    rw [this]; omega
  unfold spec_chunk
  split_ifs with h
  · rw [bit32Pack_fr_payload _ 24 7 _ (by omega) (by omega),
      bit32Pack_fr_payload _ 16 7 _ (by omega) (by omega),
      bit32Pack_fr_payload _ 8 7 _ (by omega) (by omega),
      bit32Pack_fr_payload _ 0 7 _ (by omega) (by omega),
      bit32Pack_fr_payload _ 7 1 _ (by omega) (by omega),
      bit32Pack_fr_payload _ 15 1 _ (by omega) (by omega),
      bit32Pack_fr_payload _ 23 1 _ (by omega) (by omega),
      bit32Pack_fr_payload _ 31 1 _ (by omega) (by omega)]
    simp only [e1, s0, s1, s2, Nat.shiftLeft_eq, Nat.zero_or, Nat.zero_mod, Nat.zero_mul,
      Nat.or_zero, Nat.pow_zero, Nat.mul_one]
  · rw [bit32Pack_fr_payload _ 24 7 _ (by omega) (by omega),
      bit32Pack_fr_payload _ 16 7 _ (by omega) (by omega),
      bit32Pack_fr_payload _ 8 7 _ (by omega) (by omega),
      bit32Pack_fr_payload _ 0 7 _ (by omega) (by omega)]
    simp only [e1, Nat.shiftLeft_eq, Nat.zero_or, Nat.pow_zero, Nat.mul_one]

theorem textChunkLoop_done (clock : Nat → Nat) (id fuel k : Nat) (t : Tele)
    (h : ¬ t.fr_chunk_idx ≤ t.fr_txtlth) : textChunkLoop clock id fuel k t = some t := by
  cases fuel with
  | zero => simp [textChunkLoop, h]
  | succ n => simp [textChunkLoop, h]

theorem textChunkLoop_pass (clock : Nat → Nat) (id fuel k : Nat) (t : Tele)
    (h : t.fr_chunk_idx ≤ t.fr_txtlth) :
    textChunkLoop clock id (fuel + 1) k t =
      (PushToEmptyRow (clock k)
          (chunkRecord t.sr id t.fr_text t.fr_txtlth t.fr_severity t.fr_chunk_idx) t.sp).bind
        (fun sp => textChunkLoop clock id fuel (k + 1) (afterChunk id t sp)) := by
  have hp := chunk_pack t.fr_text t.fr_txtlth t.fr_severity t.fr_chunk_idx t.sp
  have hq := PushToEmptyRow_fr_payload (clock k)
    (chunkRecord t.sr id t.fr_text t.fr_txtlth t.fr_severity t.fr_chunk_idx)
    t.sp (spec_chunk t.fr_text t.fr_txtlth t.fr_severity t.fr_chunk_idx)
  rw [textChunkLoop, if_pos h]
  by_cases h4 : t.fr_chunk_idx + 4 > t.fr_txtlth
  · rw [if_pos h4] at hp
    simp only [h4, if_true, List.getD_cons_zero, List.getD_cons_succ, hp]
    unfold chunkRecord at hq ⊢
    simp only [hq]
    cases PushToEmptyRow (clock k) _ t.sp with
    | none => rfl
    | some sp => rfl
  · rw [if_neg h4] at hp
    simp only [h4, if_false, List.getD_cons_zero, List.getD_cons_succ, hp]
    unfold chunkRecord at hq ⊢
    simp only [hq]
    cases PushToEmptyRow (clock k) _ t.sp with
    | none => rfl
    | some sp => rfl

theorem chunkRecords_sr (clock : Nat → Nat) (sr : sb_t) (id : Nat) (chars : List Nat)
    (L s : Nat) (id1 : Nat) (chars1 : List Nat) (L1 s1 idx1 : Nat) (n k idx : Nat) :
    chunkRecords clock (chunkRecord sr id1 chars1 L1 s1 idx1) id chars L s n k idx =
      chunkRecords clock sr id chars L s n k idx := by
  induction n generalizing k idx with
  | zero => rfl
  | succ n ih => simp only [chunkRecords, ih]; rfl

theorem textChunkLoop_eq (clock : Nat → Nat) (id : Nat) (fuel : Nat) :
    ∀ (k : Nat) (t : Tele), t.fr_chunk_idx ≤ t.fr_txtlth →
      (t.fr_txtlth - t.fr_chunk_idx) / 4 + 1 ≤ fuel →
      (textChunkLoop clock id fuel k t).map (fun t1 => t1.sp) =
        (pushAll (chunkRecords clock t.sr id t.fr_text t.fr_txtlth t.fr_severity
            ((t.fr_txtlth - t.fr_chunk_idx) / 4 + 1) k t.fr_chunk_idx) t.sp).map
          (fun s => { s with
            fr_payload := spec_chunk t.fr_text t.fr_txtlth t.fr_severity
              (t.fr_chunk_idx + 4 * ((t.fr_txtlth - t.fr_chunk_idx) / 4)) }) := by
  induction fuel with
  | zero => intro k t _ h; omega
  | succ fuel ih =>
    intro k t hle hfuel
    rw [textChunkLoop_pass clock id fuel k t hle]
    simp only [chunkRecords, pushAll]
    cases hpush : PushToEmptyRow (clock k)
        (chunkRecord t.sr id t.fr_text t.fr_txtlth t.fr_severity t.fr_chunk_idx) t.sp with
    | none => rfl
    | some sp =>
      simp only [Option.bind]
      by_cases h4 : t.fr_chunk_idx + 4 ≤ t.fr_txtlth
      · have hx := ih (k + 1) (afterChunk id t sp) h4 (by
          show (t.fr_txtlth - (t.fr_chunk_idx + 4)) / 4 + 1 ≤ fuel
          omega)
        rw [hx]
        have e1 : (afterChunk id t sp).fr_txtlth = t.fr_txtlth := rfl
        have e2 : (afterChunk id t sp).fr_chunk_idx = t.fr_chunk_idx + 4 := rfl
        have e3 : (afterChunk id t sp).fr_text = t.fr_text := rfl
        have e4 : (afterChunk id t sp).fr_severity = t.fr_severity := rfl
        have e5 : (afterChunk id t sp).sr =
            chunkRecord t.sr id t.fr_text t.fr_txtlth t.fr_severity t.fr_chunk_idx := rfl
        have e6 : (afterChunk id t sp).sp =
            { sp with
              fr_payload := spec_chunk t.fr_text t.fr_txtlth t.fr_severity t.fr_chunk_idx } :=
          rfl
        rw [e1, e2, e3, e4, e5, e6, chunkRecords_sr, pushAll_fr_payload, Option.map_map]
        have n1 : (t.fr_txtlth - (t.fr_chunk_idx + 4)) / 4 + 1 =
            (t.fr_txtlth - t.fr_chunk_idx) / 4 := by omega
        have n2 : t.fr_chunk_idx + 4 + 4 * ((t.fr_txtlth - (t.fr_chunk_idx + 4)) / 4) =
            t.fr_chunk_idx + 4 * ((t.fr_txtlth - t.fr_chunk_idx) / 4) := by omega
        rw [n1, n2]
        rfl
      · have hdone := textChunkLoop_done clock id fuel (k + 1) (afterChunk id t sp) (by
          show ¬ t.fr_chunk_idx + 4 ≤ t.fr_txtlth
          exact h4)
        rw [hdone]
        have n1 : (t.fr_txtlth - t.fr_chunk_idx) / 4 = 0 := by omega
        rw [n1]
        rfl

theorem textLen_eq (text tail : List Nat) (len : Nat) (hnz : ∀ c ∈ text, c ≠ 0) :
    ∀ (n i : Nat), i ≤ text.length →
      textLen (text ++ 0 :: tail) len n i = if text.length < i + n then text.length else len := by
  intro n
  induction n with
  | zero => intro i hi; simp only [textLen]; rw [if_neg (by omega)]
  | succ n ih =>
    intro i hi
    simp only [textLen]
    by_cases hlt : i < text.length
    · have hget : (text ++ 0 :: tail).getD i 0 = text[i] := by
        rw [List.getD_eq_getElem?_getD, List.getElem?_append_left hlt, List.getElem?_eq_getElem hlt]
        rfl
      have hne : text[i] ≠ 0 := hnz _ (List.getElem_mem hlt)
      rw [hget, if_neg hne, ih (i + 1) (by omega)]
      have : i + 1 + n = i + (n + 1) := by omega
      rw [this]
    · have hi2 : i = text.length := by omega
      have hget : (text ++ 0 :: tail).getD i 0 = 0 := by
        rw [List.getD_eq_getElem?_getD, List.getElem?_append_right (by omega), hi2]
        simp
      rw [hget, if_pos rfl, if_pos (by omega)]
      exact hi2

theorem spec_chunk_congr (chars chars1 : List Nat) (L s idx : Nat) (hidx : idx ≤ L)
    (h : ∀ i, i < L + 4 → chars.getD i 0 = chars1.getD i 0) :
    spec_chunk chars L s idx = spec_chunk chars1 L s idx := by
  unfold spec_chunk
  rw [h idx (by omega), h (idx + 1) (by omega), h (idx + 2) (by omega), h (idx + 3) (by omega)]

theorem chunkRecords_congr (clock : Nat → Nat) (sr : sb_t) (id : Nat) (chars chars1 : List Nat)
    (L s : Nat) (h : ∀ i, i < L + 4 → chars.getD i 0 = chars1.getD i 0) :
    ∀ (n k idx : Nat), idx + 4 * n ≤ L + 4 →
      chunkRecords clock sr id chars L s n k idx = chunkRecords clock sr id chars1 L s n k idx := by
  intro n
  induction n with
  | zero => intro k idx _; rfl
  | succ n ih =>
    intro k idx hle
    simp only [chunkRecords, chunkRecord]
    rw [ih (k + 1) (idx + 4) (by omega), spec_chunk_congr chars chars1 L s idx (by omega) h]

theorem chunkRecords_length (clock : Nat → Nat) (sr : sb_t) (id : Nat) (chars : List Nat)
    (L s : Nat) : ∀ (n k idx : Nat), (chunkRecords clock sr id chars L s n k idx).length = n := by
  intro n
  induction n with
  | zero => intro k idx; rfl
  | succ n ih => intro k idx; simp only [chunkRecords, List.length_cons, ih]

theorem chunkRecords_get (clock : Nat → Nat) (sr : sb_t) (id : Nat) (chars : List Nat)
    (L s : Nat) : ∀ (n k idx j : Nat), j < n →
      (chunkRecords clock sr id chars L s n k idx)[j]? =
        some (clock (k + j), chunkRecord sr id chars L s (idx + 4 * j)) := by
  intro n
  induction n with
  | zero => intro k idx j hj; omega
  | succ n ih =>
    intro k idx j hj
    cases j with
    | zero => simp [chunkRecords]
    | succ j =>
      simp only [chunkRecords, List.getElem?_cons_succ]
      rw [ih (k + 1) (idx + 4) j (by omega)]
      have e1 : k + 1 + j = k + (j + 1) := by omega
      have e2 : idx + 4 + 4 * j = idx + 4 * (j + 1) := by omega
      rw [e1, e2]

theorem PackMultipleTextChunks_5000_loop (clock : Nat → Nat) (id : Nat) (t : Tele) :
    PackMultipleTextChunks_5000 clock id t =
      (textChunkLoop clock id ((textLoopEntry t).fr_txtlth + 1) 0 (textLoopEntry t)).map
        (fun t => { t with fr_chunk_idx := 0 }) := rfl

theorem textLoopEntry_fields (t : Tele) :
    (textLoopEntry t).fr_txtlth = textLen t.ap_text t.len 50 0 ∧
    (textLoopEntry t).fr_severity = t.ap_severity ∧
    (textLoopEntry t).sr = t.sr ∧ (textLoopEntry t).sp = t.sp ∧
    (textLoopEntry t).fr_chunk_idx = 0 ∧
    (textLoopEntry t).fr_text =
      ((((t.ap_text.set (textLen t.ap_text t.len 50 0 + 1) 0).set
        (textLen t.ap_text t.len 50 0 + 2) 0).set (textLen t.ap_text t.len 50 0 + 3) 0).set
        (textLen t.ap_text t.len 50 0 + 4) 0).take (textLen t.ap_text t.len 50 0 + 4) ++
        t.fr_text.drop (textLen t.ap_text t.len 50 0 + 4) := by
  unfold textLoopEntry
  dsimp only
  split_ifs <;> exact ⟨rfl, rfl, rfl, rfl, rfl, rfl⟩

theorem entry_text_getD (text tail rest : List Nat) (hlen : tail.length = 59 - text.length)
    (hL : text.length ≤ 50) (i : Nat) (hi : i < text.length + 4) :
    ((((((text ++ 0 :: tail).set (text.length + 1) 0).set (text.length + 2) 0).set
        (text.length + 3) 0).set (text.length + 4) 0).take (text.length + 4) ++ rest).getD i 0 =
      text.getD i 0 := by
  rw [List.getD_eq_getElem?_getD, List.getD_eq_getElem?_getD,
    List.getElem?_append_left (by simp; omega), List.getElem?_take, if_pos hi]
  simp only [List.getElem?_set]
  by_cases h1 : i < text.length
  · rw [if_neg (by omega), if_neg (by omega), if_neg (by omega), if_neg (by omega),
      List.getElem?_append_left h1]
  · have h2 : text[i]? = none := List.getElem?_eq_none (by omega)
    rw [h2]
    by_cases e4 : text.length + 4 = i
    · omega
    · rw [if_neg e4]
      by_cases e3 : text.length + 3 = i
      · rw [if_pos e3]; split_ifs <;> rfl
      · rw [if_neg e3]
        by_cases e2 : text.length + 2 = i
        · rw [if_pos e2]; split_ifs <;> rfl
        · rw [if_neg e2]
          by_cases e1 : text.length + 1 = i
          · rw [if_pos e1]; split_ifs <;> rfl
          · rw [if_neg e1]
            have e0 : i = text.length := by omega
            rw [e0, List.getElem?_append_right (by omega)]
            simp

/-- What `PackMultipleTextChunks_5000` pushes for a text of `L` characters held in
`ap_text` (a `char[60]`, the text followed by a null): the `L / 4 + 1` chunk records, in
order. -/
theorem PackMultipleTextChunks_5000_eq (clock : Nat → Nat) (id : Nat) (t : Tele)
    (text tail : List Nat) (htext : t.ap_text = text ++ 0 :: tail)
    (hsize : t.ap_text.length = 60) (hnz : ∀ c ∈ text, c ≠ 0) (hL : text.length ≤ 50)
    (hlen : text.length = 50 → t.len = 50) :
    (PackMultipleTextChunks_5000 clock id t).map (fun t1 => t1.sp) =
      (pushAll (chunkRecords clock t.sr id text text.length t.ap_severity
          (text.length / 4 + 1) 0 0) t.sp).map
        (fun s => { s with
          fr_payload := spec_chunk text text.length t.ap_severity (4 * (text.length / 4)) }) := by
  have hl : textLen t.ap_text t.len 50 0 = text.length := by
    rw [htext, textLen_eq text tail t.len hnz 50 0 (by omega)]
    by_cases h50 : text.length < 50
    · rw [if_pos (by omega)]
    · rw [if_neg (by omega), hlen (by omega)]; omega
  have htl : tail.length = 59 - text.length := by
    rw [htext] at hsize; simp at hsize; omega
  obtain ⟨f1, f2, f3, f4, f5, f6⟩ := textLoopEntry_fields t
  rw [hl] at f1 f6
  have key := textChunkLoop_eq clock id ((textLoopEntry t).fr_txtlth + 1) 0 (textLoopEntry t)
    (by rw [f5]; omega) (by rw [f5, f1]; omega)
  rw [PackMultipleTextChunks_5000_loop, Option.map_map]
  have hcomp : ((fun t1 : Tele => t1.sp) ∘ fun t : Tele => { t with fr_chunk_idx := 0 }) =
      fun t1 : Tele => t1.sp := rfl
  rw [hcomp, key, f1, f2, f3, f4, f5]
  have hg : ∀ i, i < text.length + 4 → (textLoopEntry t).fr_text.getD i 0 = text.getD i 0 := by
    intro i hi
    rw [f6, htext]
    exact entry_text_getD text tail _ htl hL i hi
  rw [chunkRecords_congr clock t.sr id _ text text.length t.ap_severity hg _ 0 0 (by omega),
    spec_chunk_congr _ text text.length t.ap_severity _ (by omega) hg]
  simp only [Nat.sub_zero, Nat.zero_add]

theorem char_field_testBit (c k j : Nat) :
    ((c &&& 0x7F) <<< k).testBit j = (decide (k ≤ j ∧ j < k + 7) && c.testBit (j - k)) := by
  rw [Nat.testBit_shiftLeft, show (0x7F : Nat) = 2 ^ 7 - 1 by norm_num, Nat.testBit_and,
    Nat.testBit_two_pow_sub_one]
  by_cases h1 : k ≤ j
  · by_cases h2 : j < k + 7
    · have : j - k < 7 := by omega
      simp [h1, h2, this]
    · have : ¬ j - k < 7 := by omega
      simp [h1, h2, this]
  · simp [h1]

theorem severity_field_testBit (s i k j : Nat) :
    ((s / 2 ^ i % 2) <<< k).testBit j = (decide (j = k) && s.testBit i) := by
  have h : s / 2 ^ i % 2 = (s >>> i) % 2 ^ 1 := by rw [Nat.shiftRight_eq_div_pow, Nat.pow_one]
  rw [Nat.testBit_shiftLeft, h, Nat.testBit_mod_two_pow, Nat.testBit_shiftRight]
  by_cases h1 : j = k
  · subst h1; simp
  · by_cases h2 : k ≤ j
    · have : ¬ j - k < 1 := by omega
      simp [h1, h2, this]
    · simp [h1, h2]

theorem spec_chunk_bits (chars : List Nat) (L s idx : Nat) :
    (spec_chunk chars L s idx).testBit 7 = (decide (idx + 4 > L) && s.testBit 0) ∧
    (spec_chunk chars L s idx).testBit 15 = (decide (idx + 4 > L) && s.testBit 1) ∧
    (spec_chunk chars L s idx).testBit 23 = (decide (idx + 4 > L) && s.testBit 2) ∧
    (spec_chunk chars L s idx).testBit 31 = false := by
  have c0 := char_field_testBit (chars.getD (idx + 3) 0) 0
  simp only [Nat.shiftLeft_zero] at c0
  have s0 := severity_field_testBit s 0
  have s1 := severity_field_testBit s 1
  have s2 := severity_field_testBit s 2
  simp only [Nat.pow_zero, Nat.div_one, Nat.pow_one, Nat.reducePow] at s0 s1 s2
  unfold spec_chunk
  by_cases h : idx + 4 > L
  · simp only [h, if_true, Nat.testBit_or, char_field_testBit, c0, s0, s1, s2]
    simp
  · simp only [h, if_false, Nat.testBit_or, char_field_testBit, c0]
    simp

theorem chunkRecords_eq_map (clock : Nat → Nat) (sr : sb_t) (id : Nat) (chars : List Nat)
    (L s n : Nat) :
    chunkRecords clock sr id chars L s n 0 0 =
      (List.range n).map (fun j => (clock j, chunkRecord sr id chars L s (4 * j))) := by
  apply List.ext_getElem?
  intro j
  by_cases hj : j < n
  · rw [chunkRecords_get clock sr id chars L s n 0 0 j hj, List.getElem?_map,
      List.getElem?_range hj]
    simp
  · rw [List.getElem?_eq_none (by rw [chunkRecords_length]; omega),
      List.getElem?_eq_none (by simp; omega)]

/-! ## The position payload -/

theorem xor_ones (y : Nat) (h : y < 2 ^ 32) : y ^^^ 0xffffffff = 4294967295 - y := by
  apply Nat.eq_of_testBit_eq
  intro i
  have e : 4294967295 - y = 2 ^ 32 - (y + 1) := by omega
  rw [e, Nat.testBit_two_pow_sub_succ h, Nat.testBit_xor,
    show (0xffffffff : Nat) = 2 ^ 32 - 1 by norm_num, Nat.testBit_two_pow_sub_one]
  by_cases hi : i < 32
  · simp [hi]
  · have : y < 2 ^ i := lt_of_lt_of_le h (Nat.pow_le_pow_right (by norm_num) (by omega))
    simp [hi, Nat.testBit_lt_two_pow this]

theorem Abs_eq (x : Int) (hlo : -2147483648 ≤ x) (hhi : x ≤ 2147483647) : Abs x = x.natAbs := by
  unfold Abs
  by_cases h : x < 0
  · rw [if_pos h]
    have hy : (x % 4294967296).toNat = 4294967296 - x.natAbs := by omega
    rw [hy, xor_ones _ (by omega)]
    omega
  · rw [if_neg h]
    omega

/-- The payload of a position record: the magnitude in bits 0-29, `ms2bits` above. -/
theorem latlon_pack (a ms : Nat) (sp : State) (ha : a < 2 ^ 30) (hms : ms < 4) :
    bit32Pack ms 30 2 (bit32Pack a 0 30 { sp with fr_payload := 0 }) =
      { sp with fr_payload := a + ms * 2 ^ 30 } := by
  rw [bit32Pack_fr_payload _ 0 30 _ (by omega) (by omega),
    bit32Pack_fr_payload _ 30 2 _ (by omega) (by omega)]
  have h1 : a % 2 ^ 30 = a := Nat.mod_eq_of_lt ha
  have h2 : ms % 2 ^ 2 = ms := Nat.mod_eq_of_lt (by omega)
  have h3 : 2 ^ 30 * ms + a = 2 ^ 30 * ms ||| a := Nat.mul_add_lt_is_or ha ms
  simp only [h1, h2, Nat.zero_or, Nat.pow_zero, Nat.mul_one]
  rw [Nat.or_comm, Nat.mul_comm, ← h3, Nat.add_comm, Nat.mul_comm]

theorem PackLat800_eq (now id : Nat) (t : Tele) (hfix : 3 ≤ t.ap_fixtype)
    (hlo : -2147483648 ≤ (if t.px4_flight_stack then t.ap_lat24 else t.ap_lat33))
    (hhi : (if t.px4_flight_stack then t.ap_lat24 else t.ap_lat33) ≤ 2147483647) :
    (PackLat800 now id t).map (fun t1 => t1.sp) =
      PushToEmptyRow now
        { t.sr with
          id := id
          subid := 0
          payload := (if t.px4_flight_stack then t.ap_lat24 else t.ap_lat33).natAbs / 100 * 6 +
            (if (if t.px4_flight_stack then t.ap_lat24 else t.ap_lat33) < 0 then 1 else 0) *
              2 ^ 30 }
        { t.sp with
          fr_payload := (if t.px4_flight_stack then t.ap_lat24 else t.ap_lat33).natAbs / 100 * 6 +
            (if (if t.px4_flight_stack then t.ap_lat24 else t.ap_lat33) < 0 then 1 else 0) *
              2 ^ 30 } := by
  have g : ¬ (if t.ap_fixtype < 3 then t.ap_fixtype else 3) < 3 := by
    rw [if_neg (by omega)]; omega
  unfold PackLat800
  simp only [g, if_false]
  cases hpx : t.px4_flight_stack
  · simp only [hpx, Bool.false_eq_true, if_false] at hlo hhi ⊢
    rw [Abs_eq _ hlo hhi]
    have hb : t.ap_lat33.natAbs / 100 * 6 < 2 ^ 30 := by omega
    rw [Nat.mod_eq_of_lt (by omega : t.ap_lat33.natAbs / 100 * 6 < 4294967296),
      latlon_pack _ _ _ hb (by split_ifs <;> omega), Option.map_map]
    cases PushToEmptyRow now _ _ <;> rfl
  · simp only [hpx, if_true] at hlo hhi ⊢
    rw [Abs_eq _ hlo hhi]
    have hb : t.ap_lat24.natAbs / 100 * 6 < 2 ^ 30 := by omega
    rw [Nat.mod_eq_of_lt (by omega : t.ap_lat24.natAbs / 100 * 6 < 4294967296),
      latlon_pack _ _ _ hb (by split_ifs <;> omega), Option.map_map]
    cases PushToEmptyRow now _ _ <;> rfl

theorem PackLon800_eq (now id : Nat) (t : Tele) (hfix : 3 ≤ t.ap_fixtype)
    (hlo : -2147483648 ≤ (if t.px4_flight_stack then t.ap_lon24 else t.ap_lon33))
    (hhi : (if t.px4_flight_stack then t.ap_lon24 else t.ap_lon33) ≤ 2147483647) :
    (PackLon800 now id t).map (fun t1 => t1.sp) =
      PushToEmptyRow now
        { t.sr with
          id := id
          subid := 1
          payload := (if t.px4_flight_stack then t.ap_lon24 else t.ap_lon33).natAbs / 100 * 6 +
            (if (if t.px4_flight_stack then t.ap_lon24 else t.ap_lon33) < 0 then 3 else 2) *
              2 ^ 30 }
        { t.sp with
          fr_payload := (if t.px4_flight_stack then t.ap_lon24 else t.ap_lon33).natAbs / 100 * 6 +
            (if (if t.px4_flight_stack then t.ap_lon24 else t.ap_lon33) < 0 then 3 else 2) *
              2 ^ 30 } := by
  have g : ¬ (if t.ap_fixtype < 3 then t.ap_fixtype else 3) < 3 := by
    rw [if_neg (by omega)]; omega
  unfold PackLon800
  simp only [g, if_false]
  cases hpx : t.px4_flight_stack
  · simp only [hpx, Bool.false_eq_true, if_false] at hlo hhi ⊢
    rw [Abs_eq _ hlo hhi]
    have hb : t.ap_lon33.natAbs / 100 * 6 < 2 ^ 30 := by omega
    rw [Nat.mod_eq_of_lt (by omega : t.ap_lon33.natAbs / 100 * 6 < 4294967296),
      latlon_pack _ _ _ hb (by split_ifs <;> omega), Option.map_map]
    cases PushToEmptyRow now _ _ <;> rfl
  · simp only [hpx, if_true] at hlo hhi ⊢
    rw [Abs_eq _ hlo hhi]
    have hb : t.ap_lon24.natAbs / 100 * 6 < 2 ^ 30 := by omega
    rw [Nat.mod_eq_of_lt (by omega : t.ap_lon24.natAbs / 100 * 6 < 4294967296),
      latlon_pack _ _ _ hb (by split_ifs <;> omega), Option.map_map]
    cases PushToEmptyRow now _ _ <;> rfl

theorem PackLat800_no_fix (now id : Nat) (t : Tele) (hfix : t.ap_fixtype < 3) :
    PackLat800 now id t = some { t with fr_gps_status := t.ap_fixtype } := by
  have g : (if t.ap_fixtype < 3 then t.ap_fixtype else 3) = t.ap_fixtype := if_pos hfix
  unfold PackLat800
  simp only [g, hfix, if_true]

theorem PackLon800_no_fix (now id : Nat) (t : Tele) (hfix : t.ap_fixtype < 3) :
    PackLon800 now id t = some { t with fr_gps_status := t.ap_fixtype } := by
  have g : (if t.ap_fixtype < 3 then t.ap_fixtype else 3) = t.ap_fixtype := if_pos hfix
  unfold PackLon800
  simp only [g, hfix, if_true]

/-! ## Connection state -/

theorem findFreeRow_lastRowFree (pre : List sb_t) (f : sb_t) (hf : f.inuse = false) (j : Nat) :
    ∃ i, findFreeRow (pre ++ [f]) j = some i ∧ j ≤ i ∧ i ≤ j + pre.length := by
  induction pre generalizing j with
  | nil => exact ⟨j, by simp [findFreeRow, hf], by omega, by omega⟩
  | cons x xs ih =>
    rw [List.cons_append, findFreeRow]
    by_cases hx : x.inuse = true
    · rw [if_pos hx]
      obtain ⟨i, h1, h2, h3⟩ := ih (j + 1)
      exact ⟨i, h1, by omega, by simp only [List.length_cons]; omega⟩
    · rw [if_neg hx]
      exact ⟨j, rfl, by omega, by omega⟩

/-- With the last row free, `PushToEmptyRow` finds a free row inside the table, leaves the
last row free and changes nothing but the table and its two counters. -/
theorem PushToEmptyRow_total (now : Nat) (pter : sb_t) (s : State) (h : lastRowFree s.sb) :
    ∃ s1, PushToEmptyRow now pter s = some s1 ∧ lastRowFree s1.sb ∧
      s1.mavGood = s.mavGood ∧ s1.fr_payload = s.fr_payload ∧ s1.out = s.out ∧
      s1.crc = s.crc ∧ s1.trmode = s.trmode := by
  obtain ⟨pre, f, hsb, hf⟩ := h
  obtain ⟨i, h1, _, h3⟩ := findFreeRow_lastRowFree pre f hf 0
  unfold PushToEmptyRow
  rw [hsb, h1]
  simp only
  split_ifs with hi
  · exact ⟨_, rfl, ⟨pre, f, rfl, hf⟩, rfl, rfl, rfl, rfl, rfl⟩
  · refine ⟨_, rfl, ⟨pre.set i { pter with millis := now, inuse := true }, f, ?_, hf⟩,
      rfl, rfl, rfl, rfl, rfl⟩
    simp only [List.length_append, List.length_singleton] at hi
    exact List.set_append_left _ _ (by omega)

theorem pushAll_total (ps : List (Nat × sb_t)) (s : State) (h : lastRowFree s.sb) :
    ∃ s1, pushAll ps s = some s1 ∧ lastRowFree s1.sb ∧ s1.mavGood = s.mavGood := by
  induction ps generalizing s with
  | nil => exact ⟨s, rfl, h, rfl⟩
  | cons p ps ih =>
    obtain ⟨s1, h1, h2, h3, _⟩ := PushToEmptyRow_total p.1 p.2 s h
    obtain ⟨s2, g1, g2, g3⟩ := ih s1 h2
    exact ⟨s2, by simp [pushAll, h1, g1], g2, by rw [g3, h3]⟩

theorem mavTimeoutCheck_disconnected (now : Nat) (t : Tele) (h : t.sp.mavGood = false) :
    mavTimeoutCheck now t = t := by
  unfold mavTimeoutCheck
  rw [if_neg]
  rw [h]; simp

theorem DecodeOneMavFrame_other_disconnected (rest : Nat → Tele → Option Tele)
    (clock : Nat → Nat) (msgid : Nat) (t : Tele) (h : t.sp.mavGood = false) :
    DecodeOneMavFrame rest clock (MavMsg.other msgid) t = some t := by
  simp only [DecodeOneMavFrame, h, if_true]

theorem DecodeOneMavFrame_heartbeat_ignored (rest : Nat → Tele → Option Tele)
    (clock : Nat → Nat) (type a b c d e : Nat) (t : Tele) (h : ¬ isVehicle type) :
    DecodeOneMavFrame rest clock (MavMsg.heartbeat type a b c d e) t =
      some { t with ap_type_tmp := type } := by
  have h1 : type = 5 ∨ type = 6 ∨ type = 27 := by
    unfold isVehicle at h; omega
  simp only [DecodeOneMavFrame, h1, if_true]

theorem exists_of_push (now : Nat) (r : sb_t) (s : State) (f : State → Tele)
    (P : Tele → Prop) (h : lastRowFree s.sb)
    (hP : ∀ s1, lastRowFree s1.sb → s1.mavGood = s.mavGood → P (f s1)) :
    ∃ t1, Option.map f (PushToEmptyRow now r s) = some t1 ∧ P t1 := by
  obtain ⟨s1, h1, h2, h3, _⟩ := PushToEmptyRow_total now r s h
  exact ⟨f s1, by rw [h1]; rfl, hP s1 h2 h3⟩

theorem bit32Pack_sb (v d w : Nat) (s : State) : (bit32Pack v d w s).sb = s.sb := rfl

theorem bit32Pack_mavGood (v d w : Nat) (s : State) :
    (bit32Pack v d w s).mavGood = s.mavGood := rfl

theorem Pack_AP_status_5001_total (now id : Nat) (t : Tele) (h : lastRowFree t.sp.sb) :
    ∃ t1, Pack_AP_status_5001 now id t = some t1 ∧ t1.hb_count = t.hb_count ∧
      t1.hb_millis = t.hb_millis ∧ t1.sp.mavGood = t.sp.mavGood ∧ lastRowFree t1.sp.sb := by
  unfold Pack_AP_status_5001
  by_cases h6 : t.ap_type = 6
  · rw [if_pos h6]
    exact ⟨t, rfl, rfl, rfl, rfl, h⟩
  · rw [if_neg h6]
    simp only
    apply exists_of_push
    · simp only [bit32Pack_sb]
      exact h
    · intro s1 h1 h2
      simp only [bit32Pack_mavGood] at h2
      exact ⟨rfl, rfl, h2, h1⟩

theorem markHomeWhenArmed_fields (t : Tele) :
    (markHomeWhenArmed t).hb_count = t.hb_count ∧ (markHomeWhenArmed t).hb_millis = t.hb_millis ∧
      (markHomeWhenArmed t).sp = t.sp ∧ (markHomeWhenArmed t).ap_type = t.ap_type := by
  unfold markHomeWhenArmed
  split_ifs <;> exact ⟨rfl, rfl, rfl, rfl⟩

theorem countHeartbeat_fields (t : Tele) :
    (countHeartbeat t).hb_count = t.hb_count + 1 ∧ (countHeartbeat t).hb_millis = t.hb_millis ∧
      (countHeartbeat t).sp.sb = t.sp.sb ∧ (countHeartbeat t).ap_type = t.ap_type ∧
      (countHeartbeat t).sp.mavGood = (t.sp.mavGood || decide (3 ≤ t.hb_count + 1)) := by
  unfold countHeartbeat
  dsimp only
  split_ifs with h1 h2
  · exact ⟨rfl, rfl, rfl, rfl, by simp [h1, h2]⟩
  · refine ⟨rfl, rfl, rfl, rfl, ?_⟩
    have : ¬ 3 ≤ t.hb_count + 1 := by omega
    simp [h1, this]
  · refine ⟨rfl, rfl, rfl, rfl, ?_⟩
    have : t.sp.mavGood = true := by simpa using h1
    simp [this]

/-- A heartbeat from a vehicle: the counter goes up by one, the time is taken, the state is
Connected afterwards when it was before or when the counter has reached 3. -/
theorem DecodeOneMavFrame_heartbeat_vehicle (rest : Nat → Tele → Option Tele)
    (clock : Nat → Nat) (type a b c d e : Nat) (t : Tele) (hv : isVehicle type)
    (h : lastRowFree t.sp.sb) :
    ∃ t1, DecodeOneMavFrame rest clock (MavMsg.heartbeat type a b c d e) t = some t1 ∧
      t1.hb_count = t.hb_count + 1 ∧ t1.hb_millis = clock 0 ∧
      t1.sp.mavGood = (t.sp.mavGood || decide (3 ≤ t.hb_count + 1)) ∧
      lastRowFree t1.sp.sb := by
  have h1 : ¬ (type = 5 ∨ type = 6 ∨ type = 27) := by
    unfold isVehicle at hv; omega
  simp only [DecodeOneMavFrame, h1, if_false]
  generalize hT : markHomeWhenArmed _ = T
  have hm := markHomeWhenArmed_fields
    { t with
      ap_type_tmp := type
      ap_type := type
      ap_autopilot := a
      ap_base_mode := b
      ap_custom_mode := c
      px4_main_mode := bit32Extract c 16 8
      px4_sub_mode := bit32Extract c 24 8
      px4_flight_stack := decide (a = 12)
      ap_system_status := d
      ap_mavlink_version := e
      hb_millis := clock 0 }
  rw [hT] at hm
  obtain ⟨m1, m2, m3, m4⟩ := hm
  obtain ⟨c1, c2, c3, c4, c5⟩ := countHeartbeat_fields T
  have hfree : lastRowFree (countHeartbeat T).sp.sb := by
    rw [c3, m3]; exact h
  obtain ⟨t1, p1, p2, p3, p4, p5⟩ := Pack_AP_status_5001_total (clock 1) 0x5001 _ hfree
  refine ⟨t1, p1, ?_, ?_, ?_, p5⟩
  · rw [p2, c1, m1]
  · rw [p3, c2, m2]
  · rw [p4, c5, m1, m3]

theorem textChunkLoop_total (clock : Nat → Nat) (id : Nat) (fuel : Nat) :
    ∀ (k : Nat) (t : Tele), lastRowFree t.sp.sb →
      (t.fr_chunk_idx ≤ t.fr_txtlth → (t.fr_txtlth - t.fr_chunk_idx) / 4 + 1 ≤ fuel) →
      ∃ t1, textChunkLoop clock id fuel k t = some t1 ∧ t1.hb_count = t.hb_count ∧
        t1.hb_millis = t.hb_millis ∧ t1.sp.mavGood = t.sp.mavGood ∧ lastRowFree t1.sp.sb := by
  induction fuel with
  | zero =>
    intro k t hfree hfuel
    have hdone : ¬ t.fr_chunk_idx ≤ t.fr_txtlth := fun hle => by have := hfuel hle; omega
    exact ⟨t, textChunkLoop_done clock id 0 k t hdone, rfl, rfl, rfl, hfree⟩
  | succ fuel ih =>
    intro k t hfree hfuel
    by_cases hle : t.fr_chunk_idx ≤ t.fr_txtlth
    · rw [textChunkLoop_pass clock id fuel k t hle]
      obtain ⟨s1, h1, h2, h3, _⟩ := PushToEmptyRow_total (clock k)
        (chunkRecord t.sr id t.fr_text t.fr_txtlth t.fr_severity t.fr_chunk_idx) t.sp hfree
      rw [h1]
      obtain ⟨t1, g1, g2, g3, g4, g5⟩ := ih (k + 1) (afterChunk id t s1) h2 (by
        intro hle2
        have hle3 : t.fr_chunk_idx + 4 ≤ t.fr_txtlth := hle2
        have := hfuel hle
        show (t.fr_txtlth - (t.fr_chunk_idx + 4)) / 4 + 1 ≤ fuel
        omega)
      exact ⟨t1, g1, g2, g3, g4.trans h3, g5⟩
    · exact ⟨t, textChunkLoop_done clock id _ k t hle, rfl, rfl, rfl, hfree⟩

theorem textLoopEntry_link (t : Tele) :
    (textLoopEntry t).hb_count = t.hb_count ∧ (textLoopEntry t).hb_millis = t.hb_millis ∧
      (textLoopEntry t).sp = t.sp ∧ (textLoopEntry t).fr_chunk_idx = 0 := by
  unfold textLoopEntry
  dsimp only
  split_ifs <;> exact ⟨rfl, rfl, rfl, rfl⟩

/-- With the last row of the table free, `PackMultipleTextChunks_5000` returns, and it
touches neither the heartbeat counter, the heartbeat time nor the connection state. -/
theorem PackMultipleTextChunks_5000_total (clock : Nat → Nat) (id : Nat) (t : Tele)
    (h : lastRowFree t.sp.sb) :
    ∃ t1, PackMultipleTextChunks_5000 clock id t = some t1 ∧ t1.hb_count = t.hb_count ∧
      t1.hb_millis = t.hb_millis ∧ t1.sp.mavGood = t.sp.mavGood ∧ lastRowFree t1.sp.sb := by
  obtain ⟨e1, e2, e3, e4⟩ := textLoopEntry_link t
  obtain ⟨t1, g1, g2, g3, g4, g5⟩ := textChunkLoop_total clock id
    ((textLoopEntry t).fr_txtlth + 1) 0 (textLoopEntry t) (by rw [e3]; exact h)
    (by intro _; rw [e4]; omega)
  rw [PackMultipleTextChunks_5000_loop, g1]
  exact ⟨_, rfl, g2.trans e1, g3.trans e2, by rw [← e3]; exact g4, g5⟩

theorem DecodeOneMavFrame_statustext_total (rest : Nat → Tele → Option Tele)
    (clock : Nat → Nat) (severity : Nat) (text : List Nat) (t : Tele)
    (h : lastRowFree t.sp.sb) :
    ∃ t1, DecodeOneMavFrame rest clock (MavMsg.statustext severity text) t = some t1 ∧
      t1.hb_count = t.hb_count ∧ t1.hb_millis = t.hb_millis ∧
      t1.sp.mavGood = t.sp.mavGood ∧ lastRowFree t1.sp.sb := by
  simp only [DecodeOneMavFrame]
  exact PackMultipleTextChunks_5000_total clock 0x5000 _ h

/-- While Disconnected nothing but a heartbeat from a vehicle moves the counter, and
neither a silence nor any other frame resets it. -/
theorem runLink_disconnected (rest : Nat → Tele → Option Tele) (evs : List LinkEvent) :
    ∀ t : Tele, t.sp.mavGood = false → lastRowFree t.sp.sb →
      t.hb_count + vehicleHeartbeats evs < 3 →
      ∃ t1, runLink rest evs t = some t1 ∧ t1.sp.mavGood = false ∧
        t1.hb_count = t.hb_count + vehicleHeartbeats evs ∧ lastRowFree t1.sp.sb := by
  induction evs with
  | nil => intro t hd hf _; exact ⟨t, rfl, hd, rfl, hf⟩
  | cons ev evs ih =>
    intro t hd hf hcnt
    cases ev with
    | loopPass now =>
      simp only [runLink, vehicleHeartbeats] at hcnt ⊢
      rw [mavTimeoutCheck_disconnected now t hd]
      exact ih t hd hf hcnt
    | frame clock msg =>
      cases msg with
      | other msgid =>
        simp only [runLink, vehicleHeartbeats] at hcnt ⊢
        rw [DecodeOneMavFrame_other_disconnected rest clock msgid t hd]
        exact ih t hd hf hcnt
      | statustext severity text =>
        simp only [runLink, vehicleHeartbeats] at hcnt ⊢
        obtain ⟨t1, h1, h2, h3, h4, h5⟩ :=
          DecodeOneMavFrame_statustext_total rest clock severity text t hf
        rw [h1]
        obtain ⟨t2, g1, g2, g3, g4⟩ := ih t1 (h4.trans hd) h5 (by rw [h2]; exact hcnt)
        exact ⟨t2, g1, g2, by rw [g3, h2], g4⟩
      | heartbeat type a b c d e =>
        simp only [runLink, vehicleHeartbeats] at hcnt ⊢
        by_cases hv : isVehicle type
        · rw [if_pos hv] at hcnt ⊢
          obtain ⟨t1, h1, h2, h3, h4, h5⟩ :=
            DecodeOneMavFrame_heartbeat_vehicle rest clock type a b c d e t hv hf
          rw [h1]
          have hd1 : t1.sp.mavGood = false := by
            rw [h4, hd]
            have : ¬ 3 ≤ t.hb_count + 1 := by omega
            simp [this]
          obtain ⟨t2, g1, g2, g3, g4⟩ := ih t1 hd1 h5 (by rw [h2]; omega)
          exact ⟨t2, g1, g2, by rw [g3, h2]; omega, g4⟩
        · rw [if_neg hv] at hcnt ⊢
          rw [DecodeOneMavFrame_heartbeat_ignored rest clock type a b c d e t hv]
          obtain ⟨t2, g1, g2, g3, g4⟩ := ih { t with ap_type_tmp := type } hd hf
            (by simpa using hcnt)
          exact ⟨t2, g1, g2, by simpa using g3, g4⟩

theorem runLink_append (rest : Nat → Tele → Option Tele) (evs evs1 : List LinkEvent) :
    ∀ t : Tele, runLink rest (evs ++ evs1) t = (runLink rest evs t).bind (runLink rest evs1) := by
  induction evs with
  | nil => intro t; rfl
  | cons ev evs ih =>
    intro t
    cases ev with
    | loopPass now => simp only [List.cons_append, runLink]; exact ih _
    | frame clock msg =>
      simp only [List.cons_append, runLink]
      cases DecodeOneMavFrame rest clock msg t with
      | none => rfl
      | some t1 => exact ih t1

theorem vehicleHeartbeats_append (evs evs1 : List LinkEvent) :
    vehicleHeartbeats (evs ++ evs1) = vehicleHeartbeats evs + vehicleHeartbeats evs1 := by
  induction evs with
  | nil => simp [vehicleHeartbeats]
  | cons ev evs ih =>
    cases ev with
    | loopPass now => simpa [vehicleHeartbeats] using ih
    | frame clock msg =>
      cases msg with
      | other msgid => simpa [vehicleHeartbeats] using ih
      | statustext severity text => simpa [vehicleHeartbeats] using ih
      | heartbeat type a b c d e =>
        rw [List.cons_append, vehicleHeartbeats, vehicleHeartbeats, ih]
        omega

theorem vehicleHeartbeats_loopPasses (gaps : List Nat) :
    vehicleHeartbeats (gaps.map LinkEvent.loopPass) = 0 := by
  induction gaps with
  | nil => rfl
  | cons g gs ih => simpa [vehicleHeartbeats] using ih

/-- From Disconnected with the counter at 0, the heartbeat that brings the number of
vehicle heartbeats to three makes the state Connected, whatever came in between. -/
theorem third_heartbeat_connects (rest : Nat → Tele → Option Tele) (t0 : Tele)
    (hdis : t0.sp.mavGood = false) (hcount : t0.hb_count = 0) (hfree : lastRowFree t0.sp.sb)
    (evs : List LinkEvent) (h2 : vehicleHeartbeats evs = 2) (clock : Nat → Nat)
    (type a b c d e : Nat) (hv : isVehicle type) :
    ∃ t2, runLink rest (evs ++ [LinkEvent.frame clock (MavMsg.heartbeat type a b c d e)]) t0 =
        some t2 ∧ t2.sp.mavGood = true ∧ t2.hb_count = 3 ∧ t2.hb_millis = clock 0 := by
  obtain ⟨t1, h1, g1, g2, g3⟩ := runLink_disconnected rest evs t0 hdis hfree (by omega)
  obtain ⟨t2, p1, p2, p3, p4, _⟩ :=
    DecodeOneMavFrame_heartbeat_vehicle rest clock type a b c d e t1 hv g3
  refine ⟨t2, ?_, ?_, by omega, p3⟩
  · rw [runLink_append, h1]
    simp only [Option.bind, runLink, p1]
  · rw [p4, g1]
    have : 3 ≤ t1.hb_count + 1 := by omega
    simp [this]

/-! ## The field width of prep_number -/

theorem packField_fits (mb eb m e : Nat) (neg : Bool) (hm : m < 2 ^ mb) (he : e < 2 ^ eb)
    (hw : mb + eb < 16) :
    ∃ r, r < 2 ^ (mb + eb) ∧
      packField mb eb m e neg = r + (if neg then 2 ^ (mb + eb) else 0) := by
  refine ⟨e + 2 ^ eb * m, ?_, ?_⟩
  · have h1 : 2 ^ eb * m + e < 2 ^ eb * (m + 1) := by rw [Nat.mul_add]; omega
    have h2 : 2 ^ eb * (m + 1) ≤ 2 ^ eb * 2 ^ mb := Nat.mul_le_mul_left _ (by omega)
    have h3 : 2 ^ eb * 2 ^ mb = 2 ^ (mb + eb) := by rw [← pow_add, Nat.add_comm]
    omega
  · rw [packField_eq mb eb m e neg hm he hw]
    cases neg with
    | false => simp
    | true =>
      simp only [if_true]
      rw [pow_add]
      ring

theorem prepExponent_lt (digits a : Nat) :
    prepExponent digits 1 a < 2 ^ 1 ∧ prepExponent digits 2 a < 2 ^ 2 := by
  unfold prepExponent
  constructor
  · rw [if_pos rfl]; split_ifs <;> omega
  · rw [if_neg (by omega)]; split_ifs <;> omega

theorem prepMantissa_lt (a : Nat) :
    prepMantissa 1 1 a < 2 ^ 4 ∧ prepMantissa 2 1 a < 2 ^ 7 ∧ prepMantissa 2 2 a < 2 ^ 7 ∧
    ((a < 10235 ∨ 10240 ≤ a) → prepMantissa 3 1 a < 2 ^ 10) ∧
    ((a < 1023500 ∨ 1024000 ≤ a) → prepMantissa 3 2 a < 2 ^ 10) := by
  refine ⟨?_, ?_, ?_, ?_, ?_⟩
  · unfold prepMantissa
    rw [if_pos ⟨rfl, rfl⟩]
    by_cases h0 : a < 10
    · rw [if_pos h0]; omega
    · rw [if_neg h0]
      by_cases h1 : a < 150
      · rw [if_pos h1, roundf_tenth_eq a (by omega) (by omega)]; omega
      · rw [if_neg h1]; omega
  · unfold prepMantissa
    rw [if_neg (by omega), if_pos ⟨rfl, rfl⟩]
    by_cases h0 : a < 100
    · rw [if_pos h0]; omega
    · rw [if_neg h0]
      by_cases h1 : a < 1270
      · rw [if_pos h1, roundf_tenth_eq a (by omega) (by omega)]; omega
      · rw [if_neg h1]; omega
  · unfold prepMantissa
    rw [if_neg (by omega), if_neg (by omega), if_pos ⟨rfl, rfl⟩]
    by_cases h0 : a < 100
    · rw [if_pos h0]; omega
    · rw [if_neg h0]
      by_cases h1 : a < 1000
      · rw [if_pos h1, roundf_tenth_eq a (by omega) (by omega)]; omega
      · rw [if_neg h1]
        by_cases h2 : a < 10000
        · rw [if_pos h2, roundf_hundredth_eq a (by omega) (by omega)]; omega
        · rw [if_neg h2]
          by_cases h3 : a < 127000
          · rw [if_pos h3, roundf_thousandth_eq a (by omega) (by omega)]; omega
          · rw [if_neg h3]; omega
  · intro hband
    unfold prepMantissa
    rw [if_neg (by omega), if_neg (by omega), if_neg (by omega), if_pos ⟨rfl, rfl⟩]
    by_cases h0 : a < 1000
    · rw [if_pos h0]; omega
    · rw [if_neg h0]
      by_cases h1 : a < 10240
      · rw [if_pos h1, roundf_tenth_eq a (by omega) (by omega)]; omega
      · rw [if_neg h1]; omega
  · intro hband
    unfold prepMantissa
    rw [if_neg (by omega), if_neg (by omega), if_neg (by omega), if_neg (by omega)]
    by_cases h0 : a < 1000
    · rw [if_pos h0]; omega
    · rw [if_neg h0]
      by_cases h1 : a < 10000
      · rw [if_pos h1, roundf_tenth_eq a (by omega) (by omega)]; omega
      · rw [if_neg h1]
        by_cases h2 : a < 100000
        · rw [if_pos h2, roundf_hundredth_eq a (by omega) (by omega)]; omega
        · rw [if_neg h2]
          by_cases h3 : a < 1024000
          · rw [if_pos h3, roundf_thousandth_eq a (by omega) (by omega)]; omega
          · rw [if_neg h3]; omega

/-- Outside the two bands in which the rounded mantissa reaches 1024, the result of
`prep_number` is a field of the class's width plus the sign bit for a negative number. -/
theorem prep_number_fits (n : Int) (hlo : -2147483648 ≤ n) (hhi : n ≤ 2147483647) :
    (∃ r, r < 2 ^ 5 ∧ prep_number n 1 1 = r + (if n < 0 then 2 ^ 5 else 0)) ∧
    (∃ r, r < 2 ^ 8 ∧ prep_number n 2 1 = r + (if n < 0 then 2 ^ 8 else 0)) ∧
    (∃ r, r < 2 ^ 9 ∧ prep_number n 2 2 = r + (if n < 0 then 2 ^ 9 else 0)) ∧
    ((n.natAbs < 10235 ∨ 10240 ≤ n.natAbs) →
      ∃ r, r < 2 ^ 11 ∧ prep_number n 3 1 = r + (if n < 0 then 2 ^ 11 else 0)) ∧
    ((n.natAbs < 1023500 ∨ 1024000 ≤ n.natAbs) →
      ∃ r, r < 2 ^ 12 ∧ prep_number n 3 2 = r + (if n < 0 then 2 ^ 12 else 0)) := by
  obtain ⟨m1, m2, m3, m4, m5⟩ := prepMantissa_lt n.natAbs
  refine ⟨?_, ?_, ?_, ?_, ?_⟩
  · rw [prep_number_1_1 n hlo hhi]
    simpa using packField_fits 4 1 _ _ (decide (n < 0)) m1 (prepExponent_lt 1 n.natAbs).1
      (by omega)
  · rw [prep_number_2_1 n hlo hhi]
    simpa using packField_fits 7 1 _ _ (decide (n < 0)) m2 (prepExponent_lt 2 n.natAbs).1
      (by omega)
  · rw [prep_number_2_2 n hlo hhi]
    simpa using packField_fits 7 2 _ _ (decide (n < 0)) m3 (prepExponent_lt 2 n.natAbs).2
      (by omega)
  · intro hband
    rw [prep_number_3_1 n hlo hhi]
    simpa using packField_fits 10 1 _ _ (decide (n < 0)) (m4 hband)
      (prepExponent_lt 3 n.natAbs).1 (by omega)
  · intro hband
    rw [prep_number_3_2 n hlo hhi]
    simpa using packField_fits 10 2 _ _ (decide (n < 0)) (m5 hband)
      (prepExponent_lt 3 n.natAbs).2 (by omega)

/-! ## binary64 rounding and PWM_To_63 -/

theorem f64round_small (p : Nat) (hp : p < 2 ^ 53) : f64round p = p := by
  unfold f64round
  by_cases h0 : p = 0
  · subst h0; simp [bitLength]
  · obtain ⟨h1, _, h3⟩ := bitLength_bounds 128 p (by omega) (by
      calc p < 2 ^ 53 := hp
        _ ≤ 2 ^ 128 := by norm_num)
    have hle : bitLength 128 p ≤ 53 := by
      by_contra hc
      have : 2 ^ 53 ≤ 2 ^ (bitLength 128 p - 1) := Nat.pow_le_pow_right (by norm_num) (by omega)
      omega
    simp [hle]

/-- The rounding of `p >= 2^53`: a multiple of `2 * h` within `h` of `p`, where the
power of two `h` is half the spacing of binary64 values around `p`. -/
theorem f64round_large (p : Nat) (hlo : 2 ^ 53 ≤ p) (hhi : p < 2 ^ 128) :
    ∃ sh q1 : Nat, 1 ≤ sh ∧ f64round p = q1 * 2 ^ sh ∧
      2 ^ 52 * 2 ^ sh ≤ p ∧ p < 2 ^ 53 * 2 ^ sh ∧
      2 * p ≤ 2 * f64round p + 2 ^ sh ∧ 2 * f64round p ≤ 2 * p + 2 ^ sh := by
  obtain ⟨h1, h2, h3⟩ := bitLength_bounds 128 p (by
    have : 0 < 2 ^ 53 := by norm_num
    omega) hhi
  have hgt : 53 < bitLength 128 p := by
    by_contra hc
    have : 2 ^ bitLength 128 p ≤ 2 ^ 53 := Nat.pow_le_pow_right (by norm_num) (by omega)
    omega
  have hnle : ¬ bitLength 128 p ≤ 53 := by omega
  obtain ⟨sh, hsh⟩ : ∃ sh, bitLength 128 p = sh + 54 := ⟨bitLength 128 p - 54, by omega⟩
  have e1 : bitLength 128 p - 53 = sh + 1 := by omega
  have e2 : bitLength 128 p - 1 = 52 + (sh + 1) := by omega
  have hpow : (2 : Nat) ^ (sh + 1) = 2 * 2 ^ sh := by rw [pow_succ]; ring
  have hpos : 0 < 2 ^ sh := pow_pos (by norm_num) _
  have hdm := Nat.div_add_mod p (2 ^ (sh + 1))
  have hmod : p % 2 ^ (sh + 1) < 2 ^ (sh + 1) := Nat.mod_lt _ (pow_pos (by norm_num) _)
  have hb1 : 2 ^ 52 * 2 ^ (sh + 1) ≤ p := by
    rw [← pow_add, ← e2]; exact h1
  have hb2 : p < 2 ^ 53 * 2 ^ (sh + 1) := by
    have : bitLength 128 p = 53 + (sh + 1) := by omega
    rw [← pow_add, ← this]; exact h2
  unfold f64round
  simp only [hnle, if_false, e1, Nat.add_sub_cancel]
  generalize hq : p / 2 ^ (sh + 1) = q at hdm ⊢
  generalize hr : p % 2 ^ (sh + 1) = r at hdm hmod ⊢
  by_cases hup : r > 2 ^ sh ∨ (r = 2 ^ sh ∧ q % 2 = 1)
  · refine ⟨sh + 1, q + 1, by omega, by simp [hup], hb1, hb2, ?_, ?_⟩
    · simp only [hup, if_true]
      have : (q + 1) * 2 ^ (sh + 1) = 2 ^ (sh + 1) * q + 2 ^ (sh + 1) := by ring
      rw [this]
      omega
    · simp only [hup, if_true]
      have : (q + 1) * 2 ^ (sh + 1) = 2 ^ (sh + 1) * q + 2 ^ (sh + 1) := by ring
      rw [this]
      rcases hup with h | ⟨h, _⟩ <;> omega
  · refine ⟨sh + 1, q, by omega, by simp [hup], hb1, hb2, ?_, ?_⟩
    · simp only [hup, if_false]
      have : q * 2 ^ (sh + 1) = 2 ^ (sh + 1) * q := by ring
      rw [this]
      have hr' : r ≤ 2 ^ sh := by
        by_contra hc
        exact hup (Or.inl (by omega))
      omega
    · simp only [hup, if_false]
      have : q * 2 ^ (sh + 1) = 2 ^ (sh + 1) * q := by ring
      rw [this]
      omega

/-- The magnitude of `round(d * 0.126)` in binary64 is `0.126 |d|` rounded half up, exactly,
for every `|d|` below 65536. -/
theorem round_mul_0126_magnitude (n : Nat) (hn : n < 65536) :
    (2 * f64round (n * 4539628424389460) + 2 ^ 55) / 2 ^ 56 = (252 * n + 1000) / 2000 := by
  by_cases hsmall : n < 2
  · rw [f64round_small _ (by norm_num; omega)]
    have : n = 0 ∨ n = 1 := by omega
    rcases this with h | h <;> subst h <;> norm_num
  · obtain ⟨sh, q1, hsh, hx, hb1, hb2, h1, h2⟩ :=
      f64round_large (n * 4539628424389460) (by norm_num; omega) (by norm_num; omega)
    generalize f64round (n * 4539628424389460) = x at hx h1 h2 ⊢
    have hsh54 : sh ≤ 54 := spacing_le sh 54 (by norm_num at hb1 ⊢; omega)
    obtain ⟨c, hc⟩ := spacing_divides sh 54 hsh54
    generalize 2 ^ sh = T at hx hb1 hb2 h1 h2 hc
    norm_num at hb1 hb2 hc ⊢
    have hk1 : 2000 * ((252 * n + 1000) / 2000) ≤ 252 * n + 1000 := Nat.mul_div_le _ _
    have hk2 : 252 * n + 1000 < 2000 * ((252 * n + 1000) / 2000) + 2000 := by
      have := Nat.lt_div_mul_add (a := 252 * n + 1000) (b := 2000) (by norm_num)
      omega
    generalize (252 * n + 1000) / 2000 = k at hk1 hk2 ⊢
    have e : (2 * k - 1) * c * T = (2 * k - 1) * 18014398509481984 := by rw [mul_assoc, ← hc]
    have hg : (2 * k - 1) * c * T ≤ x := by
      apply multiple_ge_of_lt_add x T q1 _ hx
      rw [e]
      omega
    rw [e] at hg
    apply Nat.div_eq_of_lt_le <;> omega

theorem round_mul_0126_eq (d : Int) (hd : d.natAbs < 65536) :
    round_mul_0126 d =
      if d < 0 then -(((252 * d.natAbs + 1000) / 2000 : Nat) : Int)
      else (((252 * d.natAbs + 1000) / 2000 : Nat) : Int) := by
  simp only [round_mul_0126]
  rw [round_mul_0126_magnitude d.natAbs hd]

theorem PWM_To_63_range (p : Nat) : -63 ≤ PWM_To_63 p ∧ PWM_To_63 p ≤ 63 := by
  unfold PWM_To_63
  simp only
  split_ifs <;> omega

/-- `PWM_To_63` is the exactly rounded value, narrowed to 8 bits and then clamped. -/
theorem PWM_To_63_eq (p : Nat) (hp : p < 65536) :
    PWM_To_63 p =
      (let v : Int := toInt8
          (if (p : Int) - 1500 < 0 then -(((252 * ((p : Int) - 1500).natAbs + 1000) / 2000 : Nat) : Int)
            else (((252 * ((p : Int) - 1500).natAbs + 1000) / 2000 : Nat) : Int))
       if v < -63 then -63 else if v > 63 then 63 else v) := by
  unfold PWM_To_63
  rw [Nat.mod_eq_of_lt hp, round_mul_0126_eq _ (by omega)]
  simp only
  split_ifs <;> omega

/-- Between 481 and 2511 the narrowing loses nothing: `PWM_To_63` is the exactly rounded,
clamped value. -/
theorem PWM_To_63_nominal (p : Nat) (hlo : 481 ≤ p) (hhi : p ≤ 2511) :
    PWM_To_63 p = spec_PWM_To_63 p := by
  rw [PWM_To_63_eq p (by omega)]
  unfold spec_PWM_To_63 toInt8
  by_cases h : 1500 ≤ p
  · have e : ((p : Int) - 1500).natAbs = p - 1500 := by omega
    have hneg : ¬ (p : Int) - 1500 < 0 := by omega
    simp only [e, hneg, if_false]
    generalize hk : (252 * (p - 1500) + 1000) / 2000 = k
    have hk2 : k ≤ 127 := by omega
    clear hk
    split_ifs <;> omega
  · have e : ((p : Int) - 1500).natAbs = 1500 - p := by omega
    have hneg : (p : Int) - 1500 < 0 := by omega
    simp only [e, hneg, if_true]
    generalize hk : (252 * (1500 - p) + 1000) / 2000 = k
    have hk2 : k ≤ 128 := by omega
    clear hk
    split_ifs <;> omega

/-- Outside 481 .. 2511 the narrowing wraps: every PWM value up to 480 gives +63, the
opposite end of the range, and every PWM value from 2512 to 4027 gives less than +63. -/
theorem PWM_To_63_wrapped (p : Nat) :
    (p ≤ 480 → PWM_To_63 p = 63 ∧ spec_PWM_To_63 p = -63) ∧
    (2512 ≤ p → p ≤ 4027 → PWM_To_63 p ≤ 62 ∧ spec_PWM_To_63 p = 63) := by
  constructor
  · intro h
    rw [PWM_To_63_eq p (by omega)]
    unfold spec_PWM_To_63 toInt8
    have e : ((p : Int) - 1500).natAbs = 1500 - p := by omega
    have hneg : (p : Int) - 1500 < 0 := by omega
    simp only [e, hneg, if_true]
    generalize hk : (252 * (1500 - p) + 1000) / 2000 = k
    have hk1 : 129 ≤ k := by omega
    have hk2 : k ≤ 189 := by omega
    clear hk
    constructor <;> split_ifs <;> omega
  · intro h1 h2
    rw [PWM_To_63_eq p (by omega)]
    unfold spec_PWM_To_63 toInt8
    have e : ((p : Int) - 1500).natAbs = p - 1500 := by omega
    have hneg : ¬ (p : Int) - 1500 < 0 := by omega
    simp only [e, hneg, if_false]
    generalize hk : (252 * (p - 1500) + 1000) / 2000 = k
    have hk1 : 128 ≤ k := by omega
    have hk2 : k ≤ 318 := by omega
    clear hk
    constructor <;> split_ifs <;> omega

/-! ## The free last row -/

theorem SPort_Init_lastRowFree (s : State) (h : s.sb ≠ []) : lastRowFree (SPort_Init s).sb := by
  obtain ⟨pre, f, hsb⟩ : ∃ pre f, s.sb = pre ++ [f] :=
    ⟨s.sb.dropLast, s.sb.getLast h, (List.dropLast_append_getLast h).symm⟩
  refine ⟨pre.map (fun r => { r with id := 0, subid := 0, millis := 0, inuse := false }),
    { f with id := 0, subid := 0, millis := 0, inuse := false }, ?_, rfl⟩
  simp [SPort_Init, hsb]

theorem lastRowFree_set (sb : List sb_t) (p : Nat) (r : sb_t) (h : lastRowFree sb)
    (hr : r.inuse = false) : lastRowFree (sb.set p r) := by
  obtain ⟨pre, f, rfl, hf⟩ := h
  by_cases hp : p < pre.length
  · exact ⟨pre.set p r, f, List.set_append_left _ _ hp, hf⟩
  · rw [List.set_append_right _ _ (by omega)]
    cases hq : p - pre.length with
    | zero => exact ⟨pre, r, by simp, hr⟩
    | succ n => exact ⟨pre, f, by simp, hf⟩

theorem lastRowFree_length (sb : List sb_t) (h : lastRowFree sb) :
    ∃ j, findFreeRow sb 0 = some j ∧ j < sb.length := by
  obtain ⟨pre, f, rfl, hf⟩ := h
  obtain ⟨i, h1, _, h3⟩ := findFreeRow_lastRowFree pre f hf 0
  exact ⟨i, h1, by simp only [List.length_append, List.length_singleton]; omega⟩

theorem SPort_Inject_Packet_sb (now : Nat) (s : State) :
    (SPort_Inject_Packet now s).sb = s.sb ∨
      ∃ p r, r.inuse = false ∧ (SPort_Inject_Packet now s).sb = s.sb.set p r := by
  unfold SPort_Inject_Packet
  by_cases h : s.mavGood = true
  · simp only [h]
    cases hp : popPtr now s.sb with
    | none => left; simp
    | some p =>
      right
      refine ⟨p, { s.sb.getD p default with payload := 0, inuse := false }, rfl, ?_⟩
      simp [SPort_SendDataFrame_eq, SPort_SendByte_raw]
      split_ifs <;> rfl
  · left; simp [h]

theorem SPort_Inject_Packet_lastRowFree (now : Nat) (s : State) (h : lastRowFree s.sb) :
    lastRowFree (SPort_Inject_Packet now s).sb := by
  rcases SPort_Inject_Packet_sb now s with h1 | ⟨p, r, hr, h1⟩
  · rw [h1]; exact h
  · rw [h1]; exact lastRowFree_set s.sb p r h hr

theorem SPort_Inject_Packet_length (now : Nat) (s : State) :
    (SPort_Inject_Packet now s).sb.length = s.sb.length := by
  rcases SPort_Inject_Packet_sb now s with h1 | ⟨p, r, _, h1⟩
  · rw [h1]
  · rw [h1, List.length_set]

theorem PushToEmptyRow_length (now : Nat) (pter : sb_t) (s s1 : State)
    (h : PushToEmptyRow now pter s = some s1) : s1.sb.length = s.sb.length := by
  unfold PushToEmptyRow at h
  cases hj : findFreeRow s.sb 0 with
  | none => rw [hj] at h; exact absurd h (by simp)
  | some j =>
    rw [hj] at h
    simp only at h
    split_ifs at h with hc
    · cases h; rfl
    · cases h; simp

/-- Any sequence of pushes, pops and connection changes from a table whose last row is
free: every push returns, and the last row is free afterwards. -/
theorem runTable_lastRowFree (ops : List TableOp) :
    ∀ s : State, lastRowFree s.sb →
      ∃ s1, runTable ops s = some s1 ∧ lastRowFree s1.sb ∧ s1.sb.length = s.sb.length := by
  induction ops with
  | nil => intro s h; exact ⟨s, rfl, h, rfl⟩
  | cons op ops ih =>
    intro s h
    cases op with
    | push now pter =>
      obtain ⟨s1, h1, h2, _⟩ := PushToEmptyRow_total now pter s h
      obtain ⟨s2, g1, g2, g3⟩ := ih s1 h2
      exact ⟨s2, by simp [runTable, h1, g1], g2,
        g3.trans (PushToEmptyRow_length now pter s s1 h1)⟩
    | pop sb_now =>
      obtain ⟨s2, g1, g2, g3⟩ := ih _ (SPort_Inject_Packet_lastRowFree sb_now s h)
      exact ⟨s2, by simp [runTable, g1], g2, g3.trans (SPort_Inject_Packet_length sb_now s)⟩
    | link b =>
      obtain ⟨s2, g1, g2, g3⟩ := ih { s with mavGood := b } h
      exact ⟨s2, by simp [runTable, g1], g2, g3⟩

/-! ## The home position -/

theorem DecodeOneMavFrame_rssi_disconnected (scale : Nat → Nat) (m : RssiMsg) (v : RssiVars) :
    DecodeOneMavFrame_rssi scale false m v = v := by
  cases m <;> rfl

/-- Once a RADIO_STATUS has been received, a message of another kind leaves the RSSI
alone. -/
theorem DecodeOneMavFrame_rssi_lock109 (scale : Nat → Nat) (g : Bool) (m : RssiMsg)
    (v : RssiVars) (h : v.rssi109 = true) (hm : isRadioStatus m = false) :
    (DecodeOneMavFrame_rssi scale g m v).ap_rssi = v.ap_rssi ∧
      (DecodeOneMavFrame_rssi scale g m v).rssi109 = true := by
  cases g with
  | false => rw [DecodeOneMavFrame_rssi_disconnected]; exact ⟨rfl, h⟩
  | true =>
    cases m with
    | radio_status a b c d e f k => cases hm
    | rc_channels n chans r => simp [DecodeOneMavFrame_rssi, h]
    | rc_channels_raw r => simp [DecodeOneMavFrame_rssi, h]

/-- Once an RC_CHANNELS has been received, an RC_CHANNELS_RAW leaves the RSSI alone. -/
theorem DecodeOneMavFrame_rssi_lock65 (scale : Nat → Nat) (g : Bool) (m : RssiMsg)
    (v : RssiVars) (h : v.rssi65 = true) (hm : isChannelsRaw m = true) :
    (DecodeOneMavFrame_rssi scale g m v).ap_rssi = v.ap_rssi ∧
      (DecodeOneMavFrame_rssi scale g m v).rssi65 = true := by
  cases g with
  | false => rw [DecodeOneMavFrame_rssi_disconnected]; exact ⟨rfl, h⟩
  | true =>
    cases m with
    | radio_status a b c d e f k => cases hm
    | rc_channels n chans r => cases hm
    | rc_channels_raw r => simp [DecodeOneMavFrame_rssi, h]

theorem runRssi_lock109 (scale : Nat → Nat) (g : Bool) (ms : List RssiMsg) :
    ∀ v : RssiVars, v.rssi109 = true → (∀ m ∈ ms, isRadioStatus m = false) →
      (runRssi scale g ms v).ap_rssi = v.ap_rssi := by
  induction ms with
  | nil => intro v _ _; rfl
  | cons m ms ih =>
    intro v h hm
    obtain ⟨h1, h2⟩ := DecodeOneMavFrame_rssi_lock109 scale g m v h
      (hm m (List.mem_cons_self _ _))
    rw [runRssi, ih _ h2 (fun m1 hm1 => hm m1 (List.mem_cons_of_mem _ hm1)), h1]

theorem runRssi_lock65 (scale : Nat → Nat) (g : Bool) (ms : List RssiMsg) :
    ∀ v : RssiVars, v.rssi65 = true → (∀ m ∈ ms, isChannelsRaw m = true) →
      (runRssi scale g ms v).ap_rssi = v.ap_rssi := by
  induction ms with
  | nil => intro v _ _; rfl
  | cons m ms ih =>
    intro v h hm
    obtain ⟨h1, h2⟩ := DecodeOneMavFrame_rssi_lock65 scale g m v h
      (hm m (List.mem_cons_self _ _))
    rw [runRssi, ih _ h2 (fun m1 hm1 => hm m1 (List.mem_cons_of_mem _ hm1)), h1]

/-! ## The poll-driven role -/

theorem ReportSportStatusChange_good (v : PollVars) (h : v.spGood = true) :
    ReportSportStatusChange v = { v with spPrev := true } := by
  unfold ReportSportStatusChange
  split_ifs with hc
  · rw [h]
  · have : v.spPrev = true := by
      rw [← h]; exact (not_not.mp hc).symm
    cases v
    simp only at this
    subst this
    rfl

theorem hasPoll_cons (a b : Nat) (rest : List Nat) :
    hasPoll (a :: b :: rest) = ((a == 0x7E && b == 0x1B) || hasPoll (b :: rest)) := rfl

/-- The loop finds the first poll: with no 0x7E 0x1B in `prevByt :: pre`, the bytes
`pre ++ [0x7E, 0x1B] ++ post` end in one call of `SPort_Inject_Packet`, `post` unread. -/
theorem interleaveLoop_poll (now sb_now : Nat) (post : List Nat) (v : PollVars) :
    ∀ (pre : List Nat) (prevByt : Nat), hasPoll (prevByt :: pre) = false →
      interleaveLoop now sb_now (pre ++ 0x7E :: 0x1B :: post) prevByt v =
        { v with
          rx := post
          sp_read_millis := now
          spGood := true
          spPrev := true
          sp := SPort_Inject_Packet sb_now v.sp } := by
  intro pre
  induction pre with
  | nil =>
    intro prevByt _
    have h1 : ¬ (prevByt = 0x7E ∧ 0x7E = 0x1B) := by omega
    simp only [List.nil_append, interleaveLoop, h1, if_false, and_self, if_true]
    rw [ReportSportStatusChange_good _ rfl]
  | cons b pre ih =>
    intro prevByt h
    rw [hasPoll_cons, Bool.or_eq_false_iff] at h
    have h1 : ¬ (prevByt = 0x7E ∧ b = 0x1B) := by
      intro hc
      have := h.1
      simp [hc.1, hc.2] at this
    rw [List.cons_append, interleaveLoop, if_neg h1]
    exact ih b h.2

/-- With no 0x7E 0x1B in `prevByt :: bytes` the loop reads every byte and calls nothing. -/
theorem interleaveLoop_no_poll (now sb_now : Nat) (v : PollVars) :
    ∀ (bytes : List Nat) (prevByt : Nat), hasPoll (prevByt :: bytes) = false →
      interleaveLoop now sb_now bytes prevByt v = { v with rx := [] } := by
  intro bytes
  induction bytes with
  | nil => intro _ _; rfl
  | cons b bytes ih =>
    intro prevByt h
    rw [hasPoll_cons, Bool.or_eq_false_iff] at h
    have h1 : ¬ (prevByt = 0x7E ∧ b = 0x1B) := by
      intro hc
      have := h.1
      simp [hc.1, hc.2] at this
    rw [interleaveLoop, if_neg h1]
    exact ih b h.2

theorem hasPoll_zero (bytes : List Nat) : hasPoll (0 :: bytes) = hasPoll bytes := by
  cases bytes with
  | nil => rfl
  | cons b bytes => rw [hasPoll_cons]; rfl

/-- One call of `SPort_Interleave_Packet` examines the bytes waiting in the receive
buffer. If they hold 0x7E immediately followed by 0x1B, the call reads up to the
first such pair, notes the time and the S.Port status, invokes `SPort_Inject_Packet`
exactly once and returns, leaving the bytes behind the pair in the buffer for the next
call. If they hold no such pair, the call reads them all and invokes nothing, also when
the last byte is 0x7E and the next byte to arrive is 0x1B. -/
theorem SPort_Interleave_Packet_first_poll (now sb_now : Nat) (v : PollVars) :
    (∀ pre post : List Nat, v.rx = pre ++ 0x7E :: 0x1B :: post → hasPoll pre = false →
      SPort_Interleave_Packet now sb_now v =
        { v with
          rx := post
          sp_read_millis := now
          spGood := true
          spPrev := true
          sp := SPort_Inject_Packet sb_now v.sp }) ∧
    (hasPoll v.rx = false → SPort_Interleave_Packet now sb_now v = { v with rx := [] }) := by
  refine ⟨?_, ?_⟩
  · intro pre post hrx hpre
    unfold SPort_Interleave_Packet
    rw [hrx]
    exact interleaveLoop_poll now sb_now post v pre 0 (by rw [hasPoll_zero]; exact hpre)
  · intro h
    unfold SPort_Interleave_Packet
    exact interleaveLoop_no_poll now sb_now v v.rx 0 (by rw [hasPoll_zero]; exact h)

/-- An instance of `SPort_Interleave_Packet_first_poll`: the buffer holds 0x01 0x7E 0x7E
0x1B 0x03 0x7E 0x1B; the call stops behind the first pair and leaves 0x03 0x7E 0x1B. -/
theorem SPort_Interleave_Packet_first_poll_witness :
    SPort_Interleave_Packet 7 8
        (pollState (blankState [row 0x5001 0 0 7, freeRow] TrMode.air)
          [0x01, 0x7E, 0x7E, 0x1B, 0x03, 0x7E, 0x1B]) =
      { pollState (blankState [row 0x5001 0 0 7, freeRow] TrMode.air)
          [0x01, 0x7E, 0x7E, 0x1B, 0x03, 0x7E, 0x1B] with
        rx := [0x03, 0x7E, 0x1B]
        sp_read_millis := 7
        spGood := true
        spPrev := true
        sp := SPort_Inject_Packet 8
          (pollState (blankState [row 0x5001 0 0 7, freeRow] TrMode.air)
            [0x01, 0x7E, 0x7E, 0x1B, 0x03, 0x7E, 0x1B]).sp } :=
  (SPort_Interleave_Packet_first_poll 7 8
    (pollState (blankState [row 0x5001 0 0 7, freeRow] TrMode.air)
      [0x01, 0x7E, 0x7E, 0x1B, 0x03, 0x7E, 0x1B])).1 [0x01, 0x7E] [0x03, 0x7E, 0x1B] rfl
    (by decide)

/-! ## The start marker -/

theorem spec_stuff_no_marker (b : Nat) : 0x7E ∉ spec_stuff b := by
  unfold spec_stuff
  split_ifs with h1 h2
  · simp
  · simp
  · simp only [List.mem_singleton]
    exact fun h => h1 h.symm

theorem spec_frameBody_no_marker (c Id value : Nat) : 0x7E ∉ spec_frameBody c Id value := by
  unfold spec_frameBody
  simp only [List.mem_append, List.mem_flatMap, not_or, not_exists, not_and]
  exact ⟨fun b _ => spec_stuff_no_marker b, spec_stuff_no_marker _⟩

theorem spec_frameBody_head (c Id value : Nat) :
    ∃ tail, spec_frameBody c Id value = 0x10 :: tail := by
  unfold spec_frameBody spec_frameData
  simp only [List.flatMap_cons]
  exact ⟨_, by
    have : spec_stuff 0x10 = [0x10] := by decide
    rw [this]; rfl⟩

/-! ## Link statistics -/

/-- What `checkLinkErrors` adds for the tracked sender: `s - e` when `s >= e`, and
`s + 255 - e`, one less than `(s - e) mod 256`, when `s < e`. -/
theorem checkLinkErrors_tracked (sysid compid e s lost : Nat) (he : e < 256) (hs : s < 256) :
    checkLinkErrors sysid compid s
        { hb_heard_from := true, hb_system_id := sysid, hb_comp_id := compid,
          hb_seq_expected := e, packets_lost := lost } =
      { hb_heard_from := true, hb_system_id := sysid, hb_comp_id := compid,
        hb_seq_expected := (s + 1) % 256,
        packets_lost :=
          (lost + (if s < e then spec_lost e s - 1 else spec_lost e s)) % 4294967296 } := by
  unfold checkLinkErrors spec_lost
  have hs1 : s % 65536 = s := by omega
  simp only [hs1, Bool.not_true, ne_eq, not_true_eq_false, or_self, Bool.false_eq_true,
    if_false]
  by_cases hlt : s < e
  · have h1 : ((((s : Int) + 255) - (e : Int)) % 65536).toNat = s + 255 - e := by omega
    have h2 : (s + 256 - e % 256) % 256 - 1 = s + 255 - e := by omega
    simp only [hlt, if_true, h1, h2]
  · have h1 : (((s : Int) - (e : Int)) % 65536).toNat = s - e := by omega
    have h2 : (s + 256 - e % 256) % 256 = s - e := by omega
    simp only [hlt, if_false, h1, h2]

/-! ## The altitude sign bits -/

theorem field_testBit (x w d j : Nat) :
    ((x % 2 ^ w) * 2 ^ d).testBit j = (decide (d ≤ j ∧ j < d + w) && x.testBit (j - d)) := by
  rw [Nat.mul_comm, Nat.testBit_mul_pow_two, Nat.testBit_mod_two_pow]
  by_cases h1 : d ≤ j
  · by_cases h2 : j < d + w
    · have : j - d < w := by omega
      simp [h1, h2, this]
    · have : ¬ j - d < w := by omega
      simp [h1, h2, this]
  · simp [h1]

/-- The record `Pack_Home_5004` pushes never has bit 24 set: the test `fr_home_alt < 0` is
made on the value `prep_number` returned, which is not negative. -/
theorem Pack_Home_5004_bit24 (now id : Nat) (dis arrow : Int) (v v1 : AltVars)
    (h : Pack_Home_5004 now id dis arrow v = some v1) :
    v1.sr.id = id ∧ v1.sr.subid = 0 ∧ v1.sr.payload.testBit 24 = false := by
  unfold Pack_Home_5004 at h
  simp only [Option.map_eq_some'] at h
  obtain ⟨sp, -, rfl⟩ := h
  have hc : ¬ ((prep_number (roundf_int (Int.tdiv v.ap_alt_ag 100)) 3 2 : Nat) : Int) < 0 := by
    omega
  refine ⟨rfl, rfl, ?_⟩
  simp only [hc, if_false]
  rw [bit32Pack_fr_payload _ 25 7 _ (by omega) (by omega),
    bit32Pack_fr_payload _ 24 1 _ (by omega) (by omega),
    bit32Pack_fr_payload _ 12 12 _ (by omega) (by omega),
    bit32Pack_fr_payload _ 0 12 _ (by omega) (by omega)]
  simp only [Nat.testBit_or, field_testBit]
  simp

/-- The record `Pack_VFR_Hud_50F2` pushes never has bit 27 set. -/
theorem Pack_VFR_Hud_50F2_bit27 (now id : Nat) (air_spd : Int) (throt : Nat) (bar_alt : Int)
    (v v1 : AltVars) (h : Pack_VFR_Hud_50F2 now id air_spd throt bar_alt v = some v1) :
    v1.sr.id = id ∧ v1.sr.subid = 1 ∧ v1.sr.payload.testBit 27 = false := by
  unfold Pack_VFR_Hud_50F2 at h
  simp only [Option.map_eq_some'] at h
  obtain ⟨sp, -, rfl⟩ := h
  have hc : ¬ ((prep_number bar_alt 3 2 : Nat) : Int) < 0 := by omega
  refine ⟨rfl, rfl, ?_⟩
  simp only [hc, if_false]
  rw [bit32Pack_fr_payload _ 27 1 _ (by omega) (by omega),
    bit32Pack_fr_payload _ 15 12 _ (by omega) (by omega),
    bit32Pack_fr_payload _ 8 7 _ (by omega) (by omega),
    bit32Pack_fr_payload _ 0 8 _ (by omega) (by omega)]
  simp only [Nat.testBit_or, field_testBit]
  simp

/-! ## The records of Pack_Parameters_5007 -/

theorem PushToEmptyRow_keeps_fr_payload (now : Nat) (pter : sb_t) (s s1 : State)
    (h : PushToEmptyRow now pter s = some s1) : s1.fr_payload = s.fr_payload := by
  unfold PushToEmptyRow at h
  cases hj : findFreeRow s.sb 0 with
  | none => rw [hj] at h; exact absurd h (by simp)
  | some j =>
    rw [hj] at h
    simp only at h
    split_ifs at h with hc
    · cases h; rfl
    · cases h; rfl

/-- The record handed to `PushToEmptyRow` in each of the four cases: the first two carry
`id` and the packed parameter; the third keeps whatever id `sr` held before the call; the
fourth keeps whatever payload `sr` held before the call. -/
theorem Pack_Parameters_5007_record (src now id : Nat) (p p1 : ParamVars)
    (h : Pack_Parameters_5007 src now id p = some p1) :
    (p.app_count = 0 → p1.t.sr.id = id ∧ p1.t.sr.subid = 1 ∧
      p1.t.sr.payload = 0 ||| p.t.ap_type % 2 ^ 24 * 2 ^ 0 ||| 1 % 2 ^ 4 * 2 ^ 24) ∧
    (p.app_count = 1 → p1.t.sr.id = id ∧ p1.t.sr.subid = 4 ∧
      p1.t.sr.payload = 0 ||| p1.fr_bat1_capacity % 2 ^ 24 * 2 ^ 0 ||| 4 % 2 ^ 4 * 2 ^ 24) ∧
    (p.app_count = 2 → p1.t.sr.id = p.t.sr.id ∧ p1.t.sr.subid = 5 ∧
      p1.t.sr.payload = 0 ||| p1.fr_bat2_capacity % 2 ^ 24 * 2 ^ 0 ||| 5 % 2 ^ 4 * 2 ^ 24) ∧
    (p.app_count = 3 → p1.t.sr.id = id ∧ p1.t.sr.subid = 6 ∧
      p1.t.sr.payload = p.t.sr.payload ∧
      p1.t.sp.fr_payload = 0 ||| p.ap_mission_count % 2 ^ 24 * 2 ^ 0 ||| 6 % 2 ^ 4 * 2 ^ 24) := by
  refine ⟨?_, ?_, ?_, ?_⟩
  · intro h0
    unfold Pack_Parameters_5007 at h
    simp only [h0, Nat.zero_add, if_true, Option.map_eq_some'] at h
    obtain ⟨sp, -, rfl⟩ := h
    refine ⟨rfl, rfl, ?_⟩
    show (bit32Pack 1 24 4 (bit32Pack p.t.ap_type 0 24 { p.t.sp with fr_payload := 0 })).fr_payload = _
    rw [bit32Pack_fr_payload _ 24 4 _ (by omega) (by omega),
      bit32Pack_fr_payload _ 0 24 _ (by omega) (by omega)]
  · intro h0
    unfold Pack_Parameters_5007 at h
    simp only [h0, Nat.reduceAdd, Nat.reduceEqDiff, if_false, if_true,
      Option.map_eq_some'] at h
    obtain ⟨sp, -, rfl⟩ := h
    refine ⟨rfl, rfl, ?_⟩
    show (bit32Pack 4 24 4 (bit32Pack _ 0 24 { p.t.sp with fr_payload := 0 })).fr_payload = _
    rw [bit32Pack_fr_payload _ 24 4 _ (by omega) (by omega),
      bit32Pack_fr_payload _ 0 24 _ (by omega) (by omega)]
  · intro h0
    unfold Pack_Parameters_5007 at h
    simp only [h0, Nat.reduceAdd, Nat.reduceEqDiff, if_false, if_true,
      Option.map_eq_some'] at h
    obtain ⟨sp, -, rfl⟩ := h
    refine ⟨rfl, rfl, ?_⟩
    show (bit32Pack 5 24 4 (bit32Pack _ 0 24 { p.t.sp with fr_payload := 0 })).fr_payload = _
    rw [bit32Pack_fr_payload _ 24 4 _ (by omega) (by omega),
      bit32Pack_fr_payload _ 0 24 _ (by omega) (by omega)]
  · intro h0
    unfold Pack_Parameters_5007 at h
    simp only [h0, Nat.reduceAdd, Nat.reduceEqDiff, if_false, if_true,
      Option.map_eq_some'] at h
    obtain ⟨sp, hsp, rfl⟩ := h
    refine ⟨rfl, rfl, rfl, ?_⟩
    rw [PushToEmptyRow_keeps_fr_payload now _ _ sp hsp]
    show (bit32Pack 6 24 4 (bit32Pack _ 0 24 { p.t.sp with fr_payload := 0 })).fr_payload = _
    rw [bit32Pack_fr_payload _ 24 4 _ (by omega) (by omega),
      bit32Pack_fr_payload _ 0 24 _ (by omega) (by omega)]

/-! ## The home position through the whole decoder -/

theorem bit32Pack_sb_if (c : Prop) [Decidable c] (a b d e f g : Nat) (s : State) :
    (if c then bit32Pack a b d s else bit32Pack e f g s).sb = s.sb := by
  split_ifs <;> rfl

/-- C1 (failing input). One in-use row with id 0x5001 enqueued at 1000 and popped, while
connected, at 41000 ms: `now - enqueue_time - sub_id` is 40000 > 0, yet the 16-bit
`sb_subid_age` is -25536, nothing is written and the row stays in use. With a second
row enqueued at 40990 the younger row (age 10) is the one popped, not the older one. -/
theorem SPort_Inject_Packet_long_wait_not_sent :
    spec_age 41000 (row 0x5001 0 1000 7) = 40000 ∧
    sb_subid_age 41000 (row 0x5001 0 1000 7) = -25536 ∧
    (SPort_Inject_Packet 41000
      (blankState [row 0x5001 0 1000 7, freeRow] TrMode.ground)).out = [] ∧
    (SPort_Inject_Packet 41000
      (blankState [row 0x5001 0 1000 7, freeRow] TrMode.ground)).sb =
      [row 0x5001 0 1000 7, freeRow] ∧
    popped 41000
      (blankState [row 0x5001 0 1000 7, row 0x5003 0 40990 9, freeRow] TrMode.ground) =
      some (row 0x5003 0 40990 9) := by
  decide

/-- C2 (counterexample). (a) Two pushes into the empty table of two rows (N = sb_rows):
the second record is dropped and no pop returns it. (b) A status text enqueued at 0 and
an AP status enqueued at 10, popped at 20 and 21: the AP status (age 10) leaves before the
status text (age 20). (c) A record with sub_id 5 enqueued at 0 is not returned by the
pop at 3. (d) A record enqueued at 0 is not returned by the pop at 40000. -/
theorem pops_capacity_and_tier_counterexample :
    (∃ s1, pushAll [(0, row 0x5001 0 0 7), (5, row 0x5003 0 0 9)]
        (SPort_Init (blankState [freeRow, freeRow] TrMode.ground)) = some s1 ∧
      popTrace [50, 60] s1 = [some (row 0x5001 0 0 7), none]) ∧
    (∃ s1, pushAll [(0, row 0x5000 0 0 3), (10, row 0x5001 0 0 7)]
        (SPort_Init (blankState [freeRow, freeRow, freeRow] TrMode.ground)) = some s1 ∧
      spec_age 20 (row 0x5001 0 10 7) < spec_age 20 (row 0x5000 0 0 3) ∧
      popTrace [20, 21] s1 = [some (row 0x5001 0 10 7), some (row 0x5000 0 0 3)]) ∧
    (∃ s1, pushAll [(0, row 0x5001 5 0 7)]
        (SPort_Init (blankState [freeRow, freeRow] TrMode.ground)) = some s1 ∧
      popTrace [3] s1 = [none]) ∧
    (∃ s1, pushAll [(0, row 0x5001 0 0 7)]
        (SPort_Init (blankState [freeRow, freeRow] TrMode.ground)) = some s1 ∧
      popTrace [40000] s1 = [none]) := by
  refine ⟨⟨_, rfl, by decide⟩, ⟨_, rfl, by decide, by decide⟩, ⟨_, rfl, by decide⟩,
    ⟨_, rfl, by decide⟩⟩

/-- C2 (amended). N pushes into the empty table with N <= sb_rows - 1 are all stored;
N pops, while connected, each at a time later than every push by more than that
record's sub_id and by less than 32768 ms, return every pushed record exactly once (the
popped records are a permutation of the stored ones and the table ends empty), every
record with an id other than 0x5000 before every 0x5000 record and, within each of the
two tiers, in descending order of `age - sub_id`. -/
theorem pushes_then_pops (s : State) (pushes : List (Nat × sb_t)) (ts : List Nat)
    (hconn : s.mavGood = true)
    (hN : pushes.length + 1 ≤ s.sb.length)
    (hts : ts.length = pushes.length)
    (htime : ∀ t ∈ ts, ∀ p ∈ pushes,
      p.1 + p.2.subid < t ∧ t < p.1 + 32768 ∧ t < 4294967296) :
    ∃ (s1 : State) (recs : List sb_t), pushAll pushes (SPort_Init s) = some s1 ∧
      popTrace ts s1 = recs.map some ∧
      recs.Perm (pushes.map stored) ∧ recs.Pairwise leavesBefore ∧
      ∀ r ∈ (popAll ts s1).sb, r.inuse = false := by
  have hlen := SPort_Init_length s
  have hne : (SPort_Init s).sb ≠ [] := by
    intro h; rw [h] at hlen; simp at hlen; omega
  obtain ⟨s1, h1, h2, _, h4, _, _, _⟩ :=
    pushAll_fill pushes (SPort_Init s) [] (SPort_Init s).sb (by simp) (by simp)
      (SPort_Init_free s) hne
  have htake : pushes.take ((SPort_Init s).sb.length - 1) = pushes :=
    List.take_of_length_le (by omega)
  rw [htake, List.nil_append] at h2
  have hpend : s1.sb.filter (fun x => x.inuse) = pushes.map stored := by
    rw [h2, List.filter_append]
    have e1 : (pushes.map stored).filter (fun x => x.inuse) = pushes.map stored :=
      List.filter_eq_self.mpr (by
        intro a ha
        obtain ⟨p, _, rfl⟩ := List.mem_map.mp ha
        rfl)
    have e2 : ((SPort_Init s).sb.drop (min pushes.length ((SPort_Init s).sb.length - 1))).filter
        (fun x => x.inuse) = [] :=
      List.filter_eq_nil_iff.mpr (by
        intro a ha
        have := SPort_Init_free s a (List.mem_of_mem_drop ha)
        simp [this])
    rw [e1, e2, List.append_nil]
  have hconn1 : s1.mavGood = true := by
    rw [h4]; simpa [SPort_Init] using hconn
  obtain ⟨recs, g1, g2, g3, g4⟩ := pops_drain ts s1 hconn1
    (by rw [hpend, List.length_map]; exact hts)
    (by
      intro t ht r hr hu
      have hr1 : r ∈ s1.sb.filter (fun x => x.inuse) :=
        List.mem_filter.mpr ⟨hr, by simpa using hu⟩
      rw [hpend] at hr1
      obtain ⟨p, hp, rfl⟩ := List.mem_map.mp hr1
      exact htime t ht p hp)
  refine ⟨s1, recs, h1, g1, by rw [← hpend]; exact g2, g3, ?_⟩
  intro r hr
  have := List.filter_eq_nil_iff.mp g4 r hr
  simpa using this

/-- C2 (witness): two pushes into three rows, pops at 50 and 60. -/
theorem pushes_then_pops_witness :
    ∃ (s1 : State) (recs : List sb_t), pushAll [(0, row 0x5000 1 0 3), (5, row 0x5003 0 0 9)]
        (SPort_Init (blankState [freeRow, freeRow, freeRow] TrMode.ground)) = some s1 ∧
      popTrace [50, 60] s1 = recs.map some ∧
      recs.Perm ([(0, row 0x5000 1 0 3), (5, row 0x5003 0 0 9)].map stored) ∧
      recs.Pairwise leavesBefore ∧
      ∀ r ∈ (popAll [50, 60] s1).sb, r.inuse = false :=
  pushes_then_pops (blankState [freeRow, freeRow, freeRow] TrMode.ground)
    [(0, row 0x5000 1 0 3), (5, row 0x5003 0 0 9)] [50, 60]
    (by decide) (by decide) (by decide) (by decide)

/-- C3 (failing input). Row 0 holds an AP status (id 0x5001) enqueued at 100, row 1 a
status text (id 0x5000) enqueued at 90; the pop at 100 transmits the status text and
leaves the AP status pending. -/
theorem status_text_sent_while_tier1_pending :
    popped 100 (blankState [row 0x5001 0 100 7, row 0x5000 0 90 3, freeRow] TrMode.ground) =
      some (row 0x5000 0 90 3) ∧
    (SPort_Inject_Packet 100
      (blankState [row 0x5001 0 100 7, row 0x5000 0 90 3, freeRow] TrMode.ground)).sb =
      [row 0x5001 0 100 7, { row 0x5000 0 90 0 with inuse := false }, freeRow] ∧
    (SPort_Inject_Packet 100
      (blankState [row 0x5001 0 100 7, row 0x5000 0 90 3, freeRow] TrMode.ground)).out =
      spec_frame TrMode.ground 0x1B 0 0x5000 3 := by
  decide

/-- C4 (counterexample). Three rows, the first two in use and the last one free: the
record is not stored in the free row, it is dropped and counted. -/
theorem PushToEmptyRow_last_row_free_dropped :
    PushToEmptyRow 10 (row 0x5001 0 0 7)
        (blankState [row 0x5002 0 1 4, row 0x5003 0 2 5, freeRow] TrMode.ground) =
      some { blankState [row 0x5002 0 1 4, row 0x5003 0 2 5, freeRow] TrMode.ground with
        sens_buf_full_count := 1 } := by
  decide

/-- C4 (amended). With `j` the lowest index of a free row: if row `j` is not the last
row, `PushToEmptyRow` stores the record there with `inuse = true` and
`millis = now`, changes no other row and leaves the drop counter alone; if row `j` is the
last row (no other row is free), the record is dropped, the counter is incremented and
the table is unchanged. -/
theorem PushToEmptyRow_lowest_free (now : Nat) (pter : sb_t) (s : State) (j : Nat) (f : sb_t)
    (hj : s.sb[j]? = some f) (hf : f.inuse = false)
    (hlow : ∀ i r, i < j → s.sb[i]? = some r → r.inuse = true) :
    PushToEmptyRow now pter s =
      some (if j + 1 < s.sb.length then
        { s with
          sb_unsent := s.sb_unsent + 1
          sb := s.sb.set j { pter with millis := now, inuse := true } }
      else { s with sens_buf_full_count := s.sens_buf_full_count + 1 }) := by
  obtain ⟨hsplit, hpre, hlen⟩ := split_at_lowest_free s.sb j f hj hlow
  have htot : s.sb.length = j + 1 + (s.sb.drop (j + 1)).length := by
    conv_lhs => rw [hsplit]
    simp only [List.length_append, List.length_cons, hlen]
    omega
  by_cases hlast : j + 1 < s.sb.length
  · have hsuf : s.sb.drop (j + 1) ≠ [] := by
      intro h; rw [h] at htot; simp at htot; omega
    rw [PushToEmptyRow_store now pter s _ _ f hsplit hsuf hpre hf, if_pos hlast]
    have hset : s.sb.set j { pter with millis := now, inuse := true } =
        s.sb.take j ++ stored (now, pter) :: s.sb.drop (j + 1) := by
      conv_lhs => rw [hsplit]
      rw [List.set_append_right _ _ (by omega), hlen]
      simp [stored]
    rw [hset]
  · have hsuf : s.sb.drop (j + 1) = [] := by
      apply List.eq_nil_of_length_eq_zero; omega
    rw [hsuf] at hsplit
    rw [PushToEmptyRow_last now pter s _ f hsplit hpre hf, if_neg hlast]

/-- C4 (witness): four rows, the lowest free row is row 1. -/
theorem PushToEmptyRow_lowest_free_witness :
    PushToEmptyRow 10 (row 0x5001 0 0 7)
        (blankState [row 0x5002 0 1 4, freeRow, row 0x5003 0 2 5, freeRow] TrMode.ground) =
      some (if 1 + 1 < (blankState [row 0x5002 0 1 4, freeRow, row 0x5003 0 2 5, freeRow]
            TrMode.ground).sb.length then
        { blankState [row 0x5002 0 1 4, freeRow, row 0x5003 0 2 5, freeRow] TrMode.ground with
          sb_unsent := 0 + 1
          sb := (blankState [row 0x5002 0 1 4, freeRow, row 0x5003 0 2 5, freeRow]
            TrMode.ground).sb.set 1 { row 0x5001 0 0 7 with millis := 10, inuse := true } }
      else
        { blankState [row 0x5002 0 1 4, freeRow, row 0x5003 0 2 5, freeRow] TrMode.ground with
          sens_buf_full_count := 0 + 1 }) :=
  PushToEmptyRow_lowest_free 10 (row 0x5001 0 0 7)
    (blankState [row 0x5002 0 1 4, freeRow, row 0x5003 0 2 5, freeRow] TrMode.ground) 1 freeRow
    (by decide) (by decide)
    (by
      intro i r hi h
      have hi0 : i = 0 := by omega
      subst hi0
      simp [blankState] at h
      subst h
      rfl)

/-- C5 (counterexample). Four pushes into the empty table of three rows
(sb_rows + 1 records): two records are stored, two are dropped and the counter ends
at 2. -/
theorem pushAll_rows_plus_one_drops_two :
    ∃ s1 : State,
      pushAll [(1, row 0x5001 0 0 7), (2, row 0x5002 0 0 8), (3, row 0x5003 0 0 9),
          (4, row 0x5004 0 0 10)]
        (SPort_Init (blankState [freeRow, freeRow, freeRow] TrMode.ground)) = some s1 ∧
      s1.sens_buf_full_count = 2 ∧
      s1.sb = [row 0x5001 0 1 7, row 0x5002 0 2 8, freeRow] :=
  ⟨_, rfl, by decide, by decide⟩

/-- C5 (amended). The empty table of sb_rows rows takes sb_rows - 1 records: pushing
sb_rows - 1 + k records with no pop in between stores the first sb_rows - 1 of them, in
order and with id, sub_id and payload as pushed, drops the last k and adds exactly k to
`sens_buf_full_count`; the last row stays free. For sb_rows + 1 pushes k is 2. -/
theorem pushAll_saturation (s : State) (ps : List (Nat × sb_t)) (k : Nat)
    (hrows : 0 < s.sb.length) (hN : ps.length = s.sb.length - 1 + k) :
    ∃ s1 : State, pushAll ps (SPort_Init s) = some s1 ∧
      s1.sens_buf_full_count = s.sens_buf_full_count + k ∧
      s1.sb = (ps.take (s.sb.length - 1)).map stored ++
        (SPort_Init s).sb.drop (s.sb.length - 1) := by
  have hlen := SPort_Init_length s
  have hne : (SPort_Init s).sb ≠ [] := by
    intro h; rw [h] at hlen; simp at hlen; omega
  obtain ⟨s1, h1, h2, h3, _⟩ :=
    pushAll_fill ps (SPort_Init s) [] (SPort_Init s).sb (by simp) (by simp)
      (SPort_Init_free s) hne
  refine ⟨s1, h1, ?_, ?_⟩
  · rw [h3, hlen, hN]
    simp [SPort_Init]
  · rw [h2, hlen, List.nil_append]
    congr 2
    omega

/-- C5 (witness): four pushes into three rows, k = 2. -/
theorem pushAll_saturation_witness :
    ∃ s1 : State,
      pushAll [(1, row 0x5001 0 0 7), (2, row 0x5002 0 0 8), (3, row 0x5003 0 0 9),
          (4, row 0x5004 0 0 10)]
        (SPort_Init (blankState [freeRow, freeRow, freeRow] TrMode.ground)) = some s1 ∧
      s1.sens_buf_full_count =
        (blankState [freeRow, freeRow, freeRow] TrMode.ground).sens_buf_full_count + 2 ∧
      s1.sb =
        ([(1, row 0x5001 0 0 7), (2, row 0x5002 0 0 8), (3, row 0x5003 0 0 9),
          (4, row 0x5004 0 0 10)].take
            ((blankState [freeRow, freeRow, freeRow] TrMode.ground).sb.length - 1)).map stored ++
        (SPort_Init (blankState [freeRow, freeRow, freeRow] TrMode.ground)).sb.drop
          ((blankState [freeRow, freeRow, freeRow] TrMode.ground).sb.length - 1) :=
  pushAll_saturation (blankState [freeRow, freeRow, freeRow] TrMode.ground)
    [(1, row 0x5001 0 0 7), (2, row 0x5002 0 0 8), (3, row 0x5003 0 0 9),
      (4, row 0x5004 0 0 10)] 2 (by decide) (by decide)


/-- C6. From a state whose checksum is 0 (start-up), any sequence of calls
`SPort_SendDataFrame(0x1B, id, payload)` writes, call after call, exactly the frames
`spec_frame`: in ground mode 0x7E, 0x1B, then the stuffed bytes 0x10, id low, id high,
payload bytes 0..3 and the stuffed `0xFF - c`, with `c` the checksum of those seven
bytes from 0; in air and relay mode the same without 0x7E, 0x1B. The checksum is 0
again after every frame. -/
theorem SPort_SendDataFrame_sequence (s : State) (hcrc : s.crc = 0) (calls : List (Nat × Nat)) :
    (calls.foldl (fun st c => SPort_SendDataFrame 0x1B c.1 c.2 st) s).out =
      s.out ++ calls.flatMap (fun c => spec_frame s.trmode 0x1B 0 c.1 c.2) ∧
    (calls.foldl (fun st c => SPort_SendDataFrame 0x1B c.1 c.2 st) s).crc = 0 := by
  induction calls generalizing s with
  | nil => simp [hcrc]
  | cons c cs ih =>
    have h := ih (SPort_SendDataFrame 0x1B c.1 c.2 s) (by simp [SPort_SendDataFrame_eq])
    simp only [List.foldl_cons, List.flatMap_cons]
    refine ⟨?_, h.2⟩
    rw [h.1]
    simp [SPort_SendDataFrame_eq, hcrc, List.append_assoc]

/-- C6 (witness): two frames in ground mode from the start-up state. -/
theorem SPort_SendDataFrame_sequence_witness :
    ([(0x5001, 0x7E7D0001), (0x5000, 3)].foldl
        (fun st c => SPort_SendDataFrame 0x1B c.1 c.2 st) (blankState [] TrMode.ground)).out =
      (blankState [] TrMode.ground).out ++
        [(0x5001, 0x7E7D0001), (0x5000, 3)].flatMap
          (fun c => spec_frame (blankState [] TrMode.ground).trmode 0x1B 0 c.1 c.2) ∧
    ([(0x5001, 0x7E7D0001), (0x5000, 3)].foldl
        (fun st c => SPort_SendDataFrame 0x1B c.1 c.2 st) (blankState [] TrMode.ground)).crc = 0 :=
  SPort_SendDataFrame_sequence (blankState [] TrMode.ground) (by decide)
    [(0x5001, 0x7E7D0001), (0x5000, 3)]

/-- C7 (counterexample). The ground-mode frame for id 0x5001, payload 0: the bytes after
0x7E, 0x1B de-stuff to 0x10, 0x01, 0x50, 0, 0, 0, 0, 0x9E and their checksum is 0xFF,
not 0. -/
theorem SPort_SendDataFrame_checksum_not_zero :
    (SPort_SendDataFrame 0x1B 0x5001 0 (blankState [] TrMode.ground)).out =
      [0x7E, 0x1B, 0x10, 0x01, 0x50, 0, 0, 0, 0, 0x9E] ∧
    spec_checksum 0 (spec_destuff
      ((SPort_SendDataFrame 0x1B 0x5001 0 (blankState [] TrMode.ground)).out.drop 2)) = 0xFF ∧
    spec_checksum 0 (spec_destuff
      ((SPort_SendDataFrame 0x1B 0x5001 0 (blankState [] TrMode.ground)).out.drop 2)) ≠ 0 := by
  decide

/-- C7 (amended). For every frame written by `SPort_SendDataFrame` from checksum state
0, in any mode and for any instance, id and payload: de-stuffing the bytes after the
start marker and instance byte and accumulating all of them, trailer included, with the
checksum update of `SPort_SendByte` yields 0xFF. -/
theorem SPort_SendDataFrame_checksum_FF (s : State) (hcrc : s.crc = 0) (Instance Id value : Nat) :
    spec_checksum 0 (spec_destuff
      (((SPort_SendDataFrame Instance Id value s).out.drop s.out.length).drop
        (if s.trmode = TrMode.ground then 2 else 0))) = 0xFF := by
  have hbody : ((SPort_SendDataFrame Instance Id value s).out.drop s.out.length).drop
        (if s.trmode = TrMode.ground then 2 else 0) = spec_frameBody 0 Id value := by
    rw [SPort_SendDataFrame_eq, hcrc]
    by_cases h : s.trmode = TrMode.ground <;> simp [h, spec_frame]
  rw [hbody, spec_destuff_frameBody]
  unfold spec_checksum
  rw [List.foldl_append]
  have hlt := spec_checksum_lt 0 (spec_frameData Id value) (by simp [spec_frameData])
  unfold spec_checksum at hlt
  simp only [List.foldl_cons, List.foldl_nil]
  exact crcUpdate_complement _ hlt

/-- C7 (witness): the air-mode frame for id 0x5000 and a payload holding 0x7E and
0x7D. -/
theorem SPort_SendDataFrame_checksum_FF_witness :
    spec_checksum 0 (spec_destuff
      (((SPort_SendDataFrame 0x1B 0x5000 0x7E7D0001 (blankState [] TrMode.air)).out.drop
        (blankState [] TrMode.air).out.length).drop
        (if (blankState [] TrMode.air).trmode = TrMode.ground then 2 else 0))) = 0xFF :=
  SPort_SendDataFrame_checksum_FF (blankState [] TrMode.air) (by decide) 0x1B 0x5000 0x7E7D0001

/-- C8. For every byte `b`, `CheckByteStuffAndSend` writes one or two bytes `w` that
de-stuff to exactly `[b]`: as a complete sequence (a 0x7D with nothing behind it does not
decode), and in front of whatever bytes follow, where `w` decodes to `b` and leaves the
decoding of the following bytes as it is. None of the written bytes is the frame marker
0x7E. -/
theorem CheckByteStuffAndSend_roundtrip (b : Nat) (s : State) :
    ∃ w : List Nat, (CheckByteStuffAndSend b s).out = s.out ++ w ∧
      (w.length = 1 ∨ w.length = 2) ∧ spec_destuff_strict w = some [b] ∧
      (∀ rest : List Nat, spec_destuff (w ++ rest) = b :: spec_destuff rest) ∧
      (∀ rest : List Nat, spec_destuff_strict (w ++ rest) =
        (spec_destuff_strict rest).map (fun r => b :: r)) ∧
      0x7E ∉ w := by
  refine ⟨spec_stuff b, by simp [CheckByteStuffAndSend_eq], ?_, ?_,
    fun rest => spec_destuff_stuff b rest, ?_, ?_⟩
  · unfold spec_stuff; split_ifs <;> simp
  · unfold spec_stuff
    split_ifs with h1 h2
    · subst h1; simp [spec_destuff_strict]
    · subst h2; simp [spec_destuff_strict]
    · simp [spec_destuff_strict, h2]
  · intro rest
    unfold spec_stuff
    split_ifs with h1 h2
    · subst h1; simp [spec_destuff_strict]
    · subst h2; simp [spec_destuff_strict]
    · cases rest with
      | nil => simp [spec_destuff_strict, h2]
      | cons x xs => simp [spec_destuff_strict, h2]
  · unfold spec_stuff; split_ifs with h1 h2
    · simp
    · simp
    · simpa using fun h => h1 h.symm

/-- C9 (failing input). `prep_number(10235, 3, 1)` is 0x801: the rounded mantissa 1024
does not fit in 10 bits, the mantissa field reads 0 and the value decodes to 0. The same
happens for `prep_number(1023500, 3, 2)` = 0x1003. -/
theorem prep_number_mantissa_overflow :
    prep_number 10235 3 1 = 0x801 ∧ spec_decode 10 1 (prep_number 10235 3 1) = 0 ∧
    prep_number 1023500 3 2 = 0x1003 ∧ spec_decode 10 2 (prep_number 1023500 3 2) = 0 := by
  decide

/-- C10. For every 32-bit `n` with `|n|` at or above the class maximum, `prep_number`
returns the all-ones encoding of the class, plus the class's sign bit when `n < 0`. -/
theorem prep_number_saturates (n : Int) (hlo : -2147483648 ≤ n) (hhi : n ≤ 2147483647) :
    (150 ≤ n.natAbs → prep_number n 1 1 = 0x1F + (if n < 0 then 2 ^ 5 else 0)) ∧
    (1270 ≤ n.natAbs → prep_number n 2 1 = 0xFF + (if n < 0 then 2 ^ 8 else 0)) ∧
    (127000 ≤ n.natAbs → prep_number n 2 2 = 0x1FF + (if n < 0 then 2 ^ 9 else 0)) ∧
    (10240 ≤ n.natAbs → prep_number n 3 1 = 0x7FF + (if n < 0 then 2 ^ 11 else 0)) ∧
    (1024000 ≤ n.natAbs → prep_number n 3 2 = 0xFFF + (if n < 0 then 2 ^ 12 else 0)) := by
  have habs : n.natAbs % 4294967296 = n.natAbs := by omega
  refine ⟨?_, ?_, ?_, ?_, ?_⟩ <;> intro h <;> unfold prep_number <;> simp only [habs]
  · have a1 : ¬ n.natAbs < 10 := by omega
    have a2 : ¬ n.natAbs < 150 := by omega
    by_cases hn : n < 0 <;> simp [hn, a1, a2]
  · have a1 : ¬ n.natAbs < 100 := by omega
    have a2 : ¬ n.natAbs < 1270 := by omega
    by_cases hn : n < 0 <;> simp [hn, a1, a2]
  · have a1 : ¬ n.natAbs < 100 := by omega
    have a2 : ¬ n.natAbs < 1000 := by omega
    have a3 : ¬ n.natAbs < 10000 := by omega
    have a4 : ¬ n.natAbs < 127000 := by omega
    by_cases hn : n < 0 <;> simp [hn, a1, a2, a3, a4]
  · have a1 : ¬ n.natAbs < 1000 := by omega
    have a2 : ¬ n.natAbs < 10240 := by omega
    by_cases hn : n < 0 <;> simp [hn, a1, a2]
  · have a1 : ¬ n.natAbs < 1000 := by omega
    have a2 : ¬ n.natAbs < 10000 := by omega
    have a3 : ¬ n.natAbs < 100000 := by omega
    have a4 : ¬ n.natAbs < 1024000 := by omega
    by_cases hn : n < 0 <;> simp [hn, a1, a2, a3, a4]

/-- C10 (witness): `n = -1024000` in class (3, 2). -/
theorem prep_number_saturates_witness :
    prep_number (-1024000) 3 2 = 0xFFF + (if (-1024000 : Int) < 0 then 2 ^ 12 else 0) :=
  (prep_number_saturates (-1024000) (by decide) (by decide)).2.2.2.2 (by decide)

/-- C11 (failing input). `prep_number(10235, 3, 1)`: the rounded mantissa is 1024, which
needs 11 bits, and the result 0x801 of this positive number has bit 11, the sign bit of
the class, set. Likewise `prep_number(1023500, 3, 2)` has bit 12 set. -/
theorem prep_number_overflow_into_sign_bit :
    roundf_tenth 10235 = 1024 ∧ prepMantissa 3 1 10235 = 2 ^ 10 ∧
    (prep_number 10235 3 1).testBit 11 = true ∧ 2 ^ 11 ≤ prep_number 10235 3 1 ∧
    roundf_thousandth 1023500 = 1024 ∧ prepMantissa 3 2 1023500 = 2 ^ 10 ∧
    (prep_number 1023500 3 2).testBit 12 = true ∧ 2 ^ 12 ≤ prep_number 1023500 3 2 := by
  decide

/-- C12. For a field of width `w >= 1` at offset `d` with `d + w <= 32`, `bit32Pack` ORs
`(v mod 2^w) * 2^d` into `fr_payload` and changes nothing else: the bits of `fr_payload`
outside `d .. d+w-1` are unchanged, a 32-bit `fr_payload` stays 32-bit, and when the bits
`d .. d+w-1` were 0 beforehand, `bit32Unpack` of the new `fr_payload` returns
`v mod 2^w`. -/
theorem bit32Pack_field (v d w : Nat) (s : State) (hw : 1 ≤ w) (hdw : d + w ≤ 32) :
    bit32Pack v d w s = { s with fr_payload := s.fr_payload ||| ((v % 2 ^ w) * 2 ^ d) } ∧
    (∀ j, j < d ∨ d + w ≤ j →
      (bit32Pack v d w s).fr_payload.testBit j = s.fr_payload.testBit j) ∧
    (s.fr_payload < 2 ^ 32 → (bit32Pack v d w s).fr_payload < 2 ^ 32) ∧
    ((∀ j, d ≤ j → j < d + w → s.fr_payload.testBit j = false) →
      bit32Unpack (bit32Pack v d w s).fr_payload d w = v % 2 ^ w) := by
  have hp := bit32Pack_fr_payload v d w s hw hdw
  have hfield : ∀ j, ((v % 2 ^ w) * 2 ^ d).testBit j =
      (decide (d ≤ j) && (decide (j - d < w) && v.testBit (j - d))) := by
    intro j
    rw [Nat.mul_comm, Nat.testBit_mul_pow_two, Nat.testBit_mod_two_pow]
  refine ⟨hp, ?_, ?_, ?_⟩
  · intro j hj
    rw [hp]
    show (s.fr_payload ||| ((v % 2 ^ w) * 2 ^ d)).testBit j = _
    rw [Nat.testBit_or, hfield]
    rcases hj with h | h
    · have : ¬ d ≤ j := by omega
      simp [this]
    · have : ¬ j - d < w := by omega
      simp [this]
  · intro h32
    rw [hp]
    show s.fr_payload ||| ((v % 2 ^ w) * 2 ^ d) < 2 ^ 32
    apply Nat.or_lt_two_pow h32
    have h1 : v % 2 ^ w < 2 ^ w := Nat.mod_lt _ (pow_pos (by norm_num) _)
    calc (v % 2 ^ w) * 2 ^ d < 2 ^ w * 2 ^ d :=
          Nat.mul_lt_mul_of_pos_right h1 (pow_pos (by norm_num) _)
      _ = 2 ^ (w + d) := by rw [← pow_add]
      _ ≤ 2 ^ 32 := Nat.pow_le_pow_right (by norm_num) (by omega)
  · intro hzero
    rw [hp]
    show bit32Unpack (s.fr_payload ||| ((v % 2 ^ w) * 2 ^ d)) d w = v % 2 ^ w
    apply Nat.eq_of_testBit_eq
    intro i
    rw [bit32Unpack_testBit _ d w i hw hdw, Nat.testBit_or, hfield, Nat.testBit_mod_two_pow]
    by_cases hi : i < w
    · have e : d + i - d = i := by omega
      simp [hi, hzero (d + i) (by omega) (by omega), e]
    · simp [hi]

/-- C12 (witness): the value 0xABC packed into the 7-bit field at offset 8 of an empty
accumulator. -/
theorem bit32Pack_field_witness :
    bit32Pack 0xABC 8 7 (blankState [] TrMode.ground) =
      { blankState [] TrMode.ground with
        fr_payload := (blankState [] TrMode.ground).fr_payload ||| ((0xABC % 2 ^ 7) * 2 ^ 8) } :=
  (bit32Pack_field 0xABC 8 7 (blankState [] TrMode.ground) (by decide) (by decide)).1

/-- C13 (counterexample). The four-character text "Hi!!" (L = 4, ceil(L/4) = 1) leaves
two chunk records in the table, with sub-ids 1 and 2; the empty text (L = 0,
ceil(L/4) = 0) leaves one. -/
theorem PackMultipleTextChunks_5000_extra_chunk :
    (PackMultipleTextChunks_5000 (fun k => 100 + k) 0x5000
        (textTele [freeRow, freeRow, freeRow, freeRow] [72, 105, 33, 33] 5)).map
      (fun t1 => (t1.sp.sb_unsent, t1.sp.sb.map (fun r => (r.inuse, r.subid)))) =
      some (2, [(true, 1), (true, 2), (false, 0), (false, 0)]) ∧
    (PackMultipleTextChunks_5000 (fun k => 100 + k) 0x5000
        (textTele [freeRow, freeRow, freeRow, freeRow] [] 5)).map
      (fun t1 => (t1.sp.sb_unsent, t1.sp.sb.map (fun r => (r.inuse, r.subid)))) =
      some (1, [(true, 1), (false, 0), (false, 0), (false, 0)]) := by
  decide

/-- C13 (amended). For a text of `L <= 50` characters in `ap_text` (a `char[60]`; the text
is followed by a null, and `len` is 50 when the text fills all 50 characters, as the
STATUSTEXT decoder leaves it), `PackMultipleTextChunks_5000` pushes exactly
`L / 4 + 1` chunk records, numbered 1, 2, ... in the sub-id, one `PushToEmptyRow` call
each and in this order. -/
theorem PackMultipleTextChunks_5000_chunk_count (clock : Nat → Nat) (id : Nat) (t : Tele)
    (text tail : List Nat) (htext : t.ap_text = text ++ 0 :: tail)
    (hsize : t.ap_text.length = 60) (hnz : ∀ c ∈ text, c ≠ 0) (hL : text.length ≤ 50)
    (hlen : text.length = 50 → t.len = 50) :
    ∃ (recs : List (Nat × sb_t)) (last : Nat), recs.length = text.length / 4 + 1 ∧
      (∀ j, j < text.length / 4 + 1 → ∃ p,
        recs[j]? = some (clock j, { t.sr with id := id, subid := j + 1, payload := p })) ∧
      (PackMultipleTextChunks_5000 clock id t).map (fun t1 => t1.sp) =
        (pushAll recs t.sp).map (fun s => { s with fr_payload := last }) := by
  refine ⟨chunkRecords clock t.sr id text text.length t.ap_severity (text.length / 4 + 1) 0 0,
    spec_chunk text text.length t.ap_severity (4 * (text.length / 4)),
    chunkRecords_length _ _ _ _ _ _ _ _ _, ?_,
    PackMultipleTextChunks_5000_eq clock id t text tail htext hsize hnz hL hlen⟩
  intro j hj
  refine ⟨spec_chunk text text.length t.ap_severity (4 * j), ?_⟩
  rw [chunkRecords_get clock t.sr id text text.length t.ap_severity _ 0 0 j hj]
  simp only [Nat.zero_add, chunkRecord]
  have e : 4 * j / 4 = j := by omega
  rw [e]

/-- C13 (witness): the five-character text "Hello", two chunks. -/
theorem PackMultipleTextChunks_5000_chunk_count_witness :
    ∃ (recs : List (Nat × sb_t)) (last : Nat),
      recs.length = [72, 101, 108, 108, 111].length / 4 + 1 ∧
      (∀ j, j < [72, 101, 108, 108, 111].length / 4 + 1 → ∃ p,
        recs[j]? = some ((fun k => 100 + k) j,
          { (textTele [freeRow, freeRow, freeRow] [72, 101, 108, 108, 111] 3).sr with
            id := 0x5000, subid := j + 1, payload := p })) ∧
      (PackMultipleTextChunks_5000 (fun k => 100 + k) 0x5000
          (textTele [freeRow, freeRow, freeRow] [72, 101, 108, 108, 111] 3)).map
          (fun t1 => t1.sp) =
        (pushAll recs (textTele [freeRow, freeRow, freeRow] [72, 101, 108, 108, 111] 3).sp).map
          (fun s => { s with fr_payload := last }) :=
  PackMultipleTextChunks_5000_chunk_count (fun k => 100 + k) 0x5000
    (textTele [freeRow, freeRow, freeRow] [72, 101, 108, 108, 111] 3)
    [72, 101, 108, 108, 111] (List.replicate 54 0) (by decide) (by decide) (by decide)
    (by decide) (by decide)

/-- C14. For a text of `L <= 50` characters and any severity `s`, the chunk records pushed
by `PackMultipleTextChunks_5000` are, for j = 0 .. L/4, the records with sub-id j + 1
and payload `(c0 & 0x7F) << 24 | (c1 & 0x7F) << 16 | (c2 & 0x7F) << 8 | (c3 & 0x7F)` for
the characters 4j .. 4j+3 of the text (0 past its end), to which the last one (j = L/4)
adds the severity; bit 7, 15 and 23 of a payload are bit 0, 1 and 2 of `s` in the last
chunk and 0 in every earlier one, and bit 31 is 0 in all. -/
theorem PackMultipleTextChunks_5000_payloads (clock : Nat → Nat) (id : Nat) (t : Tele)
    (text tail : List Nat) (htext : t.ap_text = text ++ 0 :: tail)
    (hsize : t.ap_text.length = 60) (hnz : ∀ c ∈ text, c ≠ 0) (hL : text.length ≤ 50)
    (hlen : text.length = 50 → t.len = 50) :
    (PackMultipleTextChunks_5000 clock id t).map (fun t1 => t1.sp) =
      (pushAll ((List.range (text.length / 4 + 1)).map (fun j =>
          (clock j, chunkRecord t.sr id text text.length t.ap_severity (4 * j)))) t.sp).map
        (fun s => { s with
          fr_payload := spec_chunk text text.length t.ap_severity (4 * (text.length / 4)) }) ∧
    ∀ j, j ≤ text.length / 4 →
      (spec_chunk text text.length t.ap_severity (4 * j)).testBit 7 =
        (decide (j = text.length / 4) && t.ap_severity.testBit 0) ∧
      (spec_chunk text text.length t.ap_severity (4 * j)).testBit 15 =
        (decide (j = text.length / 4) && t.ap_severity.testBit 1) ∧
      (spec_chunk text text.length t.ap_severity (4 * j)).testBit 23 =
        (decide (j = text.length / 4) && t.ap_severity.testBit 2) ∧
      (spec_chunk text text.length t.ap_severity (4 * j)).testBit 31 = false := by
  refine ⟨?_, ?_⟩
  · rw [← chunkRecords_eq_map]
    exact PackMultipleTextChunks_5000_eq clock id t text tail htext hsize hnz hL hlen
  · intro j hj
    obtain ⟨b7, b15, b23, b31⟩ := spec_chunk_bits text text.length t.ap_severity (4 * j)
    have hd : decide (4 * j + 4 > text.length) = decide (j = text.length / 4) := by
      by_cases h : j = text.length / 4
      · have : 4 * j + 4 > text.length := by omega
        rw [decide_eq_true this, decide_eq_true h]
      · have : ¬ 4 * j + 4 > text.length := by omega
        rw [decide_eq_false this, decide_eq_false h]
    rw [hd] at b7 b15 b23
    exact ⟨b7, b15, b23, b31⟩

/-- C14 (witness): the text "Hello" with severity 3; the second and last chunk is "o"
with bits 7 and 15 set. -/
theorem PackMultipleTextChunks_5000_payloads_witness :
    (PackMultipleTextChunks_5000 (fun k => 100 + k) 0x5000
        (textTele [freeRow, freeRow, freeRow] [72, 101, 108, 108, 111] 3)).map
        (fun t1 => t1.sp) =
      (pushAll ((List.range ([72, 101, 108, 108, 111].length / 4 + 1)).map (fun j =>
          ((fun k => 100 + k) j,
            chunkRecord (textTele [freeRow, freeRow, freeRow] [72, 101, 108, 108, 111] 3).sr
              0x5000 [72, 101, 108, 108, 111] [72, 101, 108, 108, 111].length
              (textTele [freeRow, freeRow, freeRow] [72, 101, 108, 108, 111] 3).ap_severity
              (4 * j))))
          (textTele [freeRow, freeRow, freeRow] [72, 101, 108, 108, 111] 3).sp).map
        (fun s => { s with
          fr_payload := spec_chunk [72, 101, 108, 108, 111] [72, 101, 108, 108, 111].length
            (textTele [freeRow, freeRow, freeRow] [72, 101, 108, 108, 111] 3).ap_severity
            (4 * ([72, 101, 108, 108, 111].length / 4)) }) :=
  (PackMultipleTextChunks_5000_payloads (fun k => 100 + k) 0x5000
    (textTele [freeRow, freeRow, freeRow] [72, 101, 108, 108, 111] 3)
    [72, 101, 108, 108, 111] (List.replicate 54 0) (by decide) (by decide) (by decide)
    (by decide) (by decide)).1

/-- C15. With GPS fix type >= 3 and the 32-bit latitude `lat` and longitude `lon` of the
flight stack in use, `PackLat800` and `PackLon800` hand `PushToEmptyRow` a record with
the given id (0x800 in `PackSensorTable`), sub-id 0 and 1, whose payload has
`(|x| / 100) * 6` in bits 0-29, which always fits, and in bits 30-31 the value 0 or 1
for a non-negative or negative latitude and 2 or 3 for a non-negative or negative
longitude; with fix type < 3 the S.Port globals, the sensor table among them, are left
unchanged. -/
theorem PackLat800_PackLon800_record (now id : Nat) (t : Tele) (lat lon : Int)
    (hlat : lat = if t.px4_flight_stack then t.ap_lat24 else t.ap_lat33)
    (hlon : lon = if t.px4_flight_stack then t.ap_lon24 else t.ap_lon33)
    (hlat32 : -2147483648 ≤ lat ∧ lat ≤ 2147483647)
    (hlon32 : -2147483648 ≤ lon ∧ lon ≤ 2147483647) :
    lat.natAbs / 100 * 6 < 2 ^ 30 ∧ lon.natAbs / 100 * 6 < 2 ^ 30 ∧
    (3 ≤ t.ap_fixtype →
      ∃ plat plon : Nat,
        plat % 2 ^ 30 = lat.natAbs / 100 * 6 ∧ plat / 2 ^ 30 = (if lat < 0 then 1 else 0) ∧
        plon % 2 ^ 30 = lon.natAbs / 100 * 6 ∧ plon / 2 ^ 30 = (if lon < 0 then 3 else 2) ∧
        (PackLat800 now id t).map (fun t1 => t1.sp) =
          PushToEmptyRow now { t.sr with id := id, subid := 0, payload := plat }
            { t.sp with fr_payload := plat } ∧
        (PackLon800 now id t).map (fun t1 => t1.sp) =
          PushToEmptyRow now { t.sr with id := id, subid := 1, payload := plon }
            { t.sp with fr_payload := plon }) ∧
    (t.ap_fixtype < 3 →
      (PackLat800 now id t).map (fun t1 => t1.sp) = some t.sp ∧
      (PackLon800 now id t).map (fun t1 => t1.sp) = some t.sp) := by
  have b1 : lat.natAbs / 100 * 6 < 2 ^ 30 := by omega
  have b2 : lon.natAbs / 100 * 6 < 2 ^ 30 := by omega
  refine ⟨b1, b2, ?_, ?_⟩
  · intro hfix
    refine ⟨lat.natAbs / 100 * 6 + (if lat < 0 then 1 else 0) * 2 ^ 30,
      lon.natAbs / 100 * 6 + (if lon < 0 then 3 else 2) * 2 ^ 30, ?_, ?_, ?_, ?_, ?_, ?_⟩
    · split_ifs <;> omega
    · split_ifs <;> omega
    · split_ifs <;> omega
    · split_ifs <;> omega
    · rw [hlat] at hlat32 ⊢
      exact PackLat800_eq now id t hfix hlat32.1 hlat32.2
    · rw [hlon] at hlon32 ⊢
      exact PackLon800_eq now id t hfix hlon32.1 hlon32.2
  · intro hfix
    rw [PackLat800_no_fix now id t hfix, PackLon800_no_fix now id t hfix]
    exact ⟨rfl, rfl⟩

/-- C15 (witness): latitude -33.8512345 and longitude 151.2093000 degrees with a 3D
fix. -/
theorem PackLat800_PackLon800_record_witness :
    ∃ plat plon : Nat,
      plat % 2 ^ 30 = (-338512345 : Int).natAbs / 100 * 6 ∧
      plat / 2 ^ 30 = (if (-338512345 : Int) < 0 then 1 else 0) ∧
      plon % 2 ^ 30 = (1512093000 : Int).natAbs / 100 * 6 ∧
      plon / 2 ^ 30 = (if (1512093000 : Int) < 0 then 3 else 2) ∧
      (PackLat800 100 0x800
          (positionTele [freeRow, freeRow] 3 (-338512345) 1512093000)).map (fun t1 => t1.sp) =
        PushToEmptyRow 100
          { (positionTele [freeRow, freeRow] 3 (-338512345) 1512093000).sr with
            id := 0x800, subid := 0, payload := plat }
          { (positionTele [freeRow, freeRow] 3 (-338512345) 1512093000).sp with
            fr_payload := plat } ∧
      (PackLon800 100 0x800
          (positionTele [freeRow, freeRow] 3 (-338512345) 1512093000)).map (fun t1 => t1.sp) =
        PushToEmptyRow 100
          { (positionTele [freeRow, freeRow] 3 (-338512345) 1512093000).sr with
            id := 0x800, subid := 1, payload := plon }
          { (positionTele [freeRow, freeRow] 3 (-338512345) 1512093000).sp with
            fr_payload := plon } :=
  (PackLat800_PackLon800_record 100 0x800
    (positionTele [freeRow, freeRow] 3 (-338512345) 1512093000)
    (-338512345) 1512093000 (by decide) (by decide) (by decide) (by decide)).2.2.1 (by decide)

/-- C16 (failing input). `PWM_To_63(0)` is +63: the rounded value -189 wraps to 67 in the
`int8_t` before the clamps see it, where the claimed value is -63. `PWM_To_63(2516)` is
-63: 128 wraps to -128, where the claimed value is +63. The wrap starts right outside
481 .. 2511. -/
theorem PWM_To_63_narrowing_wraps :
    round_mul_0126 (0 - 1500) = -189 ∧ toInt8 (-189) = 67 ∧
    PWM_To_63 0 = 63 ∧ spec_PWM_To_63 0 = -63 ∧
    PWM_To_63 2516 = -63 ∧ spec_PWM_To_63 2516 = 63 ∧
    PWM_To_63 480 = 63 ∧ PWM_To_63 481 = -63 ∧ PWM_To_63 2511 = 63 ∧ PWM_To_63 2512 = -63 ∧
    PWM_To_63 65535 = -63 := by
  decide

/-- C17. From Disconnected with the heartbeat counter at 0 and the last table row free
(as after `SPort_Init` and ever after), over any sequence of frames and main-loop passes:
while fewer than three heartbeats from a vehicle have been decoded the state is
Disconnected and the counter is their number, and the heartbeat that is the third from a
vehicle makes the state Connected (counter 3, heartbeat time taken); a heartbeat of type
5, 6 or 27 changes neither the counter, the heartbeat time nor anything on the S.Port
side, the connection state included. -/
theorem heartbeats_connect (rest : Nat → Tele → Option Tele) (t0 : Tele)
    (hdis : t0.sp.mavGood = false) (hcount : t0.hb_count = 0) (hfree : lastRowFree t0.sp.sb)
    (evs : List LinkEvent) :
    (vehicleHeartbeats evs < 3 →
      ∃ t1, runLink rest evs t0 = some t1 ∧ t1.sp.mavGood = false ∧
        t1.hb_count = vehicleHeartbeats evs) ∧
    (vehicleHeartbeats evs = 2 → ∀ (clock : Nat → Nat) (type a b c d e : Nat), isVehicle type →
      ∃ t2, runLink rest (evs ++ [LinkEvent.frame clock (MavMsg.heartbeat type a b c d e)]) t0 =
          some t2 ∧ t2.sp.mavGood = true ∧ t2.hb_count = 3 ∧ t2.hb_millis = clock 0) ∧
    (∀ (t : Tele) (clock : Nat → Nat) (type a b c d e : Nat), ¬ isVehicle type →
      ∃ t1, DecodeOneMavFrame rest clock (MavMsg.heartbeat type a b c d e) t = some t1 ∧
        t1.hb_count = t.hb_count ∧ t1.hb_millis = t.hb_millis ∧ t1.sp = t.sp) := by
  refine ⟨?_, ?_, ?_⟩
  · intro h
    obtain ⟨t1, h1, h2, h3, _⟩ := runLink_disconnected rest evs t0 hdis hfree (by omega)
    exact ⟨t1, h1, h2, by omega⟩
  · intro h2 clock type a b c d e hv
    exact third_heartbeat_connects rest t0 hdis hcount hfree evs h2 clock type a b c d e hv
  · intro t clock type a b c d e hv
    exact ⟨_, DecodeOneMavFrame_heartbeat_ignored rest clock type a b c d e t hv, rfl, rfl, rfl⟩

/-- C17 (witness): a quadcopter heartbeat, a ground-station heartbeat and a second
quadcopter heartbeat leave the link Disconnected with the counter at 2. -/
theorem heartbeats_connect_witness :
    ∃ t1, runLink (fun _ t => some t)
        [LinkEvent.frame (fun k => 1000 + k) (MavMsg.heartbeat 2 3 81 0 4 3),
          LinkEvent.frame (fun k => 1500 + k) (MavMsg.heartbeat 6 8 0 0 4 3),
          LinkEvent.frame (fun k => 2000 + k) (MavMsg.heartbeat 2 3 81 0 4 3)]
        (blankTele [freeRow, freeRow, freeRow, freeRow]) = some t1 ∧
      t1.sp.mavGood = false ∧
      t1.hb_count = vehicleHeartbeats
        [LinkEvent.frame (fun k => 1000 + k) (MavMsg.heartbeat 2 3 81 0 4 3),
          LinkEvent.frame (fun k => 1500 + k) (MavMsg.heartbeat 6 8 0 0 4 3),
          LinkEvent.frame (fun k => 2000 + k) (MavMsg.heartbeat 2 3 81 0 4 3)] :=
  (heartbeats_connect (fun _ t => some t) (blankTele [freeRow, freeRow, freeRow, freeRow])
    rfl rfl ⟨[freeRow, freeRow, freeRow], freeRow, rfl, rfl⟩
    [LinkEvent.frame (fun k => 1000 + k) (MavMsg.heartbeat 2 3 81 0 4 3),
      LinkEvent.frame (fun k => 1500 + k) (MavMsg.heartbeat 6 8 0 0 4 3),
      LinkEvent.frame (fun k => 2000 + k) (MavMsg.heartbeat 2 3 81 0 4 3)]).1 (by decide)

/-- C18 (counterexample). Connected with the last heartbeat at 1000 ms: the main-loop pass
at 7000 ms, exactly 6000 ms later, leaves the state Connected and the counter at 3; the
pass at 7001 ms disconnects. -/
theorem mavTimeoutCheck_at_6000_stays_connected :
    (mavTimeoutCheck 7000 (connectedTele [freeRow] 1000)).sp.mavGood = true ∧
    (mavTimeoutCheck 7000 (connectedTele [freeRow] 1000)).hb_count = 3 ∧
    (mavTimeoutCheck 7001 (connectedTele [freeRow] 1000)).sp.mavGood = false ∧
    (mavTimeoutCheck 7001 (connectedTele [freeRow] 1000)).hb_count = 0 := by
  decide

/-- C18 (amended). While Connected, a main-loop pass made more than 6000 ms after the last
accepted heartbeat sets the state to Disconnected and the heartbeat counter to 0 and
changes nothing else; with 6000 ms or less elapsed it changes nothing. -/
theorem mavTimeoutCheck_after_6000 (now : Nat) (t : Tele) (hconn : t.sp.mavGood = true)
    (hnow : t.hb_millis ≤ now) (h32 : now < 4294967296) :
    (6000 < now - t.hb_millis →
      mavTimeoutCheck now t = { t with sp := { t.sp with mavGood := false }, hb_count := 0 }) ∧
    (now - t.hb_millis ≤ 6000 → mavTimeoutCheck now t = t) := by
  have e : (now % 4294967296 + 4294967296 - t.hb_millis % 4294967296) % 4294967296 =
      now - t.hb_millis := by omega
  unfold mavTimeoutCheck
  rw [e]
  constructor
  · intro h
    rw [if_pos ⟨hconn, h⟩]
  · intro h
    rw [if_neg (by omega)]

/-- C18 (witness): last heartbeat at 1000 ms, main-loop pass at 7001 ms. -/
theorem mavTimeoutCheck_after_6000_witness :
    mavTimeoutCheck 7001 (connectedTele [freeRow] 1000) =
      { connectedTele [freeRow] 1000 with
        sp := { (connectedTele [freeRow] 1000).sp with mavGood := false }, hb_count := 0 } :=
  (mavTimeoutCheck_after_6000 7001 (connectedTele [freeRow] 1000) rfl (by decide)
    (by decide)).1 (by decide)

/-- C19 (counterexample). Disconnected, counter 0: vehicle heartbeats at 1000 and 2000 ms,
main-loop passes at 5000 and 60000 ms (58 s of silence), then one heartbeat at 60001 ms.
The counter is still 2 after the silence and the state is Connected after that
heartbeat. -/
theorem heartbeat_after_silence_connects :
    (runLink (fun _ t => some t)
        [LinkEvent.frame (fun k => 1000 + k) (MavMsg.heartbeat 2 3 81 0 4 3),
          LinkEvent.frame (fun k => 2000 + k) (MavMsg.heartbeat 2 3 81 0 4 3),
          LinkEvent.loopPass 5000, LinkEvent.loopPass 60000]
        (blankTele [freeRow, freeRow, freeRow, freeRow, freeRow])).map
      (fun t => (t.sp.mavGood, t.hb_count)) = some (false, 2) ∧
    (runLink (fun _ t => some t)
        [LinkEvent.frame (fun k => 1000 + k) (MavMsg.heartbeat 2 3 81 0 4 3),
          LinkEvent.frame (fun k => 2000 + k) (MavMsg.heartbeat 2 3 81 0 4 3),
          LinkEvent.loopPass 5000, LinkEvent.loopPass 60000,
          LinkEvent.frame (fun k => 60001 + k) (MavMsg.heartbeat 2 3 81 0 4 3)]
        (blankTele [freeRow, freeRow, freeRow, freeRow, freeRow])).map
      (fun t => (t.sp.mavGood, t.hb_count, t.hb_millis)) = some (true, 3, 60001) := by
  decide

/-- C19 (amended). While Disconnected no gap resets the heartbeat counter: the connection
check of a main-loop pass changes nothing while Disconnected, whatever the time, so from
Disconnected with the counter at 0, three heartbeats from a vehicle make the state
Connected however long the silences (any number of main-loop passes at any times)
between them. -/
theorem disconnected_counter_survives_silence (rest : Nat → Tele → Option Tele) (t0 : Tele)
    (hdis : t0.sp.mavGood = false) (hcount : t0.hb_count = 0) (hfree : lastRowFree t0.sp.sb)
    (k1 k2 k3 : Nat → Nat) (m1 m2 : MavMsg) (type a b c d e : Nat)
    (hm1 : vehicleHeartbeats [LinkEvent.frame k1 m1] = 1)
    (hm2 : vehicleHeartbeats [LinkEvent.frame k2 m2] = 1) (hv : isVehicle type)
    (gaps1 gaps2 : List Nat) :
    (∀ (now : Nat) (t : Tele), t.sp.mavGood = false → mavTimeoutCheck now t = t) ∧
    ∃ t3, runLink rest
        (([LinkEvent.frame k1 m1] ++ gaps1.map LinkEvent.loopPass ++
          ([LinkEvent.frame k2 m2] ++ gaps2.map LinkEvent.loopPass)) ++
          [LinkEvent.frame k3 (MavMsg.heartbeat type a b c d e)]) t0 = some t3 ∧
      t3.sp.mavGood = true ∧ t3.hb_count = 3 := by
  refine ⟨mavTimeoutCheck_disconnected, ?_⟩
  have h2 : vehicleHeartbeats ([LinkEvent.frame k1 m1] ++ gaps1.map LinkEvent.loopPass ++
      ([LinkEvent.frame k2 m2] ++ gaps2.map LinkEvent.loopPass)) = 2 := by
    rw [vehicleHeartbeats_append, vehicleHeartbeats_append, vehicleHeartbeats_append, hm1, hm2,
      vehicleHeartbeats_loopPasses, vehicleHeartbeats_loopPasses]
  obtain ⟨t3, g1, g2, g3, _⟩ :=
    third_heartbeat_connects rest t0 hdis hcount hfree _ h2 k3 type a b c d e hv
  exact ⟨t3, g1, g2, g3⟩

/-- C19 (witness): heartbeats at 1000, 2000 and 60001 ms with main-loop passes at 5000 and
60000 ms in between. -/
theorem disconnected_counter_survives_silence_witness :
    ∃ t3, runLink (fun _ t => some t)
        (([LinkEvent.frame (fun k => 1000 + k) (MavMsg.heartbeat 2 3 81 0 4 3)] ++
            ([] : List Nat).map LinkEvent.loopPass ++
          ([LinkEvent.frame (fun k => 2000 + k) (MavMsg.heartbeat 2 3 81 0 4 3)] ++
            [5000, 60000].map LinkEvent.loopPass)) ++
          [LinkEvent.frame (fun k => 60001 + k) (MavMsg.heartbeat 2 3 81 0 4 3)])
        (blankTele [freeRow, freeRow, freeRow, freeRow, freeRow]) = some t3 ∧
      t3.sp.mavGood = true ∧ t3.hb_count = 3 :=
  (disconnected_counter_survives_silence (fun _ t => some t)
    (blankTele [freeRow, freeRow, freeRow, freeRow, freeRow]) rfl rfl
    ⟨[freeRow, freeRow, freeRow, freeRow], freeRow, rfl, rfl⟩
    (fun k => 1000 + k) (fun k => 2000 + k) (fun k => 60001 + k)
    (MavMsg.heartbeat 2 3 81 0 4 3) (MavMsg.heartbeat 2 3 81 0 4 3) 2 3 81 0 4 3
    (by decide) (by decide) (by decide) [] [5000, 60000]).2

/-- C20 (failing input). Disconnected, counter 0, empty table of three rows: the STATUSTEXT
message with severity 4 and text "Hi" is decoded although the link is down. It sets
`ap_severity`, `ap_text` and `len`, and pushes a 0x5000 record into the sensor table;
the state stays Disconnected. -/
theorem DecodeOneMavFrame_statustext_while_disconnected :
    (blankTele [freeRow, freeRow, freeRow]).sp.mavGood = false ∧
    (DecodeOneMavFrame (fun _ t => some t) (fun k => 500 + k) (MavMsg.statustext 4 [72, 105])
        (blankTele [freeRow, freeRow, freeRow])).map
      (fun t => (t.sp.mavGood, t.ap_severity, t.len)) = some (false, 4, 2) ∧
    (DecodeOneMavFrame (fun _ t => some t) (fun k => 500 + k) (MavMsg.statustext 4 [72, 105])
        (blankTele [freeRow, freeRow, freeRow])).map (fun t => t.ap_text.take 3) =
      some [72, 105, 0] ∧
    (DecodeOneMavFrame (fun _ t => some t) (fun k => 500 + k) (MavMsg.statustext 4 [72, 105])
        (blankTele [freeRow, freeRow, freeRow])).map (fun t => (t.sp.sb_unsent, t.sp.sb)) =
      some (1, [row 0x5000 1 500 1223229440, freeRow, freeRow]) := by
  decide

/-- C22 (counterexample). Connected, nothing seen before: one RADIO_STATUS with rssi 200,
then only RC_CHANNELS messages with rssi 100 and 120 and an RC_CHANNELS_RAW with rssi 50.
The RSSI stays at the RADIO_STATUS value 78 (200 / 2.54); the later messages never update
it, however many follow. -/
theorem rssi_no_fallback :
    (runRssi scale254 true [RssiMsg.radio_status 200 0 0 0 0 0 0] blankRssi).ap_rssi = 78 ∧
    (runRssi scale254 true
      [RssiMsg.radio_status 200 0 0 0 0 0 0, RssiMsg.rc_channels 8 [] 100,
        RssiMsg.rc_channels 8 [] 120, RssiMsg.rc_channels_raw 50,
        RssiMsg.rc_channels 8 [] 120] blankRssi).ap_rssi = 78 ∧
    scale254 120 = 47 := by
  decide

/-- C22 (amended). While Connected a RADIO_STATUS (#109) always sets the RSSI from its own
rssi, and no later RC_CHANNELS or RC_CHANNELS_RAW changes it, however many follow with no
further RADIO_STATUS; an RC_CHANNELS (#65) sets the RSSI as long as no RADIO_STATUS was
ever received, and no later RC_CHANNELS_RAW changes it; an RC_CHANNELS_RAW (#35) sets the
RSSI as long as neither of the other two was ever received. -/
theorem rssi_source_precedence (scale : Nat → Nat) (v : RssiVars) :
    (∀ (a b c d e f k : Nat) (ms : List RssiMsg), (∀ m ∈ ms, isRadioStatus m = false) →
      (runRssi scale true (RssiMsg.radio_status a b c d e f k :: ms) v).ap_rssi = scale a) ∧
    (∀ (n : Nat) (chans : List Nat) (r : Nat) (ms : List RssiMsg), v.rssi109 = false →
      (∀ m ∈ ms, isChannelsRaw m = true) →
      (runRssi scale true (RssiMsg.rc_channels n chans r :: ms) v).ap_rssi = scale r) ∧
    (∀ r : Nat, v.rssi65 = false → v.rssi109 = false →
      (runRssi scale true [RssiMsg.rc_channels_raw r] v).ap_rssi = scale r) ∧
    (∀ (ms : List RssiMsg), v.rssi109 = true → (∀ m ∈ ms, isRadioStatus m = false) →
      (runRssi scale true ms v).ap_rssi = v.ap_rssi) ∧
    (∀ (ms : List RssiMsg), v.rssi65 = true → (∀ m ∈ ms, isChannelsRaw m = true) →
      (runRssi scale true ms v).ap_rssi = v.ap_rssi) := by
  refine ⟨?_, ?_, ?_, ?_, ?_⟩
  · intro a b c d e f k ms hms
    rw [runRssi, runRssi_lock109 scale true ms _ rfl hms]
    rfl
  · intro n chans r ms h109 hms
    rw [runRssi, runRssi_lock65 scale true ms _ (by simp [DecodeOneMavFrame_rssi, h109]) hms]
    simp [DecodeOneMavFrame_rssi, h109]
  · intro r h65 h109
    simp [runRssi, DecodeOneMavFrame_rssi, h65, h109]
  · intro ms h109 hms
    exact runRssi_lock109 scale true ms v h109 hms
  · intro ms h65 hms
    exact runRssi_lock65 scale true ms v h65 hms

/-- C22 (witness): from start-up, an RC_CHANNELS with rssi 100 followed by two
RC_CHANNELS_RAW leaves the RSSI at 100 / 2.54 = 39. -/
theorem rssi_source_precedence_witness :
    (runRssi scale254 true
      (RssiMsg.rc_channels 8 [1500, 1500] 100 ::
        [RssiMsg.rc_channels_raw 50, RssiMsg.rc_channels_raw 60]) blankRssi).ap_rssi =
      scale254 100 :=
  (rssi_source_precedence scale254 blankRssi).2.1 8 [1500, 1500] 100
    [RssiMsg.rc_channels_raw 50, RssiMsg.rc_channels_raw 60] rfl (by decide)

/-- C23 (failing input). Air mode, a record pending. The poll 0x7E 0x1B arrives split:
0x7E is read by one call of `SPort_Interleave_Packet` and 0x1B by the next. Neither call
invokes `SPort_Inject_Packet`: after the two calls the state is the start state with an
empty buffer, nothing was written, the record is still in the table and the S.Port status
is still bad. The same two bytes read by one call send the record. -/
theorem SPort_Interleave_Packet_split_poll_missed :
    (SPort_Interleave_Packet 10 10
      (pollState (blankState [row 0x5001 0 0 7, freeRow] TrMode.air) [0x7E])).rx = [] ∧
    (SPort_Interleave_Packet 12 12
      { SPort_Interleave_Packet 10 10
          (pollState (blankState [row 0x5001 0 0 7, freeRow] TrMode.air) [0x7E]) with
        rx := [0x1B] }) =
      pollState (blankState [row 0x5001 0 0 7, freeRow] TrMode.air) [] ∧
    (SPort_Interleave_Packet 12 12
      (pollState (blankState [row 0x5001 0 0 7, freeRow] TrMode.air) [0x7E, 0x1B])).sp.out =
      [0x10, 0x01, 0x50, 7, 0, 0, 0, 0x97] := by
  decide

/-- C24 (counterexample). An RSSI record (id 0xF101) popped in ground mode: the start
marker and instance byte are written twice before the data-framing byte 0x10; in air mode
they are written once; in relay mode they are not written. -/
theorem SPort_Inject_Packet_rssi_marker :
    (SPort_Inject_Packet 50 (blankState [row 0xF101 0 0 7, freeRow] TrMode.ground)).out =
      [0x7E, 0x1B, 0x7E, 0x1B, 0x10, 0x01, 0xF1, 7, 0, 0, 0, 0xF5] ∧
    (SPort_Inject_Packet 50 (blankState [row 0xF101 0 0 7, freeRow] TrMode.air)).out =
      [0x7E, 0x1B, 0x10, 0x01, 0xF1, 7, 0, 0, 0, 0xF5] ∧
    (SPort_Inject_Packet 50 (blankState [row 0xF101 0 0 7, freeRow] TrMode.relay)).out =
      [0x10, 0x01, 0xF1, 7, 0, 0, 0, 0xF5] := by
  decide

/-- C24 (amended). For the record `r` that `SPort_Inject_Packet` transmits (connected, row
`p` chosen), the bytes written are, with `tail` free of 0x7E: for an id other than 0xF101,
0x7E 0x1B 0x10 `tail` in ground mode and 0x10 `tail` in air and relay mode; for the RSSI
id 0xF101, 0x7E 0x1B 0x7E 0x1B 0x10 `tail` in ground mode, 0x7E 0x1B 0x10 `tail` in air
mode and 0x10 `tail` in relay mode. -/
theorem SPort_Inject_Packet_start_marker (now : Nat) (s : State) (p : Nat) (r : sb_t)
    (hconn : s.mavGood = true) (hp : popPtr now s.sb = some p) (hr : s.sb[p]? = some r) :
    ∃ tail, 0x7E ∉ tail ∧
      (r.id ≠ 0xF101 → s.trmode = TrMode.ground →
        (SPort_Inject_Packet now s).out = s.out ++ [0x7E, 0x1B, 0x10] ++ tail) ∧
      (r.id ≠ 0xF101 → s.trmode ≠ TrMode.ground →
        (SPort_Inject_Packet now s).out = s.out ++ [0x10] ++ tail) ∧
      (r.id = 0xF101 → s.trmode = TrMode.ground →
        (SPort_Inject_Packet now s).out = s.out ++ [0x7E, 0x1B, 0x7E, 0x1B, 0x10] ++ tail) ∧
      (r.id = 0xF101 → s.trmode = TrMode.air →
        (SPort_Inject_Packet now s).out = s.out ++ [0x7E, 0x1B, 0x10] ++ tail) ∧
      (r.id = 0xF101 → s.trmode = TrMode.relay →
        (SPort_Inject_Packet now s).out = s.out ++ [0x10] ++ tail) := by
  obtain ⟨_, _, hout⟩ := SPort_Inject_Packet_some now s p r hconn hp hr
  obtain ⟨tail, htail⟩ := spec_frameBody_head s.crc r.id r.payload
  have hno := spec_frameBody_no_marker s.crc r.id r.payload
  rw [htail] at hno
  refine ⟨tail, fun h => hno (List.mem_cons_of_mem _ h), ?_, ?_, ?_, ?_, ?_⟩
  · intro h1 h2
    rw [hout]
    simp [rssiMarker, spec_frame, h1, h2, htail]
  · intro h1 h2
    rw [hout]
    simp [rssiMarker, spec_frame, h1, h2, htail]
  · intro h1 h2
    rw [hout]
    rw [h1] at htail
    simp [rssiMarker, spec_frame, h1, h2, htail]
  · intro h1 h2
    rw [hout]
    rw [h1] at htail
    simp [rssiMarker, spec_frame, h1, h2, htail]
  · intro h1 h2
    rw [hout]
    rw [h1] at htail
    simp [rssiMarker, spec_frame, h1, h2, htail]

/-- C24 (witness): an AP status record popped in ground mode. -/
theorem SPort_Inject_Packet_start_marker_witness :
    ∃ tail, 0x7E ∉ tail ∧
      (SPort_Inject_Packet 50 (blankState [row 0x5001 0 0 7, freeRow] TrMode.ground)).out =
        (blankState [row 0x5001 0 0 7, freeRow] TrMode.ground).out ++ [0x7E, 0x1B, 0x10] ++
          tail :=
  (SPort_Inject_Packet_start_marker 50 (blankState [row 0x5001 0 0 7, freeRow] TrMode.ground)
    0 (row 0x5001 0 0 7) rfl (by decide) rfl).imp
    (fun _ h => ⟨h.1, h.2.1 (by decide) rfl⟩)

/-- C25 (counterexample). The three records of the scenario, popped at 50 ms while
connected: the first record returned is A (id 0x5001, age 50), not B (id 0x5003, age 45). -/
theorem pop_example_returns_A_first :
    ∃ s1, pushAll [(0, row 0x5001 0 0 7), (5, row 0x5003 0 0 9), (0, row 0x5000 1 0 3)]
        (SPort_Init (blankState [freeRow, freeRow, freeRow, freeRow] TrMode.ground)) = some s1 ∧
      spec_age 50 (row 0x5001 0 0 7) = 50 ∧ spec_age 50 (row 0x5003 0 5 9) = 45 ∧
      popped 50 s1 = some (row 0x5001 0 0 7) ∧ popped 50 s1 ≠ some (row 0x5003 0 5 9) := by
  refine ⟨_, rfl, by decide, by decide, by decide, by decide⟩

/-- C25 (amended). With records A (id 0x5001, sub_id 0, enqueued at 0), B (id 0x5003,
sub_id 0, enqueued at 5 ms) and C (id 0x5000, sub_id 1, enqueued at 0) pushed in any of
the six orders into the empty table, three successive pops at 50 ms while connected return
A first (age 50), then B (age 45), then C, and a fourth pop returns nothing. -/
theorem pop_example_order :
    [[(0, row 0x5001 0 0 7), (5, row 0x5003 0 0 9), (0, row 0x5000 1 0 3)],
      [(0, row 0x5001 0 0 7), (0, row 0x5000 1 0 3), (5, row 0x5003 0 0 9)],
      [(5, row 0x5003 0 0 9), (0, row 0x5001 0 0 7), (0, row 0x5000 1 0 3)],
      [(5, row 0x5003 0 0 9), (0, row 0x5000 1 0 3), (0, row 0x5001 0 0 7)],
      [(0, row 0x5000 1 0 3), (0, row 0x5001 0 0 7), (5, row 0x5003 0 0 9)],
      [(0, row 0x5000 1 0 3), (5, row 0x5003 0 0 9), (0, row 0x5001 0 0 7)]].map
      (fun ps => (pushAll ps
        (SPort_Init (blankState [freeRow, freeRow, freeRow, freeRow] TrMode.ground))).map
        (popTrace [50, 50, 50, 50])) =
    List.replicate 6
      (some [some (row 0x5001 0 0 7), some (row 0x5003 0 5 9), some (row 0x5000 1 0 3),
        none]) := by
  decide

/-- C26 (failing input). Tracked sender, 255 expected and 0 received (packet 255 was
skipped): `(s - e) mod 256` is 1 and the counter stays at 0. With 200 expected and 10
received it is 66 and the counter gets 65. The next expected number is `(s + 1) mod 256`
in both cases. -/
theorem checkLinkErrors_rollover_off_by_one :
    spec_lost 255 0 = 1 ∧
    (checkLinkErrors 1 1 0 (trackedLink 255 0)).packets_lost = 0 ∧
    (checkLinkErrors 1 1 0 (trackedLink 255 0)).hb_seq_expected = 1 ∧
    spec_lost 200 10 = 66 ∧
    (checkLinkErrors 1 1 10 (trackedLink 200 0)).packets_lost = 65 ∧
    (checkLinkErrors 1 1 10 (trackedLink 200 0)).hb_seq_expected = 11 := by
  decide

/-- C27 (failing input). Two records with id 0x5002 and sub_id 0, enqueued at 0 and at
30000 ms, popped at 33000 ms while connected: the ages are 33000 and 3000, the 16-bit age
of the older record is -32536, and the pop transmits the younger record; the next pop
transmits nothing, the older record stays in the table. At 98400 ms two records enqueued at
0 and at 100 ms, both waiting for more than 32768 ms, leave in the wrong order too. -/
theorem SPort_Inject_Packet_younger_first :
    spec_age 33000 (row 0x5002 0 0 7) = 33000 ∧
    spec_age 33000 (row 0x5002 0 30000 9) = 3000 ∧
    sb_subid_age 33000 (row 0x5002 0 0 7) = -32536 ∧
    popTrace [33000, 33001]
      (blankState [row 0x5002 0 0 7, row 0x5002 0 30000 9, freeRow] TrMode.ground) =
      [some (row 0x5002 0 30000 9), none] ∧
    (popAll [33000, 33001]
      (blankState [row 0x5002 0 0 7, row 0x5002 0 30000 9, freeRow] TrMode.ground)).sb =
      [row 0x5002 0 0 7, { row 0x5002 0 30000 0 with inuse := false }, freeRow] ∧
    popTrace [98400]
      (blankState [row 0x5002 0 0 7, row 0x5002 0 100 9, freeRow] TrMode.ground) =
      [some (row 0x5002 0 100 9)] := by
  decide

/-- C28. From `SPort_Init` on a table with at least one row, after any sequence of pushes
and pops (and changes of the connection state in between): every push has returned, the
table has kept its length, its last row is not in use, and the free-row scan of
`PushToEmptyRow` stops at an index inside the table. -/
theorem last_row_never_in_use (s0 : State) (hrows : s0.sb ≠ []) (ops : List TableOp) :
    ∃ s, runTable ops (SPort_Init s0) = some s ∧ s.sb.length = s0.sb.length ∧
      (∃ f, s.sb.getLast? = some f ∧ f.inuse = false) ∧
      ∃ j, findFreeRow s.sb 0 = some j ∧ j < s.sb.length := by
  obtain ⟨s, h1, h2, h3⟩ := runTable_lastRowFree ops (SPort_Init s0)
    (SPort_Init_lastRowFree s0 hrows)
  refine ⟨s, h1, h3.trans (SPort_Init_length s0), ?_, lastRowFree_length s.sb h2⟩
  obtain ⟨pre, f, hsb, hf⟩ := h2
  exact ⟨f, by rw [hsb]; simp, hf⟩

/-- C28 (witness): a table of three rows, three pushes (the third finds the table full),
a pop, another push. -/
theorem last_row_never_in_use_witness :
    ∃ s, runTable [TableOp.push 0 (row 0x5001 0 0 7), TableOp.push 1 (row 0x5002 0 0 8),
          TableOp.push 2 (row 0x5003 0 0 9), TableOp.pop 50, TableOp.push 51 (row 0x5004 0 0 5)]
        (SPort_Init (blankState [row 1 1 1 1, row 2 2 2 2, row 3 3 3 3] TrMode.ground)) =
          some s ∧
      s.sb.length = (blankState [row 1 1 1 1, row 2 2 2 2, row 3 3 3 3] TrMode.ground).sb.length ∧
      (∃ f, s.sb.getLast? = some f ∧ f.inuse = false) ∧
      ∃ j, findFreeRow s.sb 0 = some j ∧ j < s.sb.length :=
  last_row_never_in_use (blankState [row 1 1 1 1, row 2 2 2 2, row 3 3 3 3] TrMode.ground)
    (by decide) _

/-- C29 (failing input). Altitude above home -1500 mm (`ap_alt_ag / 100` is -15 dm):
`prep_number(-15, 3, 2)` is 4156 (mantissa 15, exponent 0, its own sign bit 12 set), the
12-bit field at bits 12-23 holds 60, and bit 24 of the pushed payload is clear. A
barometric altitude of -50 dm gives `prep_number` 4296, the field at bits 15-26 holds 200
and bit 27 is clear. The payloads are those of +1500 mm and +50 dm. -/
theorem altitude_sign_bit_not_set :
    Int.tdiv (-1500) 100 = -15 ∧ prep_number (-15) 3 2 = 4156 ∧
    (Pack_Home_5004 0 0x5004 100 30 (blankAlt [freeRow, freeRow] (-1500))).map
      (fun v => (bit32Unpack v.sr.payload 12 12, v.sr.payload.testBit 24)) =
      some (60, false) ∧
    (Pack_Home_5004 0 0x5004 100 30 (blankAlt [freeRow, freeRow] (-1500))).map
      (fun v => v.sr.payload) =
      (Pack_Home_5004 0 0x5004 100 30 (blankAlt [freeRow, freeRow] 1500)).map
        (fun v => v.sr.payload) ∧
    prep_number (-50) 3 2 = 4296 ∧
    (Pack_VFR_Hud_50F2 0 0x50F2 120 50 (-50) (blankAlt [freeRow, freeRow] 0)).map
      (fun v => (bit32Unpack v.sr.payload 15 12, v.sr.payload.testBit 27)) =
      some (200, false) ∧
    (Pack_VFR_Hud_50F2 0 0x50F2 120 50 (-50) (blankAlt [freeRow, freeRow] 0)).map
      (fun v => v.sr.payload) =
      (Pack_VFR_Hud_50F2 0 0x50F2 120 50 50 (blankAlt [freeRow, freeRow] 0)).map
        (fun v => v.sr.payload) := by
  decide

/-- C30 (failing input). Craft type 2, capacities 5000 and 2200 mAh from the flight
controller, mission count 12. (a) Four successive calls of `Pack_Parameters_5007(0x5007)`:
the fourth record (sub-id 6) carries the payload of the third, parameter number 5 and
value 2200, not 6 and 12; `fr_payload` holds the unused 0x0600000C. (b) With
`Pack_AP_status_5001(0x5001)` run between the second and the third call, the third record
(sub-id 5) carries sensor id 0x5001. -/
theorem Pack_Parameters_5007_stale_record :
    ((((Pack_Parameters_5007 1 10 0x5007
        (blankParams [freeRow, freeRow, freeRow, freeRow, freeRow, freeRow])).bind
        (Pack_Parameters_5007 1 20 0x5007)).bind (Pack_Parameters_5007 1 30 0x5007)).bind
        (Pack_Parameters_5007 1 40 0x5007)).map (fun p => p.t.sp.sb) =
      some [row 0x5007 1 10 0x01000002, row 0x5007 4 20 0x04001388,
        row 0x5007 5 30 0x05000898, row 0x5007 6 40 0x05000898, freeRow, freeRow] ∧
    ((((Pack_Parameters_5007 1 10 0x5007
        (blankParams [freeRow, freeRow, freeRow, freeRow, freeRow, freeRow])).bind
        (Pack_Parameters_5007 1 20 0x5007)).bind (Pack_Parameters_5007 1 30 0x5007)).bind
        (Pack_Parameters_5007 1 40 0x5007)).map (fun p => p.t.sp.fr_payload) =
      some 0x0600000C ∧
    bit32Unpack 0x05000898 24 4 = 5 ∧ bit32Unpack 0x05000898 0 24 = 2200 ∧
    ((((Pack_Parameters_5007 1 10 0x5007
        (blankParams [freeRow, freeRow, freeRow, freeRow, freeRow, freeRow])).bind
        (Pack_Parameters_5007 1 20 0x5007)).bind
        (withTele (Pack_AP_status_5001 25 0x5001))).bind
        (Pack_Parameters_5007 1 30 0x5007)).map (fun p => p.t.sp.sb) =
      some [row 0x5007 1 10 0x01000002, row 0x5007 4 20 0x04001388,
        row 0x5001 0 25 1, row 0x5001 5 30 0x05000898, freeRow, freeRow] := by
  decide

end MavToPass
